import Mathlib

/-!
# juice: interop layer of the archive library

A shallow embedding of `apis/scoped_object.h`, `apis/basic_util.h`,
`juice/streaming.h` and `juice/archive.cpp`, followed by the properties
established about them.

Conventions of the embedding:

* machine integers are `Nat`/`Int` with explicit wrap-around;
* a wide string (`std::wstring`, `BSTR` contents) is a `List Char`;
* a `HRESULT` is an `Int` (signed 32 bit); it succeeded iff it is non-negative;
* calls into the host (file system, engine objects) are recorded as events
  and their answers are inputs of the embedded function.
-/

namespace Juice

/-! ## Machine integers -/

/-- Value of a 32-bit two's complement word (`LONG`, `int32`, `int`). -/
def wrapInt32 (x : Int) : Int := (x + 2147483648) % 4294967296 - 2147483648

/-! ## `RefCounted<T>` (scoped_object.h, lines 24-58) -/

/-- The constant `static const int32 kExChangedStep = 1;`. -/
def kExChangedStep : Int := 1

/-- Win32 `InterlockedExchangeAdd(addend, value)`: stores `*addend + value`
(wrapping) and returns the value `*addend` had before the call.  The result
is `(new content of *addend, returned value)`. -/
def InterlockedExchangeAdd (addend value : Int) : Int × Int :=
  (wrapInt32 (addend + value), addend)

/-- State of an object derived from `RefCounted<T>`: the counter, and how many
times `DeleteInternal` has run on the object. -/
structure RefCounted where
  ref_count_ : Int
  deleted : Nat
deriving DecidableEq, Repr

namespace RefCounted

/-- The member `mutable int32 ref_count_ = 0;` on a freshly constructed object. -/
def new : RefCounted := { ref_count_ := 0, deleted := 0 }

/-- Function `RefCounted::AddRef`; the second component is the returned `atom`. -/
def AddRef (o : RefCounted) : RefCounted × Int :=
  let r := InterlockedExchangeAdd o.ref_count_ (wrapInt32 kExChangedStep)
  ({ o with ref_count_ := r.1 }, r.2)

/-- Function `RefCounted::Release`; the second component is the returned `atom`.
`DeleteInternal` runs when the value read back by `InterlockedExchangeAdd`
is `0`. -/
def Release (o : RefCounted) : RefCounted × Int :=
  let step := -kExChangedStep
  let r := InterlockedExchangeAdd o.ref_count_ (wrapInt32 step)
  if 0 = r.2 then
    ({ ref_count_ := r.1, deleted := o.deleted + 1 }, r.2)
  else
    ({ o with ref_count_ := r.1 }, r.2)

/-- The object after `n` consecutive `AddRef` calls. -/
def addRefs : Nat → RefCounted → RefCounted
  | 0, o => o
  | n + 1, o => addRefs n (AddRef o).1

/-- The object after `n` consecutive `Release` calls. -/
def releases : Nat → RefCounted → RefCounted
  | 0, o => o
  | n + 1, o => releases n (Release o).1

end RefCounted

/-! ## Tagged variants (`VARIANT`, `PROPVARIANT`) -/

/-- Truncation of a value to the low `w` bits of a machine word. -/
def lowBits (w : Nat) (x : Int) : Nat := (x % (2 ^ w : Int)).toNat

/-- Signed reading of a `w`-bit field (`w ≥ 1`). -/
def toSigned (w : Nat) (n : Nat) : Int :=
  if n % 2 ^ w < 2 ^ (w - 1) then (n % 2 ^ w : Nat) else ((n % 2 ^ w : Nat) : Int) - (2 ^ w : Nat)

/-- Store into a union member of `w` bits at offset 0 of the 8-byte payload:
the low `w` bits are replaced, the other bits keep their content. -/
def setLow (w : Nat) (bits x : Nat) : Nat := bits / 2 ^ w * 2 ^ w + x % 2 ^ w

def VT_EMPTY : Nat := 0
def VT_NULL : Nat := 1
def VT_I2 : Nat := 2
def VT_I4 : Nat := 3
def VT_R4 : Nat := 4
def VT_R8 : Nat := 5
def VT_CY : Nat := 6
def VT_DATE : Nat := 7
def VT_BSTR : Nat := 8
def VT_DISPATCH : Nat := 9
def VT_ERROR : Nat := 10
def VT_BOOL : Nat := 11
def VT_VARIANT : Nat := 12
def VT_UNKNOWN : Nat := 13
def VT_DECIMAL : Nat := 14
def VT_I1 : Nat := 16
def VT_UI1 : Nat := 17
def VT_UI2 : Nat := 18
def VT_UI4 : Nat := 19
def VT_I8 : Nat := 20
def VT_UI8 : Nat := 21
def VT_INT : Nat := 22
def VT_UINT : Nat := 23
def VT_VOID : Nat := 24
def VT_HRESULT : Nat := 25
def VT_PTR : Nat := 26
def VT_SAFEARRAY : Nat := 27
def VT_CARRAY : Nat := 28
def VT_USERDEFINED : Nat := 29
def VT_LPSTR : Nat := 30
def VT_LPWSTR : Nat := 31
def VT_RECORD : Nat := 36
def VT_INT_PTR : Nat := 37
def VT_UINT_PTR : Nat := 38
def VT_FILETIME : Nat := 64
def VT_BLOB : Nat := 65
def VT_STREAM : Nat := 66
def VT_STORAGE : Nat := 67
def VT_STREAMED_OBJECT : Nat := 68
def VT_STORED_OBJECT : Nat := 69
def VT_BLOB_OBJECT : Nat := 70
def VT_CF : Nat := 71
def VT_CLSID : Nat := 72
def VT_VERSIONED_STREAM : Nat := 73
def VT_BSTR_BLOB : Nat := 0xfff
def VT_VECTOR : Nat := 0x1000
def VT_ARRAY : Nat := 0x2000
def VT_BYREF : Nat := 0x4000
def VT_TYPEMASK : Nat := 0xfff

/-- The constant `VARIANT_TRUE` is `(VARIANT_BOOL)-1`, `VARIANT_FALSE` is `0`. -/
def VARIANT_TRUE : Int := -1
def VARIANT_FALSE : Int := 0

/-- The `HRESULT` values used by the code (winerror.h), as signed 32-bit numbers. -/
def S_OK : Int := 0
def E_NOINTERFACE : Int := wrapInt32 0x80004002
def E_ABORT : Int := wrapInt32 0x80004004
def E_INVALIDARG : Int := wrapInt32 0x80070057

/-- The macro `SUCCEEDED(hr)` is `hr >= 0`. -/
def SUCCEEDED (hr : Int) : Bool := decide (0 ≤ hr)

/-- The macro `FAILED(hr)` is `hr < 0`. -/
def FAILED (hr : Int) : Bool := decide (hr < 0)

/-- A `VARIANT` / `PROPVARIANT` (the two have the same layout, which the code
relies on when it copies one over the other with `memcpy`): the tag, the three
reserved words, the 8-byte payload union read as an unsigned number, and, for a
payload that is a string pointer, the text stored at that address. -/
structure VARIANT where
  vt : Nat
  wReserved1 : Nat
  wReserved2 : Nat
  wReserved3 : Nat
  bits : Nat
  str : List Char
deriving DecidableEq, Repr

abbrev PROPVARIANT := VARIANT

namespace VARIANT

/-- The value `{{{VT_EMPTY}}}`: aggregate initialisation, everything else zero. -/
def empty : VARIANT :=
  { vt := VT_EMPTY, wReserved1 := 0, wReserved2 := 0, wReserved3 := 0, bits := 0, str := [] }

def cVal (v : VARIANT) : Int := toSigned 8 v.bits
def bVal (v : VARIANT) : Nat := v.bits % 2 ^ 8
def iVal (v : VARIANT) : Int := toSigned 16 v.bits
def uiVal (v : VARIANT) : Nat := v.bits % 2 ^ 16
def lVal (v : VARIANT) : Int := toSigned 32 v.bits
def intVal (v : VARIANT) : Int := toSigned 32 v.bits
def ulVal (v : VARIANT) : Nat := v.bits % 2 ^ 32
def llVal (v : VARIANT) : Int := toSigned 64 v.bits
def ullVal (v : VARIANT) : Nat := v.bits % 2 ^ 64
def uhVal (v : VARIANT) : Nat := v.bits % 2 ^ 64
def fltVal (v : VARIANT) : Nat := v.bits % 2 ^ 32
def dblVal (v : VARIANT) : Nat := v.bits % 2 ^ 64
def date (v : VARIANT) : Nat := v.bits % 2 ^ 64
def boolVal (v : VARIANT) : Int := toSigned 16 v.bits
/-- The pointer members (`bstrVal`, `punkVal`, `pdispVal`, `parray`): the address. -/
def pointer (v : VARIANT) : Nat := v.bits % 2 ^ 64
/-- The text a `bstrVal` points to. -/
def bstrVal (v : VARIANT) : List Char := v.str

end VARIANT

/-- A `FILETIME`: two 32-bit words. -/
structure FILETIME where
  dwLowDateTime : Nat
  dwHighDateTime : Nat
deriving DecidableEq, Repr

/-- The `filetime` member of the payload union. -/
def VARIANT.filetime (v : VARIANT) : FILETIME :=
  { dwLowDateTime := v.bits % 2 ^ 32, dwHighDateTime := v.bits / 2 ^ 32 % 2 ^ 32 }

/-- The `case` labels of the `switch` in `ScopedVariant::IsLeakableVarType`. -/
def leakableCases : List Nat :=
  [VT_BSTR, VT_DISPATCH, VT_VARIANT, VT_UNKNOWN, VT_SAFEARRAY, VT_VOID, VT_PTR, VT_CARRAY,
   VT_USERDEFINED, VT_LPSTR, VT_LPWSTR, VT_RECORD, VT_INT_PTR, VT_UINT_PTR, VT_FILETIME,
   VT_BLOB, VT_STREAM, VT_STORAGE, VT_STREAMED_OBJECT, VT_STORED_OBJECT, VT_BLOB_OBJECT,
   VT_VERSIONED_STREAM, VT_BSTR_BLOB]

/-- Function `ScopedVariant::IsLeakableVarType` (scoped_object.h, lines 627-662). -/
def IsLeakableVarType (vt : Nat) : Bool :=
  let leakable : Bool := decide ((vt &&& VT_TYPEMASK) ∈ leakableCases)
  if !leakable && decide ((vt &&& VT_ARRAY) ≠ 0) then true else leakable

/-! ### The host's clear functions

`VariantClear` and `PropVariantClear` belong to the operating system.  Their
contract: when the call succeeds, a payload the variant owns is released (the
string freed, the object reference released, the array destroyed) and the
tag is set to `VT_EMPTY`, `PropVariantClear` zeroing the whole structure as
well; when the call fails the variant is left as it was.  Which result the call
has is an input of the embedding. -/

/-- Tags, among those the setters of `ScopedVariant` produce, whose payload
the host's clear functions release: string, object references, arrays, unless
the payload is held by reference. -/
def hostOwnsPayload (vt : Nat) : Bool :=
  decide ((vt &&& VT_BYREF) = 0) &&
    (decide ((vt &&& VT_TYPEMASK) ∈ [VT_BSTR, VT_DISPATCH, VT_UNKNOWN]) ||
     decide ((vt &&& VT_ARRAY) ≠ 0))

/-- The heap effects on payloads: the addresses released so far, oldest first. -/
abbrev ReleaseLog := List Nat

/-- The release a successful clear of `v` performs. -/
def releasePayload (v : VARIANT) (log : ReleaseLog) : ReleaseLog :=
  if hostOwnsPayload v.vt then log ++ [v.pointer] else log

/-- The host call `::VariantClear(&v)` with result `hr`. -/
def VariantClear (hr : Int) (v : VARIANT) (log : ReleaseLog) : VARIANT × ReleaseLog :=
  if FAILED hr then (v, log)
  else ({ v with vt := VT_EMPTY }, releasePayload v log)

/-- The host call `::PropVariantClear(&v)` with result `hr`. -/
def PropVariantClear (hr : Int) (v : PROPVARIANT) (log : ReleaseLog) :
    PROPVARIANT × ReleaseLog :=
  if FAILED hr then (v, log)
  else (VARIANT.empty, releasePayload v log)

/-! ## `ScopedVariant` (scoped_object.h, lines 358-675) -/

/-- The argument of one of the typed setters `ScopedVariant::Set` / `SetDate`.
Floating point values are carried as their bit patterns.  For the setters that
call into the host the host's answer is part of the argument: the address
`SysAllocString` returned, the result and element type `SafeArrayGetVartype`
reported, the result of `VariantCopy` and what it left in the destination. -/
inductive SetArg where
  | i8 (x : Int)
  | ui8 (x : Nat)
  | i16 (x : Int)
  | ui16 (x : Nat)
  | i32 (x : Int)
  | ui32 (x : Nat)
  | i64 (x : Int)
  | ui64 (x : Nat)
  | r32 (pattern : Nat)
  | r64 (pattern : Nat)
  | bool (b : Bool)
  | date (pattern : Nat)
  | str (text : List Char) (allocated : Nat)
  | disp (p : Nat)
  | unk (p : Nat)
  | array (p : Nat) (hr : Int) (elemVt : Nat)
  | variant (hr : Int) (copied : VARIANT)
deriving DecidableEq, Repr

namespace ScopedVariant

/-- The constructor `ScopedVariant() { var_.vt = VT_EMPTY; }`; the other bytes of `var_` are
not initialised, so they are inputs. -/
def new (garbage : VARIANT) : VARIANT := { garbage with vt := VT_EMPTY }

/-- The constructor `explicit ScopedVariant(int value, VARTYPE vt = VT_I4)` (lines 374-377):
`var_.vt = vt; var_.lVal = value;`, with no check of `vt`; the other bytes
of `var_` are not initialised. -/
def newInt (garbage : VARIANT) (value : Int) (vt : Nat) : VARIANT :=
  { garbage with vt := vt % 2 ^ 16, bits := setLow 32 garbage.bits (lowBits 32 value) }

/-- The typed setters.  Each starts with `assert(!IsLeakableVarType(var_.vt))`;
a failed assertion is `none`.  The result is the new `var_` and the objects on
which the setter called `AddRef`. -/
def Set (a : SetArg) (var_ : VARIANT) : Option (VARIANT × List Nat) :=
  if IsLeakableVarType var_.vt then none
  else
    some <|
      match a with
      | .i8 x => ({ var_ with vt := VT_I1, bits := setLow 8 var_.bits (lowBits 8 x) }, [])
      | .ui8 x => ({ var_ with vt := VT_UI1, bits := setLow 8 var_.bits x }, [])
      | .i16 x => ({ var_ with vt := VT_I2, bits := setLow 16 var_.bits (lowBits 16 x) }, [])
      | .ui16 x => ({ var_ with vt := VT_UI2, bits := setLow 16 var_.bits x }, [])
      | .i32 x => ({ var_ with vt := VT_I4, bits := setLow 32 var_.bits (lowBits 32 x) }, [])
      | .ui32 x => ({ var_ with vt := VT_UI4, bits := setLow 32 var_.bits x }, [])
      | .i64 x => ({ var_ with vt := VT_I8, bits := setLow 64 var_.bits (lowBits 64 x) }, [])
      | .ui64 x => ({ var_ with vt := VT_UI8, bits := setLow 64 var_.bits x }, [])
      | .r32 x => ({ var_ with vt := VT_R4, bits := setLow 32 var_.bits x }, [])
      | .r64 x => ({ var_ with vt := VT_R8, bits := setLow 64 var_.bits x }, [])
      | .bool b =>
          ({ var_ with
              vt := VT_BOOL,
              bits := setLow 16 var_.bits
                (lowBits 16 (if b then VARIANT_TRUE else VARIANT_FALSE)) }, [])
      | .date x => ({ var_ with vt := VT_DATE, bits := setLow 64 var_.bits x }, [])
      | .str text allocated =>
          ({ var_ with vt := VT_BSTR, bits := setLow 64 var_.bits allocated, str := text }, [])
      | .disp p =>
          ({ var_ with vt := VT_DISPATCH, bits := setLow 64 var_.bits p },
            if p % 2 ^ 64 ≠ 0 then [p] else [])
      | .unk p =>
          ({ var_ with vt := VT_UNKNOWN, bits := setLow 64 var_.bits p },
            if p % 2 ^ 64 ≠ 0 then [p] else [])
      | .array p hr elemVt =>
          if SUCCEEDED hr then
            ({ var_ with
                vt := ((elemVt % 2 ^ 16) ||| VT_ARRAY) % 2 ^ 16,
                bits := setLow 64 var_.bits p }, [])
          else ({ var_ with vt := VT_EMPTY }, [])
      | .variant hr copied =>
          if FAILED hr then ({ copied with vt := VT_EMPTY }, []) else (copied, [])

/-- Function `VARIANT Release()`: hands the payload to the caller and empties the tag.
The result is `(new var_, returned VARIANT)`. -/
def Release (var_ : VARIANT) : VARIANT × VARIANT :=
  let var := var_
  ({ var_ with vt := VT_EMPTY }, var)

/-- The call `std::memcpy(dst, src, sizeof(PROPVARIANT))`. -/
def memcpy (_dst src : VARIANT) : VARIANT := src

/-- Function `HRESULT Release(PROPVARIANT* var)` (lines 432-442).  `clearHr` is the
result `::PropVariantClear(var)` has when it is called.  The result is
`(returned HRESULT, var_ after the call, *var after the call, release log)`. -/
def ReleaseInto (clearHr : Int) (var_ : VARIANT) (var : PROPVARIANT) (log : ReleaseLog) :
    Int × VARIANT × PROPVARIANT × ReleaseLog :=
  if IsLeakableVarType var.vt then
    let cleared := PropVariantClear clearHr var log
    if FAILED clearHr then (clearHr, var_, cleared.1, cleared.2)
    else (S_OK, var_, memcpy cleared.1 var_, cleared.2)
  else
    let var1 : PROPVARIANT := { var with vt := VT_EMPTY, wReserved1 := 0 }
    (S_OK, var_, memcpy var1 var_, log)

/-- The destructor `~ScopedVariant() { ::VariantClear(&var_); }`, the host call having result `clearHr`. -/
def destroy (clearHr : Int) (var_ : VARIANT) (log : ReleaseLog) : VARIANT × ReleaseLog :=
  VariantClear clearHr var_ log

/-- Function `Reset(const VARIANT& var)` for a `var` that is not `var_` itself. -/
def Reset (clearHr : Int) (var : VARIANT) (var_ : VARIANT) (log : ReleaseLog) :
    VARIANT × ReleaseLog :=
  let cleared := VariantClear clearHr var_ log
  (var, cleared.2)

end ScopedVariant

/-! ### The spec's classification of tags -/

/-- The tags the specification calls inline: empty, boolean, the numbers
(8/16/32/64-bit signed and unsigned integers, 32/64-bit floating point), date. -/
def specInlineTag (vt : Nat) : Prop :=
  vt ∈ [VT_EMPTY, VT_BOOL, VT_I1, VT_UI1, VT_I2, VT_UI2, VT_I4, VT_UI4, VT_I8, VT_UI8,
        VT_R4, VT_R8, VT_DATE]

instance (vt : Nat) : Decidable (specInlineTag vt) := by
  unfold specInlineTag; infer_instance

/-- The tags the specification calls owning: string, object reference, array
(any tag carrying the array flag). -/
def specOwningTag (vt : Nat) : Prop :=
  vt = VT_BSTR ∨ vt = VT_DISPATCH ∨ vt = VT_UNKNOWN ∨ (vt &&& VT_ARRAY) ≠ 0

instance (vt : Nat) : Decidable (specOwningTag vt) := by
  unfold specOwningTag; infer_instance

/-- The setters for the primitive kinds (boolean, numbers, date). -/
def SetArg.isPrimitive : SetArg → Bool
  | .i8 _ | .ui8 _ | .i16 _ | .ui16 _ | .i32 _ | .ui32 _ | .i64 _ | .ui64 _
  | .r32 _ | .r64 _ | .bool _ | .date _ => true
  | _ => false

/-- The argument is a value of the C++ parameter type of its setter. -/
def SetArg.inRange : SetArg → Prop
  | .i8 x => -128 ≤ x ∧ x < 128
  | .ui8 x => x < 256
  | .i16 x => -32768 ≤ x ∧ x < 32768
  | .ui16 x => x < 65536
  | .i32 x => -2147483648 ≤ x ∧ x < 2147483648
  | .ui32 x => x < 4294967296
  | .i64 x => -9223372036854775808 ≤ x ∧ x < 9223372036854775808
  | .ui64 x => x < 18446744073709551616
  | .r32 x => x < 4294967296
  | .r64 x => x < 18446744073709551616
  | .date x => x < 18446744073709551616
  | _ => True

/-- The tag of the kind a setter sets. -/
def SetArg.tag : SetArg → Nat
  | .i8 _ => VT_I1
  | .ui8 _ => VT_UI1
  | .i16 _ => VT_I2
  | .ui16 _ => VT_UI2
  | .i32 _ => VT_I4
  | .ui32 _ => VT_UI4
  | .i64 _ => VT_I8
  | .ui64 _ => VT_UI8
  | .r32 _ => VT_R4
  | .r64 _ => VT_R8
  | .bool _ => VT_BOOL
  | .date _ => VT_DATE
  | .str _ _ => VT_BSTR
  | .disp _ => VT_DISPATCH
  | .unk _ => VT_UNKNOWN
  | .array _ _ _ => VT_ARRAY
  | .variant _ c => c.vt

/-- Reading the union member of the setter's kind gives back the value given. -/
def SetArg.readsBack : SetArg → VARIANT → Prop
  | .i8 x, v => v.cVal = x
  | .ui8 x, v => v.bVal = x
  | .i16 x, v => v.iVal = x
  | .ui16 x, v => v.uiVal = x
  | .i32 x, v => v.lVal = x
  | .ui32 x, v => v.ulVal = x
  | .i64 x, v => v.llVal = x
  | .ui64 x, v => v.ullVal = x
  | .r32 x, v => v.fltVal = x
  | .r64 x, v => v.dblVal = x
  | .bool b, v => v.boolVal = (if b then VARIANT_TRUE else VARIANT_FALSE)
  | .date x, v => v.date = x
  | _, _ => True

/-- A string variant as the setter for strings leaves it on a fresh
`ScopedVariant` when `SysAllocString` returned address `4096` for `L"a"`. -/
def stringVariantExample : VARIANT :=
  { vt := VT_BSTR, wReserved1 := 0, wReserved2 := 0, wReserved3 := 0, bits := 4096,
    str := ['a'] }

/-! ## `ScopedPropVariant` (scoped_object.h, lines 680-710) -/

namespace ScopedPropVariant

/-- The constructor `ScopedPropVariant() { PropVariantInit(&pv_); }`. -/
def new : PROPVARIANT := VARIANT.empty

/-- Function `Receive()`: `assert(pv_.vt == VT_EMPTY); return &pv_;`; `none` is the failed
assertion. -/
def Receive (pv_ : PROPVARIANT) : Option PROPVARIANT :=
  if pv_.vt = VT_EMPTY then some pv_ else none

/-- Function `Reset()`: clears a non-empty `pv_` through the host, whose result is
`clearHr`, and asserts that the result is `S_OK`; `none` is the failed
assertion. -/
def Reset (clearHr : Int) (pv_ : PROPVARIANT) (log : ReleaseLog) :
    Option (PROPVARIANT × ReleaseLog) :=
  if pv_.vt ≠ VT_EMPTY then
    let cleared := PropVariantClear clearHr pv_ log
    if clearHr = S_OK then some cleared else none
  else some (pv_, log)

end ScopedPropVariant

/-! ## Path utilities (basic_util.h, lines 23-158) -/

/-- The type `std::wstring`. -/
abbrev WString := List Char

/-- The constant `std::wstring::npos`, the largest `size_t` (64-bit build). -/
def npos : Nat := 2 ^ 64 - 1

/-- Addition of `size_t` values, wrapping. -/
def sizeAdd (a b : Nat) : Nat := (a + b) % 2 ^ 64

/-- Subtraction of `size_t` values, wrapping. -/
def sizeSub (a b : Nat) : Nat := (a % 2 ^ 64 + 2 ^ 64 - b % 2 ^ 64) % 2 ^ 64

/-- The constant `const wchar_t kStringTerminator = L'\0';`. -/
def kStringTerminator : Char := Char.ofNat 0

/-- The array `const wchar_t kSeparators[] = L"\\/";` with its terminator. -/
def kSeparators : List Char := ['\\', '/', kStringTerminator]

/-- The constant `arraysize(kSeparators)`. -/
def kSeparatorsLength : Nat := kSeparators.length

/-- The constant `const wchar_t kCurrentDirectory[] = L".";`. -/
def kCurrentDirectory : WString := ['.']

/-- The call `s.c_str()` read as a C string: the characters before the first
terminator. -/
def c_str (s : WString) : WString := s.takeWhile (fun c => c != kStringTerminator)

/-- The access `s[i]`: the character at `i`, the terminator at `i = s.length()`. -/
def charAt (s : WString) (i : Nat) : Char := s.getD i kStringTerminator

/-- The call `s.resize(n)`: truncates, or pads with terminators. -/
def resize (s : WString) (n : Nat) : WString :=
  s.take n ++ List.replicate (n - s.length) kStringTerminator

/-- Function `IsSeparator` (basic_util.h, lines 45-52): the loop over
`i < kSeparatorsLength - 1`. -/
def IsSeparator (character : Char) : Bool :=
  (kSeparators.take (kSeparatorsLength - 1)).any (fun s => character == s)

/-- Function `FindDriveLetter` (basic_util.h, lines 54-63). -/
def FindDriveLetter (path : WString) : Nat :=
  if path.length ≥ 2 ∧ charAt path 1 = ':' ∧
      (('A' ≤ charAt path 0 ∧ charAt path 0 ≤ 'Z') ∨
       ('a' ≤ charAt path 0 ∧ charAt path 0 ≤ 'z')) then 1
  else npos

/-- The `for` loop of `StripTrailingSeparators`, entered with loop variable
`pos`, current `path` and `last_stripped`. -/
def stripLoop (start : Nat) : Nat → WString → Nat → WString
  | 0, path, _ => path
  | pos + 1, path, last_stripped =>
    if pos + 1 > start ∧ IsSeparator (charAt path pos) = true then
      if pos + 1 ≠ sizeAdd start 1 ∨ last_stripped = sizeAdd start 2 ∨
          IsSeparator (charAt path (start - 1)) = false then
        stripLoop start pos (resize path pos) (pos + 1)
      else
        stripLoop start pos path last_stripped
    else path

/-- Function `StripTrailingSeparators` (basic_util.h, lines 65-77). -/
def StripTrailingSeparators (path : WString) : WString :=
  let start := sizeAdd (FindDriveLetter path) 2
  stripLoop start path.length path npos

/-- Function `IsPathAbsolute` (basic_util.h, lines 79-87). -/
def IsPathAbsolute (path : WString) : Bool :=
  let letter := FindDriveLetter path
  if letter ≠ npos then
    decide (path.length > sizeAdd letter 1) && IsSeparator (charAt path (sizeAdd letter 1))
  else
    decide (path.length > 1) && IsSeparator (charAt path 0) && IsSeparator (charAt path 1)

/-- Index of the last character satisfying `p`, if any. -/
def findLastIdx (p : Char → Bool) : WString → Option Nat
  | [] => none
  | c :: cs =>
    match findLastIdx p cs with
    | some i => some (i + 1)
    | none => if p c then some 0 else none

/-- The call `path.find_last_of(kSeparators, npos, kSeparatorsLength - 1)`. -/
def find_last_of (path : WString) (chars : List Char) : Nat :=
  match findLastIdx (fun c => chars.contains c) path with
  | some i => i
  | none => npos

/-- The call `s.find(c)`: index of the first occurrence, `npos` if there is none. -/
def find (s : WString) (c : Char) : Nat :=
  match s.findIdx? (fun x => x == c) with
  | some i => i
  | none => npos

/-- Function `GetParent` (basic_util.h, lines 89-118). -/
def GetParent (path0 : WString) : WString :=
  let path := StripTrailingSeparators path0
  let letter := FindDriveLetter path
  let last_separator := find_last_of path (kSeparators.take (kSeparatorsLength - 1))
  let path :=
    if last_separator = npos then resize path (sizeAdd letter 1)
    else if last_separator = sizeAdd letter 1 then resize path (sizeAdd letter 2)
    else if last_separator = sizeAdd letter 2 ∧
        IsSeparator (charAt path (sizeAdd letter 1)) = true then
      resize path (sizeAdd letter 3)
    else if last_separator ≠ 0 then resize path last_separator
    else path
  let path := StripTrailingSeparators path
  if path.length = 0 then kCurrentDirectory else path

/-- Function `Append` (basic_util.h, lines 133-158). -/
def Append (path0 : WString) (component : WString) : WString :=
  let nul_pos := find component kStringTerminator
  let appended := if nul_pos ≠ npos then component.take nul_pos else component
  if path0.length ≤ 0 then appended
  else if appended.length ≤ 0 then path0
  else if path0 = kCurrentDirectory then appended
  else if IsPathAbsolute appended then []
  else
    let path := StripTrailingSeparators path0
    let path :=
      if IsSeparator (charAt path (sizeSub path.length 1)) = false then
        if sizeAdd (FindDriveLetter path) 1 ≠ path.length then path ++ [charAt kSeparators 0]
        else path
      else path
    path ++ appended

/-- The structure `x::PlatformFileInfo`. -/
structure PlatformFileInfo where
  size : Nat
  attributes : Nat
  directory : Bool
  creation_time : FILETIME
  last_modified : FILETIME
  last_accessed : FILETIME
  filename : WString
  path : WString
deriving DecidableEq, Repr

/-- The constructor `PlatformFileInfo() {}`: `size = 0`, `attributes = 0`, `directory = false`,
empty strings; the three `FILETIME` members have no initialiser, their
content (`t1`, `t2`, `t3`) is whatever the memory held. -/
def PlatformFileInfo.new (t1 t2 t3 : FILETIME) : PlatformFileInfo :=
  { size := 0, attributes := 0, directory := false, creation_time := t1, last_modified := t2,
    last_accessed := t3, filename := [], path := [] }

/-! ## Faults, host calls -/

/-- Ways in which the C++ code leaves the normal flow of control. -/
inductive Fault where
  /-- The call `std::vector::at` threw `std::out_of_range`. -/
  | out_of_range
  /-- An `assert` failed. -/
  | assertion
  /-- An array was read past its last element. -/
  | out_of_bounds_read
  /-- A null pointer was dereferenced. -/
  | null_dereference
  /-- A call of a caller-supplied `std::function` left by a C++ exception
  (`std::bad_function_call` for an empty function, or what its target threw). -/
  | callback_exception
deriving DecidableEq, Repr

deriving instance DecidableEq for Except

/-! ## Format registry (archive.h, lines 29-41; archive.cpp, lines 37-66) -/

/-- Modelled from the spec: the class identities of the engine's format
handlers, which `guids.h` defines and the sources do not contain.  Each name
is an object of type `GUID`; the registry stores addresses of these objects. -/
inductive CLSID where
  | CLSID_CFormat7z
  | CLSID_CFormatZip
  | CLSID_CFormatGZip
  | CLSID_CFormatBZip2
  | CLSID_CFormatRar
  | CLSID_CFormatTar
  | CLSID_CFormatIso
  | CLSID_CFormatCab
  | CLSID_CFormatLzma
  | CLSID_CFormatLzma86
deriving DecidableEq, Repr

/-- The type `juice::Format`, an `enum class` with underlying type `std::size_t`: a
value is its ordinal, and every `size_t` is a value of the type. -/
abbrev Format := Nat

namespace Format
def SEVENZ : Format := 0
def ZIP : Format := 1
def GZIP : Format := 2
def BZIP2 : Format := 3
def RAR : Format := 4
def TAR : Format := 5
def ISO : Format := 6
def CAB : Format := 7
def LZMA : Format := 8
def LZMA86 : Format := 9
def LAST : Format := 10
end Format

/-- Modelled from the spec: `enumerate_cast` of `apis/enumerate.h`, which is
not among the sources: the ordinal of a selector, as a `size_t`. -/
def enumerate_cast (format : Format) : Nat := format % 2 ^ 64

/-- The table `guid` of `FormatGUID`: `some c` is the pointer `&c`, `none`
would be a null pointer. -/
def guid : List (Option CLSID) :=
  [some .CLSID_CFormat7z, some .CLSID_CFormatZip, some .CLSID_CFormatGZip,
   some .CLSID_CFormatBZip2, some .CLSID_CFormatRar, some .CLSID_CFormatTar,
   some .CLSID_CFormatIso, some .CLSID_CFormatCab, some .CLSID_CFormatLzma,
   some .CLSID_CFormatLzma86, some .CLSID_CFormat7z]

/-- The table `extension` of `FormatExtension`. -/
def extension : List WString :=
  [".7z".toList, ".zip".toList, ".gz".toList, ".bz".toList, ".rar".toList, ".tar".toList,
   ".iso".toList, ".cab".toList, ".lzma".toList, ".lzma86".toList, ".zip".toList]

/-- Function `FormatGUID`: `guid[id]` with `id = max(0, min(formats, guid.size()))`.
`std::array::operator[]` does not check its index; an index outside the table
is the fault `out_of_bounds_read`. -/
def FormatGUID (format : Format) : Except Fault (Option CLSID) :=
  let formats := enumerate_cast format
  let id := min formats guid.length
  let id := max 0 id
  match guid[id]? with
  | some p => .ok p
  | none => .error .out_of_bounds_read

/-- Function `FormatExtension`: `extension[id]` with the same index computation. -/
def FormatExtension (format : Format) : Except Fault WString :=
  let formats := enumerate_cast format
  let id := min formats extension.length
  let id := max 0 id
  match extension[id]? with
  | some p => .ok p
  | none => .error .out_of_bounds_read

/-- The constant `kExtensionSeparator`, `L"."`. -/
def kExtensionSeparator : WString := ['.']

/-- Modelled from the spec: the interface identities, which the headers of
the engine and of the platform declare and the sources do not contain.
`IID_IInArchive` and `IID_IOutArchive` are handed to the engine's factory for a
reader and for a writer; the others are the identities the capability objects
of the core answer to.  Only the fact that they are distinct is used; `other`
stands for every further identity. -/
inductive IID where
  | IID_IInArchive
  | IID_IOutArchive
  | IID_IUnknown
  | IID_ISequentialInStream
  | IID_IInStream
  | IID_IStreamGetSize
  | IID_ISequentialOutStream
  | IID_IOutStream
  | IID_IArchiveOpenCallback
  | IID_ICryptoGetTextPassword
  | IID_IArchiveExtractCallback
  | IID_IArchiveUpdateCallback
  | IID_ICryptoGetTextPassword2
  | IID_ICompressProgressInfo
  | other (n : Nat)
deriving DecidableEq, Repr

/-- Calls the code makes on its collaborators (file system, progress sink,
metadata callback, engine objects), in the order in which it makes them. -/
inductive Event where
  /-- The call `x::CreatePathTree(path)`. -/
  | CreatePathTree (path : WString)
  /-- The call `x::Open(path, read)`. -/
  | OpenFile (path : WString) (read : Bool)
  /-- The call `callback_->StartProgress(path, bytes)`. -/
  | StartProgress (path : WString) (bytes : Nat)
  /-- The call `callback_->Progressed(path, bytes)`. -/
  | Progressed (path : WString) (bytes : Nat)
  /-- The `OpenCallback` of `Archive::Open`: `callback(path, bytes)`. -/
  | Callback (path : WString) (bytes : Nat)
  /-- The engine's factory, called for a class identity. -/
  | CreateObject (clsid : CLSID) (iid : IID)
  /-- The call `archive->Open(stream, 0, openning)`. -/
  | ReaderOpen
  /-- The call `archive->Close()`. -/
  | ReaderClose
  /-- The call `archive->Extract(nullptr, -1, FALSE, extractting)`. -/
  | ReaderExtract
  /-- The call `archive->UpdateItems(streamming, numItems, compressing)`. -/
  | WriterUpdateItems (numItems : Nat)
deriving DecidableEq, Repr

/-- The function `HRESULT_FROM_WIN32(x)` (winerror.h), `x` a `DWORD`:
`(HRESULT)x <= 0 ? (HRESULT)x : (HRESULT)((x & 0x0000FFFF) | (FACILITY_WIN32 << 16) | 0x80000000)`. -/
def HRESULT_FROM_WIN32 (x : Nat) : Int :=
  if wrapInt32 (x % 2 ^ 32) ≤ 0 then wrapInt32 (x % 2 ^ 32)
  else wrapInt32 (((x % 2 ^ 32) &&& 0x0000FFFF) ||| (7 <<< 16) ||| 0x80000000 : Nat)

/-- Modelled from the spec: the property identities of the engine (path,
attributes, is-directory, modified time, size, is-anti), which the engine's
header `PropID.h` declares and the sources do not contain.  Only the fact that
they are distinct numbers is used; `other` stands for every further identity. -/
inductive PROPID where
  | kpidPath
  | kpidIsDir
  | kpidSize
  | kpidAttrib
  | kpidMTime
  | kpidIsAnti
  | other (n : Nat)
deriving DecidableEq, Repr

/-- Modelled from the spec: `NArchive::NExtract::NAskMode::kExtract`, the ask
mode "extract" of the engine's header `IArchive.h` (the first enumerator). -/
def kExtract : Int := 0

/-- The reader's `GetProperty(index, propID, &prop)`: the `HRESULT` and what
the call left in the (empty) variant handed to it. -/
abbrev PropertySource := Nat → PROPID → Int × PROPVARIANT

/-! ## `ArchiveExtractting` (streaming.h, lines 160-294) -/

/-- The members of `ArchiveExtractting`; `callback_` is kept as "is not null",
`archive_` is the reader whose answers are inputs of the methods. -/
structure ArchiveExtractting where
  file_ : PlatformFileInfo
  root_ : WString
  callback_ : Bool
deriving DecidableEq, Repr

/-- What `GetStream` leaves behind: the object, the returned `HRESULT`, what
was stored into `*outStream` (`none`: nothing stored; `some none`: `nullptr`;
`some (some p)`: a new `WriteFileStreamming` over the file opened at `p`) and
the host calls made. -/
structure GetStreamResult where
  self : ArchiveExtractting
  hr : Int
  outStream : Option (Option WString)
  events : List Event
deriving DecidableEq, Repr

namespace ArchiveExtractting

/-- The constructor: `archive_(archive), callback_(callback), root_(root)`, and
`file_` default constructed. -/
def new (root : WString) (callback : Bool) (t1 t2 t3 : FILETIME) : ArchiveExtractting :=
  { file_ := PlatformFileInfo.new t1 t2 t3, root_ := root, callback_ := callback }

/-- The assignment `file_.filename = b;` for a `bool b`: the assignment selects
`std::wstring::operator=(wchar_t)`, the string becomes the single character
whose code is `1` or `0`. -/
def wstringOfBool (b : Bool) : WString := [Char.ofNat (if b then 1 else 0)]

/-- Lines 193-202: the path property.  The assignment `file_.filename = prop.get().bstrVal;`
reads the string through its pointer as a C string, up to the first terminator;
the pointer is taken to be non-null. -/
def readPath (file_ : PlatformFileInfo) (answer : Int × PROPVARIANT) : PlatformFileInfo :=
  if SUCCEEDED answer.1 then
    if answer.2.vt = VT_EMPTY then { file_ with filename := "[Content]".toList }
    else if answer.2.vt = VT_BSTR then { file_ with filename := c_str answer.2.bstrVal }
    else file_
  else file_

/-- Lines 204-212: the attributes property. -/
def readAttrib (file_ : PlatformFileInfo) (answer : Int × PROPVARIANT) : PlatformFileInfo :=
  if SUCCEEDED answer.1 then
    if answer.2.vt = VT_EMPTY then { file_ with attributes := 0 }
    else if answer.2.vt = VT_UI4 then { file_ with attributes := answer.2.ulVal }
    else file_
  else file_

/-- Lines 214-222: the is-directory property.  For a boolean answer the
assignment goes to `file_.filename`. -/
def readIsDir (file_ : PlatformFileInfo) (answer : Int × PROPVARIANT) : PlatformFileInfo :=
  if SUCCEEDED answer.1 then
    if answer.2.vt = VT_EMPTY then { file_ with directory := false }
    else if answer.2.vt = VT_BOOL then
      { file_ with filename := wstringOfBool (decide (answer.2.boolVal ≠ VARIANT_FALSE)) }
    else file_
  else file_

/-- Lines 224-233: the modified-time property. -/
def readMTime (file_ : PlatformFileInfo) (answer : Int × PROPVARIANT) : PlatformFileInfo :=
  if SUCCEEDED answer.1 then
    if answer.2.vt = VT_EMPTY then
      { file_ with last_modified := { dwLowDateTime := 0, dwHighDateTime := 0 } }
    else if answer.2.vt = VT_FILETIME then { file_ with last_modified := answer.2.filetime }
    else file_
  else file_

/-- Lines 235-251: the size property. -/
def readSize (file_ : PlatformFileInfo) (answer : Int × PROPVARIANT) : PlatformFileInfo :=
  if SUCCEEDED answer.1 then
    if answer.2.vt = VT_EMPTY then { file_ with size := 0 }
    else if answer.2.vt = VT_UI1 then { file_ with size := answer.2.bVal }
    else if answer.2.vt = VT_UI2 then { file_ with size := answer.2.uiVal }
    else if answer.2.vt = VT_UI4 then { file_ with size := answer.2.ulVal }
    else if answer.2.vt = VT_UI8 then { file_ with size := answer.2.uhVal }
    else { file_ with size := 0 }
  else file_

/-- Lines 193-253: the item metadata after the five property queries and the
computation of the destination path. -/
def readItem (self : ArchiveExtractting) (index : Nat) (archive_ : PropertySource) :
    PlatformFileInfo :=
  let f := readPath self.file_ (archive_ index .kpidPath)
  let f := readAttrib f (archive_ index .kpidAttrib)
  let f := readIsDir f (archive_ index .kpidIsDir)
  let f := readMTime f (archive_ index .kpidMTime)
  let f := readSize f (archive_ index .kpidSize)
  { f with path := Append self.root_ f.filename }

/-- Function `GetStream(index, outStream, askExtractMode)` (lines 191-272).  `archive_`
gives the reader's answers, `opened` tells whether `x::Open(file_.path, false)`
returned a stream, `lastError` is the value of `::GetLastError()`.  The local
`ScopedPropVariant prop` is handed empty to each query and reset after it; the
host's clear of a variant the reader filled is taken to succeed. -/
def GetStream (self : ArchiveExtractting) (index : Nat) (askExtractMode : Int)
    (archive_ : PropertySource) (opened : Bool) (lastError : Nat) : GetStreamResult :=
  if askExtractMode ≠ kExtract then
    { self := self, hr := S_OK, outStream := none, events := [] }
  else
    let f := readItem self index archive_
    if f.directory then
      { self := { self with file_ := f }, hr := S_OK, outStream := some none,
        events := [.CreatePathTree f.path] }
    else
      let directory := GetParent f.path
      let events := [Event.CreatePathTree directory, Event.OpenFile f.path false]
      if !opened then
        { self := { self with file_ := { f with path := [] } },
          hr := HRESULT_FROM_WIN32 lastError, outStream := none, events := events }
      else
        { self := { self with file_ := f }, hr := S_OK, outStream := some (some f.path),
          events := events }

/-- Function `SetTotal(size)` (lines 184-187): the returned `HRESULT` and the calls made. -/
def SetTotal (self : ArchiveExtractting) (size : Nat) : Int × List Event :=
  (S_OK, if self.callback_ then [.StartProgress self.file_.path size] else [])

/-- One `GetStream` call as the engine makes it: index, ask mode, and the
host's answers for the open of the output file. -/
structure GetStreamCall where
  index : Nat
  askExtractMode : Int
  opened : Bool
  lastError : Nat
deriving DecidableEq, Repr

/-- The object after a sequence of `GetStream` calls. -/
def afterCalls (archive_ : PropertySource) :
    ArchiveExtractting → List GetStreamCall → ArchiveExtractting
  | self, [] => self
  | self, c :: cs =>
    afterCalls archive_
      (GetStream self c.index c.askExtractMode archive_ c.opened c.lastError).self cs

end ArchiveExtractting

/-! ## `ArchiveCompressing` (streaming.h, lines 296-390) -/

/-- The members of `ArchiveCompressing`. -/
structure ArchiveCompressing where
  file_list_ : List PlatformFileInfo
  path_ : WString
  callback_ : Bool
deriving DecidableEq, Repr

/-- The host's answers during one `ArchiveCompressing::GetProperty` call: the
uninitialised bytes of the local `ScopedVariant var`, the address
`SysAllocString` returns, the result of `PropVariantClear` on `*value` and the
result of `VariantClear` in the destructor of `var`. -/
structure PropertyHost where
  garbage : VARIANT
  allocated : Nat
  propClearHr : Int
  clearHr : Int
deriving DecidableEq, Repr

/-- What `GetProperty` leaves behind: the returned `HRESULT`, the content of
`*value`, and the payloads released. -/
structure GetPropertyResult where
  hr : Int
  value : PROPVARIANT
  log : ReleaseLog
deriving DecidableEq, Repr

namespace ArchiveCompressing

/-- The call `file_list_.at(index)` of `std::vector`. -/
def vectorAt (file_list_ : List PlatformFileInfo) (index : Nat) : Except Fault PlatformFileInfo :=
  match file_list_[index]? with
  | some info => .ok info
  | none => .error .out_of_range

/-- The tail of `GetProperty`: `var.Release(value); return S_OK;` followed by
the destructor of `var`. -/
def releaseAndReturn (host : PropertyHost) (var : VARIANT) (value : PROPVARIANT)
    (log : ReleaseLog) : GetPropertyResult :=
  let r := ScopedVariant.ReleaseInto host.propClearHr var value log
  let d := ScopedVariant.destroy host.clearHr r.2.1 r.2.2.2
  { hr := S_OK, value := r.2.2.1, log := d.2 }

/-- A setter call on the local `var`; a failed assertion is a fault. -/
def setVar (a : SetArg) (var : VARIANT) : Except Fault VARIANT :=
  match ScopedVariant.Set a var with
  | some r => .ok r.1
  | none => .error .assertion

/-- Function `GetProperty(index, propID, value)` (lines 339-362). -/
def GetProperty (self : ArchiveCompressing) (host : PropertyHost) (index : Nat)
    (propID : PROPID) (value : PROPVARIANT) (log : ReleaseLog) :
    Except Fault GetPropertyResult :=
  let var := ScopedVariant.new host.garbage
  if propID = .kpidIsAnti then do
    let var ← setVar (.bool false) var
    pure (releaseAndReturn host var value log)
  else if index > self.file_list_.length then
    pure { hr := E_INVALIDARG, value := value,
           log := (ScopedVariant.destroy host.clearHr var log).2 }
  else do
    let info ← vectorAt self.file_list_ index
    match propID with
    | .kpidPath =>
      let var ← setVar (.str (c_str info.path) host.allocated) var
      pure (releaseAndReturn host var value log)
    | .kpidIsDir =>
      let var ← setVar (.bool info.directory) var
      pure (releaseAndReturn host var value log)
    | .kpidSize =>
      let var ← setVar (.ui64 info.size) var
      pure (releaseAndReturn host var value log)
    | _ =>
      pure { hr := E_INVALIDARG, value := value,
             log := (ScopedVariant.destroy host.clearHr var log).2 }

/-- What the compression callback's `GetStream` leaves behind: the returned
`HRESULT`, what was stored into `*inStream` (`none`: nothing stored;
`some p`: a new `ReadFileStreamming` over the file opened at `p`) and the host
calls made. -/
structure StreamResult where
  hr : Int
  inStream : Option WString
  events : List Event
deriving DecidableEq, Repr

/-- Function `GetStream(index, inStream)` (lines 364-374); `opened` tells whether
`x::Open(info.path, true)` returned a stream, `lastError` is
`::GetLastError()`. -/
def GetStream (self : ArchiveCompressing) (index : Nat) (opened : Bool) (lastError : Nat) :
    Except Fault StreamResult :=
  if index > self.file_list_.length then
    pure { hr := E_INVALIDARG, inStream := none, events := [] }
  else do
    let info ← vectorAt self.file_list_ index
    if info.directory then pure { hr := S_OK, inStream := none, events := [] }
    else if !opened then
      pure { hr := HRESULT_FROM_WIN32 lastError, inStream := none,
             events := [.OpenFile info.path true] }
    else
      pure { hr := S_OK, inStream := some info.path, events := [.OpenFile info.path true] }

end ArchiveCompressing

/-! ## Capability queries (scoped_object.h, lines 60-78; streaming.h) -/

/-- What a `Query` call leaves behind: whether it matched, what it stored into
`*obj` (`none`: nothing stored) and the reference count of the container. -/
structure QueryResult where
  found : Bool
  obj : Option Nat
  self : RefCounted
deriving DecidableEq, Repr

/-- Function `Query<Interface>(containter, id, iid, obj)`; the overload without
`id` compares with `__uuidof(Interface)`, which is `id` here as well.  `this` is
the address of the container, which is what is stored into `*obj`. -/
def Query (id : IID) (this : Nat) (containter : RefCounted) (iid : IID) : QueryResult :=
  if iid = id then
    { found := true, obj := some this, self := containter.AddRef.1 }
  else
    { found := false, obj := none, self := containter }

/-- What `QueryInterface` leaves behind: the returned `HRESULT`, what was
stored into `*obj` and the reference count of the object. -/
structure QueryInterfaceResult where
  hr : Int
  obj : Option Nat
  self : RefCounted
deriving DecidableEq, Repr

/-- Function `ReadFileStreamming::QueryInterface` (streaming.h, lines 34-40). -/
def ReadFileStreamming.QueryInterface (this : Nat) (self : RefCounted) (iid : IID) :
    QueryInterfaceResult :=
  let q := Query .IID_IUnknown this self iid
  if q.found then { hr := S_OK, obj := q.obj, self := q.self }
  else
    let q := Query .IID_ISequentialInStream this self iid
    if q.found then { hr := S_OK, obj := q.obj, self := q.self }
    else
      let q := Query .IID_IInStream this self iid
      if q.found then { hr := S_OK, obj := q.obj, self := q.self }
      else
        let q := Query .IID_IStreamGetSize this self iid
        if q.found then { hr := S_OK, obj := q.obj, self := q.self }
        else { hr := E_NOINTERFACE, obj := none, self := self }

/-- Function `WriteFileStreamming::QueryInterface` (streaming.h, lines 89-94). -/
def WriteFileStreamming.QueryInterface (this : Nat) (self : RefCounted) (iid : IID) :
    QueryInterfaceResult :=
  let q := Query .IID_IUnknown this self iid
  if q.found then { hr := S_OK, obj := q.obj, self := q.self }
  else
    let q := Query .IID_ISequentialOutStream this self iid
    if q.found then { hr := S_OK, obj := q.obj, self := q.self }
    else
      let q := Query .IID_IOutStream this self iid
      if q.found then { hr := S_OK, obj := q.obj, self := q.self }
      else { hr := E_NOINTERFACE, obj := none, self := self }

/-- Function `ArchiveOpenning::QueryInterface` (streaming.h, lines 140-145). -/
def ArchiveOpenning.QueryInterface (this : Nat) (self : RefCounted) (iid : IID) :
    QueryInterfaceResult :=
  let q := Query .IID_IUnknown this self iid
  if q.found then { hr := S_OK, obj := q.obj, self := q.self }
  else
    let q := Query .IID_IArchiveOpenCallback this self iid
    if q.found then { hr := S_OK, obj := q.obj, self := q.self }
    else
      let q := Query .IID_ICryptoGetTextPassword this self iid
      if q.found then { hr := S_OK, obj := q.obj, self := q.self }
      else { hr := E_NOINTERFACE, obj := none, self := self }

/-- Function `ArchiveExtractting::QueryInterface` (streaming.h, lines 169-174). -/
def ArchiveExtractting.QueryInterface (this : Nat) (self : RefCounted) (iid : IID) :
    QueryInterfaceResult :=
  let q := Query .IID_IUnknown this self iid
  if q.found then { hr := S_OK, obj := q.obj, self := q.self }
  else
    let q := Query .IID_IArchiveExtractCallback this self iid
    if q.found then { hr := S_OK, obj := q.obj, self := q.self }
    else
      let q := Query .IID_ICryptoGetTextPassword this self iid
      if q.found then { hr := S_OK, obj := q.obj, self := q.self }
      else { hr := E_NOINTERFACE, obj := none, self := self }

/-- Function `ArchiveCompressing::QueryInterface` (streaming.h, lines 306-312). -/
def ArchiveCompressing.QueryInterface (this : Nat) (self : RefCounted) (iid : IID) :
    QueryInterfaceResult :=
  let q := Query .IID_IUnknown this self iid
  if q.found then { hr := S_OK, obj := q.obj, self := q.self }
  else
    let q := Query .IID_IArchiveUpdateCallback this self iid
    if q.found then { hr := S_OK, obj := q.obj, self := q.self }
    else
      let q := Query .IID_ICryptoGetTextPassword2 this self iid
      if q.found then { hr := S_OK, obj := q.obj, self := q.self }
      else
        let q := Query .IID_ICompressProgressInfo this self iid
        if q.found then { hr := S_OK, obj := q.obj, self := q.self }
        else { hr := E_NOINTERFACE, obj := none, self := self }

/-- The capability set of the read adapter, as the specification lists it. -/
def ReadFileStreamming.declared : List IID :=
  [.IID_IUnknown, .IID_ISequentialInStream, .IID_IInStream, .IID_IStreamGetSize]

/-- The capability set of the write adapter, as the specification lists it. -/
def WriteFileStreamming.declared : List IID :=
  [.IID_IUnknown, .IID_ISequentialOutStream, .IID_IOutStream]

/-- The capability set of the open callback: the interfaces among its bases. -/
def ArchiveOpenning.declared : List IID :=
  [.IID_IUnknown, .IID_IArchiveOpenCallback, .IID_ICryptoGetTextPassword]

/-- The capability set of the extraction callback: the interfaces among its
bases. -/
def ArchiveExtractting.declared : List IID :=
  [.IID_IUnknown, .IID_IArchiveExtractCallback, .IID_ICryptoGetTextPassword]

/-- The capability set of the compression callback: the interfaces among its
bases. -/
def ArchiveCompressing.declared : List IID :=
  [.IID_IUnknown, .IID_IArchiveUpdateCallback, .IID_ICryptoGetTextPassword2,
   .IID_ICompressProgressInfo]

/-! ## Stream adapters (streaming.h, lines 25-130) -/

/-- What `Read` / `Write` leave behind: the returned `HRESULT` and the count
stored into `*processedSize` (`none`: the pointer was null, nothing stored). -/
structure TransferResult where
  hr : Int
  processedSize : Option Nat
deriving DecidableEq, Repr

/-- Function `ReadFileStreamming::Read` (lines 50-55).  `hostResult` is what
`streaming_->Read(data, size, &sized)` returned, `hostCount` the count it stored
into `sized` (`none`: it stored nothing), `processedSize` tells whether the
pointer of that name is not null. -/
def ReadFileStreamming.Read (hostResult : Int) (hostCount : Option Nat) (processedSize : Bool) :
    TransferResult :=
  let sized : Nat := 0
  let sized := match hostCount with
    | some n => n % 2 ^ 32
    | none => sized
  { hr := if SUCCEEDED hostResult then S_OK else hostResult,
    processedSize := if processedSize then some sized else none }

/-- Function `WriteFileStreamming::Write` (lines 104-109), with the inputs of
`ReadFileStreamming.Read` for `streaming_->Write(data, size, &sized)`. -/
def WriteFileStreamming.Write (hostResult : Int) (hostCount : Option Nat)
    (processedSize : Bool) : TransferResult :=
  let sized : Nat := 0
  let sized := match hostCount with
    | some n => n % 2 ^ 32
    | none => sized
  { hr := if SUCCEEDED hostResult then S_OK else hostResult,
    processedSize := if processedSize then some sized else none }

/-! ## `ScopedVariant::Reset()` with its default argument -/

/-- The constant `ScopedVariant::kEmptyVariant`, `{{{VT_EMPTY}}}`. -/
def ScopedVariant.kEmptyVariant : VARIANT := VARIANT.empty

/-! ## `ArchiveOpenning` (streaming.h, lines 132-158) -/

namespace ArchiveOpenning

/-- Function `SetTotal(files, bytes)`. -/
def SetTotal : Int := S_OK

/-- Function `SetCompleted(files, bytes)`. -/
def SetCompleted : Int := S_OK

/-- Function `CryptoGetTextPassword(password)`: the returned `HRESULT` and what
was stored into `*password` (`none`: nothing). -/
def CryptoGetTextPassword : Int × Option WString := (E_ABORT, none)

end ArchiveOpenning

/-! ## `ArchiveExtractting`, the other callback methods -/

/-- One call the engine makes on the extraction callback while it extracts. -/
inductive ExtractCall where
  | SetTotal (size : Nat)
  | SetCompleted
  | GetStream (call : ArchiveExtractting.GetStreamCall)
  | PrepareOperation (askExtractMode : Int)
  | SetOperationResult (resultEOperationResult : Int)
  | CryptoGetTextPassword
deriving DecidableEq, Repr

namespace ArchiveExtractting

/-- Function `SetCompleted(completeValue)`. -/
def SetCompleted : Int := S_OK

/-- Function `PrepareOperation(askExtractMode)`. -/
def PrepareOperation (_askExtractMode : Int) : Int := S_OK

/-- Function `SetOperationResult` (lines 276-284): the returned `HRESULT` and
the calls made.  The first statement, `if (!callback_) S_OK;`, evaluates a
constant and returns nothing, so that with a null `callback_` the calls below
it dereference the null pointer. -/
def SetOperationResult (self : ArchiveExtractting) (_resultEOperationResult : Int) :
    Except Fault (Int × List Event) :=
  if self.file_.path.isEmpty then
    if self.callback_ then .ok (S_OK, [.Progressed self.root_ 0])
    else .error .null_dereference
  else
    if self.callback_ then .ok (S_OK, [.Progressed self.file_.path self.file_.size])
    else .error .null_dereference

/-- Function `CryptoGetTextPassword(password)`: the returned `HRESULT` and what
was stored into `*password` (`none`: nothing). -/
def CryptoGetTextPassword : Int × Option WString := (E_ABORT, none)

/-- What one call of the engine leaves behind: the object, the `HRESULT`
handed to the engine and the host calls made. -/
structure CallResult where
  self : ArchiveExtractting
  hr : Int
  events : List Event
deriving DecidableEq, Repr

/-- The callback method the engine's call selects, run on the object. -/
def handle (self : ArchiveExtractting) (archive_ : PropertySource) :
    ExtractCall → Except Fault CallResult
  | .SetTotal size =>
    .ok { self := self, hr := (self.SetTotal size).1, events := (self.SetTotal size).2 }
  | .SetCompleted => .ok { self := self, hr := SetCompleted, events := [] }
  | .GetStream c =>
    let r := self.GetStream c.index c.askExtractMode archive_ c.opened c.lastError
    .ok { self := r.self, hr := r.hr, events := r.events }
  | .PrepareOperation mode => .ok { self := self, hr := PrepareOperation mode, events := [] }
  | .SetOperationResult res =>
    match self.SetOperationResult res with
    | .ok r => .ok { self := self, hr := r.1, events := r.2 }
    | .error e => .error e
  | .CryptoGetTextPassword =>
    .ok { self := self, hr := CryptoGetTextPassword.1, events := [] }

/-- A sequence of calls of the engine, run in order up to the first fault:
the object at the end (or the fault) and the host calls made. -/
def runCalls (archive_ : PropertySource) :
    ArchiveExtractting → List ExtractCall → Except Fault ArchiveExtractting × List Event
  | self, [] => (.ok self, [])
  | self, c :: cs =>
    match handle self archive_ c with
    | .error e => (.error e, [])
    | .ok r =>
      let rest := runCalls archive_ r.self cs
      (rest.1, r.events ++ rest.2)

end ArchiveExtractting

/-! ## `ArchiveCompressing`, the other callback methods -/

/-- What `GetUpdateItemInfo` stores through its three pointers (`none`: the
pointer was null, nothing stored), and the returned `HRESULT`. -/
structure UpdateItemInfo where
  hr : Int
  newData : Option Int
  newProperties : Option Int
  indexInArchive : Option Nat
deriving DecidableEq, Repr

/-- What `CryptoGetTextPassword2` stores through its two pointers, and the
returned `HRESULT`; the password is the string at the address `SysAllocString`
returned. -/
structure PasswordAnswer where
  hr : Int
  passwordIsDefined : Int
  password : Nat
  passwordText : WString
deriving DecidableEq, Repr

/-- One call the engine makes on the compression callback while it builds the
archive.  The pointer arguments are given by whether they are null
(`completeValue`: the value pointed to, `none` for a null pointer). -/
inductive UpdateCall where
  | SetTotal (size : Nat)
  | SetCompleted (completeValue : Option Nat)
  | GetUpdateItemInfo (index : Nat) (newData newProperties indexInArchive : Bool)
  | GetProperty (host : PropertyHost) (index : Nat) (propID : PROPID) (value : PROPVARIANT)
  | GetStream (index : Nat) (opened : Bool) (lastError : Nat)
  | SetOperationResult (operationResult : Int)
  | CryptoGetTextPassword2 (allocated : Nat)
  | SetRatioInfo
deriving DecidableEq, Repr

namespace ArchiveCompressing

/-- Function `SetTotal(size)` (lines 322-325). -/
def SetTotal (self : ArchiveCompressing) (size : Nat) : Int × List Event :=
  (S_OK, if self.callback_ then [.StartProgress self.path_ size] else [])

/-- Function `SetCompleted(completeValue)` (lines 327-330); `*completeValue` is
read when `callback_` is not null. -/
def SetCompleted (self : ArchiveCompressing) (completeValue : Option Nat) :
    Except Fault (Int × List Event) :=
  if self.callback_ then
    match completeValue with
    | some v => .ok (S_OK, [.Progressed self.path_ v])
    | none => .error .null_dereference
  else .ok (S_OK, [])

/-- Function `GetUpdateItemInfo` (lines 332-337); the three flags tell which
of the pointers are not null. -/
def GetUpdateItemInfo (_self : ArchiveCompressing) (_index : Nat)
    (newData newProperties indexInArchive : Bool) : UpdateItemInfo :=
  { hr := S_OK,
    newData := if newData then some 1 else none,
    newProperties := if newProperties then some 1 else none,
    indexInArchive := if indexInArchive then some (2 ^ 32 - 1) else none }

/-- Function `SetOperationResult(operationResult)`. -/
def SetOperationResult (_operationResult : Int) : Int := S_OK

/-- Function `CryptoGetTextPassword2` (lines 378-382); `allocated` is the
address `::SysAllocString(L"")` returned. -/
def CryptoGetTextPassword2 (allocated : Nat) : PasswordAnswer :=
  { hr := S_OK, passwordIsDefined := 0, password := allocated, passwordText := [] }

/-- Function `SetRatioInfo(inSize, outSize)`. -/
def SetRatioInfo : Int := S_OK

/-- The callback method the engine's call selects, run on the object: the
`HRESULT` handed to the engine and the host calls made. -/
def handle (self : ArchiveCompressing) : UpdateCall → Except Fault (Int × List Event)
  | .SetTotal size => .ok (self.SetTotal size)
  | .SetCompleted completeValue => self.SetCompleted completeValue
  | .GetUpdateItemInfo index a b c => .ok ((self.GetUpdateItemInfo index a b c).hr, [])
  | .GetProperty host index propID value =>
    match self.GetProperty host index propID value [] with
    | .ok r => .ok (r.hr, [])
    | .error e => .error e
  | .GetStream index opened lastError =>
    match self.GetStream index opened lastError with
    | .ok r => .ok (r.hr, r.events)
    | .error e => .error e
  | .SetOperationResult res => .ok (SetOperationResult res, [])
  | .CryptoGetTextPassword2 allocated => .ok ((CryptoGetTextPassword2 allocated).hr, [])
  | .SetRatioInfo => .ok (SetRatioInfo, [])

/-- A sequence of calls of the engine, run in order up to the first fault. -/
def runCalls (self : ArchiveCompressing) : List UpdateCall → Except Fault Unit × List Event
  | [] => (.ok (), [])
  | c :: cs =>
    match handle self c with
    | .error e => (.error e, [])
    | .ok r =>
      let rest := runCalls self cs
      (rest.1, r.2 ++ rest.2)

end ArchiveCompressing

/-! ## `Archive::Open` (archive.cpp, lines 68-120) -/

/-- A reader object (`IInArchive`) the engine created, given by its answers:
the result of `Open`, what `GetArchiveProperty(kpidPath, ..)` leaves in the
variant, the count `GetNumberOfItems` stores, and the item properties. -/
structure Reader where
  openResult : Int
  archivePath : PROPVARIANT
  numItems : Nat
  getProperty : PropertySource
  /-- The calls `Extract` makes on the extraction callback handed to it. -/
  extractCalls : List ExtractCall := []
  /-- The result of `Extract`. -/
  extractResult : Int := S_OK

/-- A writer object (`IOutArchive`) the engine created, given by the result of
its `UpdateItems`. -/
structure Writer where
  updateResult : Int
  /-- The calls `UpdateItems` makes on the compression callback handed to it. -/
  updateCalls : List UpdateCall := []

/-- The collaborators of `Archive`: whether `x::Open(path, read)` returns a
stream, and the reader and the writer the engine's factory hands back for a
class identity (`none`: the factory left the pointer null). -/
structure Host where
  openFile : WString → Bool → Bool
  createReader : CLSID → Option Reader
  createWriter : CLSID → Option Writer

/-- The parameter `const OpenCallback& callback` of `Archive::Open`, a
`std::function<void(const std::wstring&, const ULONGLONG&)>` the caller
supplies: for the arguments of a call, whether the call returns (`true`) or
leaves by an exception (`false`). -/
abbrev OpenCallback := WString → Nat → Bool

/-- An empty `std::function`: every call throws `std::bad_function_call`. -/
def OpenCallback.empty : OpenCallback := fun _ _ => false

/-- A callback whose every call returns. -/
def OpenCallback.returning : OpenCallback := fun _ _ => true

/-- What `Archive::Open` leaves behind: the returned `bool` (or the fault that
ended the call) and the calls made on the collaborators, in order. -/
structure OpenResult where
  returned : Except Fault Bool
  events : List Event
deriving DecidableEq, Repr

namespace Archive

/-- Function `LoadReader` (archive.cpp, lines 68-72), through `GetClassObject`
(archive.h, lines 57-62): the object left in `obj`, and the factory call made.
A null `guid` returns before the factory is called. -/
def LoadReader (host : Host) (format : Format) : Except Fault (Option Reader × List Event) := do
  let guidPtr ← FormatGUID format
  match guidPtr with
  | none => pure (none, [])
  | some clsid => pure (host.createReader clsid, [.CreateObject clsid .IID_IInArchive])

/-- Function `LoadEditor` (archive.cpp, lines 74-78), through `GetClassObject`:
the object left in `obj`, and the factory call made. -/
def LoadEditor (host : Host) (format : Format) : Except Fault (Option Writer × List Event) := do
  let guidPtr ← FormatGUID format
  match guidPtr with
  | none => pure (none, [])
  | some clsid => pure (host.createWriter clsid, [.CreateObject clsid .IID_IOutArchive])

/-- The body of the loop of `Open` for item `i` (lines 111-116): the size
property is queried, `size` is read from `intVal`, and the callback is called
when the tag of the answer is `VT_BSTR`, with the string read through its
pointer as a C string (the pointer is taken to be non-null).  The result tells
whether the body was left normally, and the calls made. -/
def openItem (getProperty : PropertySource) (callback : OpenCallback) (i : Nat) :
    Bool × List Event :=
  let prop := (getProperty i .kpidSize).2
  let size := prop.intVal
  if prop.vt = VT_BSTR then
    (callback (c_str prop.bstrVal) (lowBits 64 size),
      [.Callback (c_str prop.bstrVal) (lowBits 64 size)])
  else (true, [])

/-- The loop `for (UInt32 i = 0; i < num; i++)` of `Open`: whether the loop ran
to its end, and the calls made.  A call of the callback that throws ends the
loop. -/
def openItems (getProperty : PropertySource) (callback : OpenCallback) : Nat → Bool × List Event
  | 0 => (true, [])
  | n + 1 =>
    let before := openItems getProperty callback n
    if !before.1 then before
    else
      let item := openItem getProperty callback n
      (item.1, before.2 ++ item.2)

/-- The block of `Open` on the archive-level path (lines 102-108): the callback
is called with the path and `-1` when the answer is tagged `VT_BSTR`. -/
def openArchivePath (archivePath : PROPVARIANT) (callback : OpenCallback) : Bool × List Event :=
  if archivePath.vt = VT_BSTR then
    (callback (c_str archivePath.bstrVal) (lowBits 64 (-1)),
      [.Callback (c_str archivePath.bstrVal) (lowBits 64 (-1))])
  else (true, [])

/-- Function `Archive::Open(path, format, callback)`: the returned `bool` (or the fault
that ended the call) and the calls made, in order.  An exception of the
callback leaves `Open` at once: nothing in the function catches it and the
call of `Close` is its last statement but one.  The host's clear of the local
`ScopedPropVariant prop` at the end of its scope is taken to succeed. -/
def Open (host : Host) (path : WString) (format : Format) (callback : OpenCallback) :
    OpenResult :=
  if path.isEmpty then { returned := .ok false, events := [] }
  else
    let events := [Event.OpenFile path true]
    if !host.openFile path true then { returned := .ok false, events := events }
    else
      match LoadReader host format with
      | .error e => { returned := .error e, events := events }
      | .ok loaded =>
        let events := events ++ loaded.2
        match loaded.1 with
        | none => { returned := .ok false, events := events }
        | some archive =>
          let events := events ++ [Event.ReaderOpen]
          if FAILED archive.openResult then { returned := .ok false, events := events }
          else
            let first := openArchivePath archive.archivePath callback
            let events := events ++ first.2
            if !first.1 then { returned := .error .callback_exception, events := events }
            else
              let num := archive.numItems % 2 ^ 32
              let items := openItems archive.getProperty callback num
              let events := events ++ items.2
              if !items.1 then { returned := .error .callback_exception, events := events }
              else { returned := .ok true, events := events ++ [Event.ReaderClose] }

end Archive

/-! ## `Archive::Extract` and `Archive::Compress` (archive.cpp, lines 122-158) -/

/-- What `Archive::Extract` leaves behind: the returned `bool` (or the fault
that ended the call), the calls made on the collaborators in order, and the
extraction callback object the call constructed (`none`: it constructed none),
in the state in which the engine left it (as constructed, when a fault ended
the call). -/
structure ExtractResult where
  returned : Except Fault Bool
  events : List Event
  extractting : Option ArchiveExtractting
deriving DecidableEq, Repr

/-- What `Archive::Compress` leaves behind: the returned `bool` (or the fault
that ended the call), the calls made on the collaborators in order, and the
compression callback object the call constructed (`none`: it constructed
none). -/
structure CompressResult where
  returned : Except Fault Bool
  events : List Event
  compressing : Option ArchiveCompressing
deriving DecidableEq, Repr

namespace Archive

/-- Function `Archive::Extract(path, format, root, callback)`.  `callback`
tells whether the progress sink is not null; `t1`, `t2`, `t3` are the
uninitialised time stamps of the callback object's `file_`. -/
def Extract (host : Host) (path : WString) (format : Format) (root : WString)
    (callback : Bool) (t1 t2 t3 : FILETIME) : ExtractResult :=
  if path.isEmpty then { returned := .ok false, events := [], extractting := none }
  else
    let events := [Event.OpenFile path true]
    if !host.openFile path true then
      { returned := .ok false, events := events, extractting := none }
    else
      match LoadReader host format with
      | .error e => { returned := .error e, events := events, extractting := none }
      | .ok loaded =>
        let events := events ++ loaded.2
        match loaded.1 with
        | none => { returned := .ok false, events := events, extractting := none }
        | some archive =>
          let events := events ++ [Event.ReaderOpen]
          if FAILED archive.openResult then
            { returned := .ok false, events := events, extractting := none }
          else
            let extractting := ArchiveExtractting.new root callback t1 t2 t3
            let events := events ++ [Event.ReaderExtract]
            let run := ArchiveExtractting.runCalls archive.getProperty extractting
              archive.extractCalls
            let events := events ++ run.2
            match run.1 with
            | .error e =>
              { returned := .error e, events := events, extractting := some extractting }
            | .ok final =>
              if FAILED archive.extractResult then
                { returned := .ok false, events := events, extractting := some final }
              else
                { returned := .ok true, events := events ++ [Event.ReaderClose],
                  extractting := some final }

/-- Function `Archive::Compress(path, format, file_list, callback)`. -/
def Compress (host : Host) (path : WString) (format : Format)
    (file_list : List PlatformFileInfo) (callback : Bool) : CompressResult :=
  if path.isEmpty || file_list.isEmpty then
    { returned := .ok false, events := [], compressing := none }
  else
    match LoadEditor host format with
    | .error e => { returned := .error e, events := [], compressing := none }
    | .ok loaded =>
      let events := loaded.2
      match loaded.1 with
      | none => { returned := .ok false, events := events, compressing := none }
      | some archive =>
        let events := events ++ [Event.OpenFile path false]
        if !host.openFile path false then
          { returned := .ok false, events := events, compressing := none }
        else
          let compressing : ArchiveCompressing :=
            { file_list_ := file_list, path_ := path, callback_ := callback }
          let events := events ++ [Event.WriterUpdateItems (file_list.length % 2 ^ 32)]
          let run := compressing.runCalls archive.updateCalls
          let events := events ++ run.2
          match run.1 with
          | .error e =>
            { returned := .error e, events := events, compressing := some compressing }
          | .ok _ =>
            if FAILED archive.updateResult then
              { returned := .ok false, events := events, compressing := some compressing }
            else
              { returned := .ok true, events := events, compressing := some compressing }

end Archive

/-! ## Example inputs -/

/-- A variant holding an unsigned 64-bit number, as a reader reports a size. -/
def ui8Variant (n : Nat) : PROPVARIANT := { VARIANT.empty with vt := VT_UI8, bits := n }

/-- A variant holding a string stored at address `addr`. -/
def bstrVariant (addr : Nat) (text : WString) : PROPVARIANT :=
  { VARIANT.empty with vt := VT_BSTR, bits := addr, str := text }

/-- A variant holding a boolean. -/
def boolVariant (b : Bool) : PROPVARIANT :=
  { VARIANT.empty with vt := VT_BOOL, bits := if b then 0xFFFF else 0 }

/-- Item properties of an archive with three files `f0`, `f1`, `f2` of sizes
10, 0 and 1024: the path is a string, the size an unsigned 64-bit number, every
other property is reported as not present. -/
def threeFiles : PropertySource := fun index propID =>
  match propID with
  | .kpidPath => (S_OK, bstrVariant (8192 + 16 * index) ['f', Char.ofNat (48 + index)])
  | .kpidSize => (S_OK, ui8Variant ([10, 0, 1024].getD index 0))
  | _ => (S_OK, VARIANT.empty)

/-- A reader for that archive: it opens, reports the archive path `a.7z` and
three items. -/
def threeFilesReader : Reader :=
  { openResult := S_OK, archivePath := bstrVariant 4096 "a.7z".toList, numItems := 3,
    getProperty := threeFiles }

/-- A host on which every file opens and the engine creates that reader. -/
def threeFilesHost : Host :=
  { openFile := fun _ _ => true, createReader := fun _ => some threeFilesReader,
    createWriter := fun _ => none }

/-- Item properties of an archive whose item 0 is the directory `d`: the
path is a string, is-directory is the boolean true, the rest is not present. -/
def oneDirectory : PropertySource := fun _ propID =>
  match propID with
  | .kpidPath => (S_OK, bstrVariant 8192 ['d'])
  | .kpidIsDir => (S_OK, boolVariant true)
  | _ => (S_OK, VARIANT.empty)

/-- Item properties all reported as not present. -/
def nothingPresent : PropertySource := fun _ _ => (S_OK, VARIANT.empty)

/-- Item properties of an archive whose item 0 is the file `a/b.txt`, with
no other property present. -/
def oneFile : PropertySource := fun _ propID =>
  match propID with
  | .kpidPath => (S_OK, bstrVariant 8192 "a/b.txt".toList)
  | _ => (S_OK, VARIANT.empty)

/-- The reader reports the property as not present: the call succeeds and
leaves the variant empty. -/
def notPresent (answer : Int × PROPVARIANT) : Prop :=
  SUCCEEDED answer.1 = true ∧ answer.2.vt = VT_EMPTY

/-- The reader answers the property with a boolean. -/
def answersBool (answer : Int × PROPVARIANT) : Prop :=
  SUCCEEDED answer.1 = true ∧ answer.2.vt = VT_BOOL

/-- The reader answers the property with a string that reads, as a C string,
as `text`. -/
def answersString (answer : Int × PROPVARIANT) (text : WString) : Prop :=
  SUCCEEDED answer.1 = true ∧ answer.2.vt = VT_BSTR ∧ c_str answer.2.bstrVal = text

/-- A file entry of a file list. -/
def fileEntry (path : WString) (size : Nat) : PlatformFileInfo :=
  { PlatformFileInfo.new ⟨0, 0⟩ ⟨0, 0⟩ ⟨0, 0⟩ with path := path, size := size }

/-- A host for `GetProperty` whose calls all succeed. -/
def plainPropertyHost : PropertyHost :=
  { garbage := VARIANT.empty, allocated := 4096, propClearHr := S_OK, clearHr := S_OK }

/-- The three failures the specification names for `Open`, for the class
identity `clsid` of the format: the host read resource for the path cannot be
acquired (the path is empty, or the host does not open it), the reader object
cannot be created, or the reader's open call fails. -/
def Archive.openFails (host : Host) (path : WString) (clsid : CLSID) : Prop :=
  path = [] ∨ host.openFile path true = false ∨ host.createReader clsid = none ∨
    ∃ archive, host.createReader clsid = some archive ∧ FAILED archive.openResult = true

/-- A host on which no file opens. -/
def closedHost : Host :=
  { openFile := fun _ _ => false, createReader := fun _ => some threeFilesReader,
    createWriter := fun _ => some { updateResult := S_OK } }

/-- The `HRESULT` value `E_FAIL` (winerror.h). -/
def E_FAIL : Int := wrapInt32 0x80004005

/-- A host on which every file opens and the engine creates a reader that
opens the archive and whose `Extract` fails with `E_FAIL` without a call on
the callback. -/
def failingExtractHost : Host :=
  { openFile := fun _ _ => true,
    createReader := fun _ => some { threeFilesReader with extractResult := E_FAIL },
    createWriter := fun _ => none }

/-- Item properties of an archive with two items: item 0 has the path `p`,
for item 1 the path query fails with `E_FAIL`; every other property is
reported as not present. -/
def stalePath : PropertySource := fun index propID =>
  match propID with
  | .kpidPath => if index = 0 then (S_OK, bstrVariant 8192 ['p']) else (E_FAIL, VARIANT.empty)
  | _ => (S_OK, VARIANT.empty)

/-- The answers of the reader for item `index` from which `GetStream` sets
every field of the item metadata: the path query succeeds with an empty
variant or a string, the attributes query with an empty variant or a 32-bit
unsigned number, the is-directory query with an empty variant or a boolean,
the modified-time query with an empty variant or a file time, and the size
query succeeds. -/
def answersEveryField (archive_ : PropertySource) (index : Nat) : Prop :=
  (SUCCEEDED (archive_ index .kpidPath).1 = true ∧
    ((archive_ index .kpidPath).2.vt = VT_EMPTY ∨ (archive_ index .kpidPath).2.vt = VT_BSTR)) ∧
  (SUCCEEDED (archive_ index .kpidAttrib).1 = true ∧
    ((archive_ index .kpidAttrib).2.vt = VT_EMPTY ∨ (archive_ index .kpidAttrib).2.vt = VT_UI4)) ∧
  (SUCCEEDED (archive_ index .kpidIsDir).1 = true ∧
    ((archive_ index .kpidIsDir).2.vt = VT_EMPTY ∨ (archive_ index .kpidIsDir).2.vt = VT_BOOL)) ∧
  (SUCCEEDED (archive_ index .kpidMTime).1 = true ∧
    ((archive_ index .kpidMTime).2.vt = VT_EMPTY ∨
      (archive_ index .kpidMTime).2.vt = VT_FILETIME)) ∧
  SUCCEEDED (archive_ index .kpidSize).1 = true

instance (archive_ : PropertySource) (index : Nat) :
    Decidable (answersEveryField archive_ index) := by
  unfold answersEveryField
  infer_instance

/-! ## `DirectoryExists`, `CreatePathTree` (basic_util.h, lines 161-191) -/

/-- The constant `ERROR_SUCCESS` (winerror.h). -/
def ERROR_SUCCESS : Nat := 0

/-- The constant `ERROR_ALREADY_EXISTS` (winerror.h). -/
def ERROR_ALREADY_EXISTS : Nat := 183

/-- The constant `INVALID_FILE_ATTRIBUTES` (fileapi.h): `(DWORD)-1`. -/
def INVALID_FILE_ATTRIBUTES : Nat := 0xFFFFFFFF

/-- The constant `FILE_ATTRIBUTE_DIRECTORY` (winnt.h). -/
def FILE_ATTRIBUTE_DIRECTORY : Nat := 0x10

/-- The file-system calls of the host that `CreatePathTree` makes, over a state
`σ` of the host: each call returns its answer and the state it leaves. -/
structure FileSystem (σ : Type) where
  /-- The call `CreateDirectoryEx(nullptr, path, nullptr)`. -/
  CreateDirectoryEx : σ → WString → Nat × σ
  /-- The call `::GetFileAttributes(path)`. -/
  GetFileAttributes : σ → WString → Nat × σ
  /-- The call `::CreateDirectory(path, NULL)`. -/
  CreateDirectory : σ → WString → Nat × σ
  /-- The call `::GetLastError()`. -/
  GetLastError : σ → Nat

/-- Function `DirectoryExists` (basic_util.h, lines 161-166). -/
def DirectoryExists {σ : Type} (fs : FileSystem σ) (s : σ) (path : WString) : Bool × σ :=
  let fileattr := fs.GetFileAttributes s (c_str path)
  if fileattr.1 ≠ INVALID_FILE_ATTRIBUTES then
    (decide (fileattr.1 &&& FILE_ATTRIBUTE_DIRECTORY ≠ 0), fileattr.2)
  else (false, fileattr.2)

/-- Function `CreatePathTree` (basic_util.h, lines 168-191).  The first argument
bounds the depth of the recursion; `none` means the bound was reached. -/
def CreatePathTree {σ : Type} (fs : FileSystem σ) : Nat → σ → WString → Option (Bool × σ)
  | 0, _, _ => none
  | depth + 1, s, path =>
    let result := fs.CreateDirectoryEx s (c_str path)
    if result.1 = ERROR_SUCCESS then some (true, result.2)
    else
      let fileattr := fs.GetFileAttributes result.2 (c_str path)
      if fileattr.1 ≠ INVALID_FILE_ATTRIBUTES then
        if fileattr.1 &&& FILE_ATTRIBUTE_DIRECTORY ≠ 0 then some (true, fileattr.2)
        else some (false, fileattr.2)
      else
        let parent_path := GetParent path
        if path = parent_path then some (false, fileattr.2)
        else
          match CreatePathTree fs depth fileattr.2 parent_path with
          | none => none
          | some (false, s1) => some (false, s1)
          | some (true, s1) =>
            let created := fs.CreateDirectory s1 (c_str path)
            if created.1 = 0 then
              let error_code := fs.GetLastError created.2
              if error_code = ERROR_ALREADY_EXISTS then
                let exists_ := DirectoryExists fs created.2 path
                if exists_.1 then some (true, exists_.2) else some (false, exists_.2)
              else some (false, created.2)
            else some (true, created.2)

/-- A host file system in which nothing exists and nothing can be created:
every call fails, no attributes are found.  The state counts the calls. -/
def refusingFileSystem : FileSystem Nat :=
  { CreateDirectoryEx := fun s _ => (1, s + 1),
    GetFileAttributes := fun s _ => (INVALID_FILE_ATTRIBUTES, s + 1),
    CreateDirectory := fun s _ => (0, s + 1),
    GetLastError := fun _ => 5 }

/-! ## Words of the specification about joined paths -/

/-- A path that ends in a separator: its last character is a backslash or a
slash. -/
def endsInSeparator (s : WString) : Bool :=
  match s.getLast? with
  | some c => IsSeparator c
  | none => false

/-- A bare drive specification such as `C:`: a letter followed by a colon and
nothing else. -/
def isBareDrive : WString → Bool
  | [d, c] => decide (c = ':' ∧ (('A' ≤ d ∧ d ≤ 'Z') ∨ ('a' ≤ d ∧ d ≤ 'z')))
  | _ => false

/-! ## Properties -/

theorem wrapInt32_id (x : Int) (h1 : -2147483648 ≤ x) (h2 : x < 2147483648) :
    wrapInt32 x = x := by
  unfold wrapInt32
  omega

theorem RefCounted.addRefs_count (k : Nat) (c : Int) (d : Nat)
    (h0 : 0 ≤ c) (h1 : c + k < 2147483648) :
    RefCounted.addRefs k { ref_count_ := c, deleted := d }
      = { ref_count_ := c + k, deleted := d } := by
  induction k generalizing c with
  | zero => simp [RefCounted.addRefs]
  | succ n ih =>
    have hw : wrapInt32 (c + 1) = c + 1 := wrapInt32_id _ (by omega) (by push_cast at h1; omega)
    have hone : wrapInt32 1 = 1 := by decide
    simp only [RefCounted.addRefs, RefCounted.AddRef, InterlockedExchangeAdd, kExChangedStep,
      hone, hw]
    rw [ih (c + 1) (by omega) (by push_cast at h1 ⊢; omega)]
    congr 1
    push_cast
    omega

theorem RefCounted.releases_count (k : Nat) (c : Int) (d : Nat)
    (h0 : (k : Int) ≤ c) (h1 : c < 2147483648) :
    RefCounted.releases k { ref_count_ := c, deleted := d }
      = { ref_count_ := c - k, deleted := d } := by
  induction k generalizing c with
  | zero => simp [RefCounted.releases]
  | succ n ih =>
    have hpos : (0 : Int) ≠ c := by push_cast at h0; omega
    have hw : wrapInt32 (c + -1) = c - 1 := by
      rw [wrapInt32_id _ (by push_cast at h0; omega) (by omega)]; omega
    have hone : wrapInt32 (-1) = -1 := by decide
    simp only [RefCounted.releases, RefCounted.Release, InterlockedExchangeAdd, kExChangedStep,
      hone, hw, if_neg hpos]
    rw [ih (c - 1) (by push_cast at h0; omega) (by omega)]
    congr 1
    push_cast
    omega

/-- C1: on the code, `N` calls of `AddRef` followed by `N` calls of `Release`
on a fresh object never run the destructor: the count is back at `0` and
`DeleteInternal` has run zero times, because `Release` compares the value the
counter had *before* the decrement with `0`.  The object is destroyed only by
one further `Release`, the one that takes the count from `0` to `-1`. -/
theorem RefCounted_balanced_release_never_deletes (N : Nat) (hN : N < 2147483648) :
    RefCounted.releases N (RefCounted.addRefs N RefCounted.new)
        = { ref_count_ := 0, deleted := 0 } ∧
    (RefCounted.Release (RefCounted.releases N (RefCounted.addRefs N RefCounted.new))).1
        = { ref_count_ := -1, deleted := 1 } := by
  have h1 := RefCounted.addRefs_count N 0 0 (le_refl _) (by omega)
  have h2 := RefCounted.releases_count N (0 + N) 0 (by omega) (by omega)
  have h3 : RefCounted.releases N (RefCounted.addRefs N RefCounted.new)
      = { ref_count_ := 0, deleted := 0 } := by
    unfold RefCounted.new
    rw [h1, h2]
    congr 1
    omega
  refine ⟨h3, ?_⟩
  rw [h3]
  decide

theorem RefCounted_balanced_release_never_deletes_witness :
    (1 : Nat) < 2147483648 ∧
    RefCounted.releases 1 (RefCounted.addRefs 1 RefCounted.new)
        = { ref_count_ := 0, deleted := 0 } ∧
    (RefCounted.Release (RefCounted.releases 1 (RefCounted.addRefs 1 RefCounted.new))).1
        = { ref_count_ := -1, deleted := 1 } :=
  ⟨by decide, RefCounted_balanced_release_never_deletes 1 (by decide)⟩

theorem IsLeakableVarType_of_array (vt : Nat) (h : (vt &&& VT_ARRAY) ≠ 0) :
    IsLeakableVarType vt = true := by
  unfold IsLeakableVarType
  generalize decide ((vt &&& VT_TYPEMASK) ∈ leakableCases) = b
  cases b <;> simp [h]

theorem Set_isSome_iff (a : SetArg) (v : VARIANT) :
    (ScopedVariant.Set a v).isSome = true ↔ IsLeakableVarType v.vt = false := by
  unfold ScopedVariant.Set
  cases h : IsLeakableVarType v.vt <;> simp

theorem specInline_not_leakable (vt : Nat) (h : specInlineTag vt) : IsLeakableVarType vt = false := by
  unfold specInlineTag at h
  simp only [List.mem_cons, List.mem_singleton, List.not_mem_nil, or_false] at h
  rcases h with h | h | h | h | h | h | h | h | h | h | h | h | h <;> subst h <;> decide

theorem specOwning_leakable (vt : Nat) (h : specOwningTag vt) : IsLeakableVarType vt = true := by
  rcases h with h | h | h | h
  · subst h; decide
  · subst h; decide
  · subst h; decide
  · exact IsLeakableVarType_of_array vt h

theorem SetArg.tag_inline (a : SetArg) (hp : a.isPrimitive = true) : specInlineTag a.tag := by
  cases a <;> first | (simp [SetArg.isPrimitive] at hp; done) | (simp only [SetArg.tag]; decide)

theorem Set_primitive (a : SetArg) (v : VARIANT) (hp : a.isPrimitive = true) (hr : a.inRange)
    (hl : IsLeakableVarType v.vt = false) :
    ∃ v', ScopedVariant.Set a v = some (v', []) ∧ v'.vt = a.tag ∧ a.readsBack v' := by
  cases a <;> first
    | (simp [SetArg.isPrimitive] at hp; done)
    | (simp only [ScopedVariant.Set, hl, Bool.false_eq_true, if_false]
       refine ⟨_, rfl, rfl, ?_⟩
       simp only [SetArg.readsBack, SetArg.inRange, VARIANT.cVal, VARIANT.bVal, VARIANT.iVal,
         VARIANT.uiVal, VARIANT.lVal, VARIANT.ulVal, VARIANT.llVal, VARIANT.ullVal,
         VARIANT.fltVal, VARIANT.dblVal, VARIANT.boolVal, VARIANT.date, toSigned, setLow,
         lowBits, VARIANT_TRUE, VARIANT_FALSE] at hr ⊢
       norm_num
       omega)

theorem IsLeakableVarType_eq_false_iff (vt : Nat) :
    IsLeakableVarType vt = false ↔
      (vt &&& VT_ARRAY) = 0 ∧ (vt &&& VT_TYPEMASK) ∉ leakableCases := by
  unfold IsLeakableVarType
  by_cases hl : (vt &&& VT_TYPEMASK) ∈ leakableCases <;>
    by_cases ha : (vt &&& VT_ARRAY) = 0 <;> simp [hl, ha]

/-- C10 (counterexample): a `ScopedVariant` constructed by
`ScopedVariant(0, VT_NULL)` has the tag `VT_NULL`, which is neither inline
(empty, boolean, number, date) nor owning, and the precondition check of a
setter passes on it; so it does on a variant that took the tag `VT_CLSID` by
`Reset(var)`. -/
theorem ScopedVariant_Set_passes_on_null_tag :
    (ScopedVariant.newInt VARIANT.empty 0 VT_NULL).vt = VT_NULL ∧
    ¬ specInlineTag (ScopedVariant.newInt VARIANT.empty 0 VT_NULL).vt ∧
    ¬ specOwningTag (ScopedVariant.newInt VARIANT.empty 0 VT_NULL).vt ∧
    (ScopedVariant.Set (.i32 5) (ScopedVariant.newInt VARIANT.empty 0 VT_NULL)).isSome = true ∧
    (ScopedVariant.Reset S_OK { VARIANT.empty with vt := VT_CLSID }
        (ScopedVariant.new VARIANT.empty) []).1.vt = VT_CLSID ∧
    ¬ specInlineTag VT_CLSID ∧
    (ScopedVariant.Set (.bool true)
      (ScopedVariant.Reset S_OK { VARIANT.empty with vt := VT_CLSID }
        (ScopedVariant.new VARIANT.empty) []).1).isSome = true := by
  refine ⟨by decide, by decide, by decide, by decide, by decide, by decide, by decide⟩

/-- C10 (amended): every typed setter of `ScopedVariant` starts with the same
check, which passes exactly when the current tag carries no array flag and
its base type is none of the base types `IsLeakableVarType` lists.  It passes
for every inline tag of the specification (empty, boolean, numbers, date) and
also for tags that are neither inline nor owning, such as `VT_NULL`, `VT_CF`
and `VT_CLSID`; it fails for every owning tag (string, object reference, any
tag with the array flag).  A primitive setter called with a value of its type
on a variant that passes the check leaves the tag of the kind set and the
value given in the payload, calls no `AddRef`, and the result is inline again,
so that any setter may follow without a reset. -/
theorem ScopedVariant_Set_precondition (v : VARIANT) (a : SetArg) :
    ((ScopedVariant.Set a v).isSome = true ↔
      (v.vt &&& VT_ARRAY) = 0 ∧ (v.vt &&& VT_TYPEMASK) ∉ leakableCases) ∧
    (specInlineTag v.vt → (ScopedVariant.Set a v).isSome = true) ∧
    (specOwningTag v.vt → ScopedVariant.Set a v = none) ∧
    (v.vt ∈ [VT_NULL, VT_CF, VT_CLSID] →
      ¬ specInlineTag v.vt ∧ ¬ specOwningTag v.vt ∧ (ScopedVariant.Set a v).isSome = true) ∧
    (a.isPrimitive = true → a.inRange → IsLeakableVarType v.vt = false →
      ∃ v', ScopedVariant.Set a v = some (v', []) ∧ v'.vt = a.tag ∧ a.readsBack v' ∧
        specInlineTag v'.vt ∧ ∀ b, (ScopedVariant.Set b v').isSome = true) := by
  have hin : specInlineTag v.vt → (ScopedVariant.Set a v).isSome = true := fun h =>
    (Set_isSome_iff a v).2 (specInline_not_leakable _ h)
  have hown : specOwningTag v.vt → ScopedVariant.Set a v = none := by
    intro h
    have hl := specOwning_leakable _ h
    simp [ScopedVariant.Set, hl]
  refine ⟨(Set_isSome_iff a v).trans (IsLeakableVarType_eq_false_iff v.vt), hin, hown, ?_, ?_⟩
  · intro h
    simp only [List.mem_cons, List.mem_singleton, List.not_mem_nil, or_false] at h
    rcases h with h | h | h <;> rw [h] <;>
      exact ⟨by decide, by decide, (Set_isSome_iff a v).2 (by rw [h]; decide)⟩
  · intro hp hr hl
    obtain ⟨v', h1, h2, h3⟩ := Set_primitive a v hp hr hl
    have h4 : specInlineTag v'.vt := by rw [h2]; exact SetArg.tag_inline a hp
    exact ⟨v', h1, h2, h3, h4, fun b => (Set_isSome_iff b v').2 (specInline_not_leakable _ h4)⟩

/-- C10 (witness): the setter for a 32-bit number on a fresh variant. -/
theorem ScopedVariant_Set_precondition_witness :
    ∃ v', ScopedVariant.Set (.i32 (-5)) (ScopedVariant.new VARIANT.empty) = some (v', []) ∧
      v'.vt = VT_I4 ∧ v'.lVal = -5 ∧ specInlineTag v'.vt ∧
      ∀ b, (ScopedVariant.Set b v').isSome = true :=
  (ScopedVariant_Set_precondition (ScopedVariant.new VARIANT.empty) (.i32 (-5))).2.2.2.2
    rfl ⟨by decide, by decide⟩ (by decide)

/-! ### `ScopedVariant::Release(PROPVARIANT*)` -/

theorem ScopedVariant.ReleaseInto_source (hr : Int) (src dst : VARIANT) (log : ReleaseLog) :
    (ScopedVariant.ReleaseInto hr src dst log).2.1 = src := by
  unfold ScopedVariant.ReleaseInto
  split_ifs <;> rfl

theorem ScopedVariant.ReleaseInto_ok (hr : Int) (src dst : VARIANT) (log : ReleaseLog)
    (h : (ScopedVariant.ReleaseInto hr src dst log).1 = S_OK) :
    (ScopedVariant.ReleaseInto hr src dst log).2.2.1 = src := by
  unfold ScopedVariant.ReleaseInto at h ⊢
  split_ifs at h ⊢ with h1 h2
  · exfalso
    simp only [FAILED, decide_eq_true_eq] at h2
    simp only [S_OK] at h
    omega
  · rfl
  · rfl

/-- C2: on the code, `ScopedVariant::Release(PROPVARIANT*)` never changes the
source: after every call `var_` is what it was before, so a source with an
owning tag keeps its tag and its payload, and the payload has two owners.  For
the string variant made by the string setter (text `a` at address 4096) and an
empty destination, the call returns `S_OK`, destination and source both hold
the string, and the destructor of the source then releases the payload at
address 4096, which the destination still points to. -/
theorem ScopedVariant_ReleaseInto_leaves_source_owning :
    (∀ (hr : Int) (src dst : VARIANT) (log : ReleaseLog),
        (ScopedVariant.ReleaseInto hr src dst log).2.1 = src) ∧
    ScopedVariant.Set (.str ['a'] 4096) (ScopedVariant.new VARIANT.empty)
        = some (stringVariantExample, []) ∧
    ScopedVariant.ReleaseInto S_OK stringVariantExample VARIANT.empty []
        = (S_OK, stringVariantExample, stringVariantExample, []) ∧
    stringVariantExample.vt = VT_BSTR ∧
    stringVariantExample.vt ≠ VT_EMPTY ∧
    stringVariantExample.pointer = 4096 ∧
    ScopedVariant.destroy S_OK stringVariantExample []
        = ({ stringVariantExample with vt := VT_EMPTY }, [4096]) := by
  refine ⟨ScopedVariant.ReleaseInto_source, ?_, ?_, ?_, ?_, ?_, ?_⟩ <;> decide

/-! ### `Archive::Open` -/

theorem Archive.openItems_nil (getProperty : PropertySource) (callback : OpenCallback) (n : Nat)
    (h : ∀ i, i < n → (getProperty i .kpidSize).2.vt ≠ VT_BSTR) :
    Archive.openItems getProperty callback n = (true, []) := by
  induction n with
  | zero => rfl
  | succ k ih =>
    have h1 := ih (fun i hi => h i (Nat.lt_succ_of_lt hi))
    have h2 : Archive.openItem getProperty callback k = (true, []) := by
      simp [Archive.openItem, h k (Nat.lt_succ_self k)]
    simp [Archive.openItems, h1, h2]

/-- C3: on the code, the loop of `Archive::Open` queries only the size property
of each item and calls the metadata callback only when that answer is tagged as
a string; for a reader that answers sizes with any other tag the loop makes no
call at all, whatever the item count and the callback.  For the archive `a.7z`
with three files of sizes 10, 0 and 1024 (sizes reported as unsigned 64-bit
numbers) and a callback that returns, `Open` returns true and the callback
runs once, with the archive path and the sentinel, instead of four times. -/
theorem Archive_Open_three_files_one_callback :
    (∀ (getProperty : PropertySource) (callback : OpenCallback) (n : Nat),
        (∀ i, i < n → (getProperty i .kpidSize).2.vt ≠ VT_BSTR) →
        Archive.openItems getProperty callback n = (true, [])) ∧
    threeFilesReader.numItems = 3 ∧
    (threeFiles 0 .kpidSize, threeFiles 1 .kpidSize, threeFiles 2 .kpidSize)
        = ((S_OK, ui8Variant 10), (S_OK, ui8Variant 0), (S_OK, ui8Variant 1024)) ∧
    Archive.Open threeFilesHost "a.7z".toList Format.SEVENZ OpenCallback.returning
        = { returned := .ok true,
            events := [.OpenFile "a.7z".toList true,
              .CreateObject .CLSID_CFormat7z .IID_IInArchive, .ReaderOpen,
              .Callback "a.7z".toList (2 ^ 64 - 1), .ReaderClose] } := by
  refine ⟨Archive.openItems_nil, ?_, ?_, ?_⟩ <;> decide

/-! ### `ArchiveExtractting::GetStream` -/

theorem ArchiveExtractting.readPath_directory (f : PlatformFileInfo) (a : Int × PROPVARIANT) :
    (ArchiveExtractting.readPath f a).directory = f.directory := by
  unfold ArchiveExtractting.readPath
  split_ifs <;> rfl

theorem ArchiveExtractting.readAttrib_directory (f : PlatformFileInfo) (a : Int × PROPVARIANT) :
    (ArchiveExtractting.readAttrib f a).directory = f.directory := by
  unfold ArchiveExtractting.readAttrib
  split_ifs <;> rfl

theorem ArchiveExtractting.readIsDir_directory (f : PlatformFileInfo) (a : Int × PROPVARIANT)
    (h : f.directory = false) : (ArchiveExtractting.readIsDir f a).directory = false := by
  unfold ArchiveExtractting.readIsDir
  split_ifs <;> first | rfl | exact h

theorem ArchiveExtractting.readMTime_directory (f : PlatformFileInfo) (a : Int × PROPVARIANT) :
    (ArchiveExtractting.readMTime f a).directory = f.directory := by
  unfold ArchiveExtractting.readMTime
  split_ifs <;> rfl

theorem ArchiveExtractting.readSize_directory (f : PlatformFileInfo) (a : Int × PROPVARIANT) :
    (ArchiveExtractting.readSize f a).directory = f.directory := by
  unfold ArchiveExtractting.readSize
  split_ifs <;> rfl

theorem ArchiveExtractting.readItem_directory (self : ArchiveExtractting) (index : Nat)
    (archive_ : PropertySource) (h : self.file_.directory = false) :
    (self.readItem index archive_).directory = false := by
  simp only [ArchiveExtractting.readItem, ArchiveExtractting.readSize_directory,
    ArchiveExtractting.readMTime_directory]
  apply ArchiveExtractting.readIsDir_directory
  rw [ArchiveExtractting.readAttrib_directory, ArchiveExtractting.readPath_directory]
  exact h

theorem ArchiveExtractting.GetStream_directory (self : ArchiveExtractting) (index : Nat)
    (mode : Int) (archive_ : PropertySource) (opened : Bool) (lastError : Nat)
    (h : self.file_.directory = false) :
    (self.GetStream index mode archive_ opened lastError).self.file_.directory = false := by
  have hd := ArchiveExtractting.readItem_directory self index archive_ h
  unfold ArchiveExtractting.GetStream
  split_ifs <;> simp_all

theorem ArchiveExtractting.GetStream_root (self : ArchiveExtractting) (index : Nat)
    (mode : Int) (archive_ : PropertySource) (opened : Bool) (lastError : Nat) :
    (self.GetStream index mode archive_ opened lastError).self.root_ = self.root_ := by
  simp only [ArchiveExtractting.GetStream]
  split_ifs <;> rfl

theorem ArchiveExtractting.afterCalls_directory (archive_ : PropertySource)
    (self : ArchiveExtractting) (calls : List ArchiveExtractting.GetStreamCall)
    (h : self.file_.directory = false) :
    (ArchiveExtractting.afterCalls archive_ self calls).file_.directory = false := by
  induction calls generalizing self with
  | nil => exact h
  | cons c cs ih =>
    exact ih _ (ArchiveExtractting.GetStream_directory self _ _ archive_ _ _ h)

theorem ArchiveExtractting.afterCalls_root (archive_ : PropertySource)
    (self : ArchiveExtractting) (calls : List ArchiveExtractting.GetStreamCall) :
    (ArchiveExtractting.afterCalls archive_ self calls).root_ = self.root_ := by
  induction calls generalizing self with
  | nil => rfl
  | cons c cs ih =>
    exact (ih _).trans (ArchiveExtractting.GetStream_root self _ _ archive_ _ _)

theorem ArchiveExtractting.GetStream_file_branch (self : ArchiveExtractting) (index : Nat)
    (archive_ : PropertySource) (opened : Bool) (lastError : Nat)
    (h : self.file_.directory = false) :
    (self.GetStream index kExtract archive_ opened lastError).events
      = [.CreatePathTree (GetParent (self.readItem index archive_).path),
         .OpenFile (self.readItem index archive_).path false] ∧
    (self.GetStream index kExtract archive_ opened lastError).outStream ≠ some none := by
  have hd := ArchiveExtractting.readItem_directory self index archive_ h
  unfold ArchiveExtractting.GetStream
  cases opened <;> simp [hd]

/-- C4: on the code, a boolean answer to the is-directory query is assigned to
`file_.filename`, never to `file_.directory`; the flag stays false on every
object made by the constructor, through any sequence of `GetStream` calls, so
that `GetStream` in extract mode always takes the branch for files: it ensures
the parent directory, opens the destination for writing and never stores a null
stream.  For the directory item `d` (is-directory reported as boolean true)
under root `/out` the item is not marked as a directory, its name becomes
the one-character string with code 1, the tree ensured is `/out`, a write
resource is opened at `/out\` followed by that character, and the stream
handed back is the adapter of that file. -/
theorem ArchiveExtractting_GetStream_never_takes_directory_branch :
    (∀ (root : WString) (callback : Bool) (t1 t2 t3 : FILETIME) (archive_ : PropertySource)
        (calls : List ArchiveExtractting.GetStreamCall) (index : Nat) (opened : Bool)
        (lastError : Nat),
        let self := ArchiveExtractting.afterCalls archive_
          (ArchiveExtractting.new root callback t1 t2 t3) calls
        (self.GetStream index kExtract archive_ opened lastError).self.file_.directory = false ∧
        (self.GetStream index kExtract archive_ opened lastError).outStream ≠ some none ∧
        (self.GetStream index kExtract archive_ opened lastError).events
          = [.CreatePathTree (GetParent (self.readItem index archive_).path),
             .OpenFile (self.readItem index archive_).path false]) ∧
    oneDirectory 0 .kpidIsDir = (S_OK, boolVariant true) ∧
    (boolVariant true).boolVal = VARIANT_TRUE ∧
    ArchiveExtractting.GetStream
        (ArchiveExtractting.new "/out".toList true ⟨0, 0⟩ ⟨0, 0⟩ ⟨0, 0⟩) 0 kExtract oneDirectory
        true 0
      = { self :=
            { file_ :=
                { PlatformFileInfo.new ⟨0, 0⟩ ⟨0, 0⟩ ⟨0, 0⟩ with
                  filename := [Char.ofNat 1],
                  path := "/out\\".toList ++ [Char.ofNat 1] },
              root_ := "/out".toList, callback_ := true },
          hr := S_OK,
          outStream := some (some ("/out\\".toList ++ [Char.ofNat 1])),
          events := [.CreatePathTree "/out".toList,
                     .OpenFile ("/out\\".toList ++ [Char.ofNat 1]) false] } := by
  refine ⟨?_, by decide, by decide, by decide⟩
  intro root callback t1 t2 t3 archive_ calls index opened lastError self
  have h0 : self.file_.directory = false :=
    ArchiveExtractting.afterCalls_directory archive_ _ calls rfl
  have h1 := ArchiveExtractting.GetStream_file_branch self index archive_ opened lastError h0
  exact ⟨ArchiveExtractting.GetStream_directory self index kExtract archive_ opened lastError h0,
    h1.2, h1.1⟩

theorem ArchiveExtractting.readPath_frame (f : PlatformFileInfo) (a : Int × PROPVARIANT) :
    (ArchiveExtractting.readPath f a).attributes = f.attributes ∧
    (ArchiveExtractting.readPath f a).last_modified = f.last_modified ∧
    (ArchiveExtractting.readPath f a).size = f.size ∧
    (notPresent a → (ArchiveExtractting.readPath f a).filename = "[Content]".toList) ∧
    (∀ text, answersString a text → (ArchiveExtractting.readPath f a).filename = text) := by
  unfold ArchiveExtractting.readPath notPresent answersString
  split_ifs with h1 h2 h3 <;> simp_all [VT_EMPTY, VT_BSTR]

theorem ArchiveExtractting.readAttrib_frame (f : PlatformFileInfo) (a : Int × PROPVARIANT) :
    (ArchiveExtractting.readAttrib f a).filename = f.filename ∧
    (ArchiveExtractting.readAttrib f a).last_modified = f.last_modified ∧
    (ArchiveExtractting.readAttrib f a).size = f.size ∧
    (notPresent a → (ArchiveExtractting.readAttrib f a).attributes = 0) := by
  unfold ArchiveExtractting.readAttrib notPresent
  split_ifs with h1 h2 h3 <;> simp_all

theorem ArchiveExtractting.readIsDir_frame (f : PlatformFileInfo) (a : Int × PROPVARIANT) :
    (ArchiveExtractting.readIsDir f a).attributes = f.attributes ∧
    (ArchiveExtractting.readIsDir f a).last_modified = f.last_modified ∧
    (ArchiveExtractting.readIsDir f a).size = f.size ∧
    (¬ answersBool a → (ArchiveExtractting.readIsDir f a).filename = f.filename) ∧
    (notPresent a → (ArchiveExtractting.readIsDir f a).directory = false) := by
  unfold ArchiveExtractting.readIsDir notPresent answersBool
  split_ifs with h1 h2 h3 <;> simp_all

theorem ArchiveExtractting.readMTime_frame (f : PlatformFileInfo) (a : Int × PROPVARIANT) :
    (ArchiveExtractting.readMTime f a).filename = f.filename ∧
    (ArchiveExtractting.readMTime f a).attributes = f.attributes ∧
    (ArchiveExtractting.readMTime f a).size = f.size ∧
    (notPresent a → (ArchiveExtractting.readMTime f a).last_modified
        = { dwLowDateTime := 0, dwHighDateTime := 0 }) := by
  unfold ArchiveExtractting.readMTime notPresent
  split_ifs with h1 h2 h3 <;> simp_all

theorem ArchiveExtractting.readSize_frame (f : PlatformFileInfo) (a : Int × PROPVARIANT) :
    (ArchiveExtractting.readSize f a).filename = f.filename ∧
    (ArchiveExtractting.readSize f a).attributes = f.attributes ∧
    (ArchiveExtractting.readSize f a).last_modified = f.last_modified ∧
    (notPresent a → (ArchiveExtractting.readSize f a).size = 0) := by
  unfold ArchiveExtractting.readSize notPresent
  split_ifs <;> simp_all

theorem ArchiveExtractting.GetStream_file (self : ArchiveExtractting) (index : Nat)
    (archive_ : PropertySource) (opened : Bool) (lastError : Nat) :
    (self.GetStream index kExtract archive_ opened lastError).self.file_
        = self.readItem index archive_ ∨
    (self.GetStream index kExtract archive_ opened lastError).self.file_
        = { self.readItem index archive_ with path := [] } := by
  simp only [ArchiveExtractting.GetStream, ne_eq, not_true_eq_false, if_false]
  split_ifs <;> simp

theorem ArchiveExtractting.readItem_defaults (self : ArchiveExtractting) (index : Nat)
    (archive_ : PropertySource) :
    (notPresent (archive_ index .kpidPath) → ¬ answersBool (archive_ index .kpidIsDir) →
      (self.readItem index archive_).filename = "[Content]".toList) ∧
    (notPresent (archive_ index .kpidAttrib) → (self.readItem index archive_).attributes = 0) ∧
    (notPresent (archive_ index .kpidIsDir) →
      (self.readItem index archive_).directory = false) ∧
    (notPresent (archive_ index .kpidMTime) →
      (self.readItem index archive_).last_modified = { dwLowDateTime := 0, dwHighDateTime := 0 }) ∧
    (notPresent (archive_ index .kpidSize) → (self.readItem index archive_).size = 0) := by
  simp only [ArchiveExtractting.readItem]
  refine ⟨?_, ?_, ?_, ?_, ?_⟩
  · intro h1 h2
    rw [(ArchiveExtractting.readSize_frame _ _).1, (ArchiveExtractting.readMTime_frame _ _).1,
      (ArchiveExtractting.readIsDir_frame _ _).2.2.2.1 h2,
      (ArchiveExtractting.readAttrib_frame _ _).1]
    exact (ArchiveExtractting.readPath_frame _ _).2.2.2.1 h1
  · intro h
    rw [(ArchiveExtractting.readSize_frame _ _).2.1, (ArchiveExtractting.readMTime_frame _ _).2.1,
      (ArchiveExtractting.readIsDir_frame _ _).1]
    exact (ArchiveExtractting.readAttrib_frame _ _).2.2.2 h
  · intro h
    rw [ArchiveExtractting.readSize_directory, ArchiveExtractting.readMTime_directory]
    exact (ArchiveExtractting.readIsDir_frame _ _).2.2.2.2 h
  · intro h
    rw [(ArchiveExtractting.readSize_frame _ _).2.2.1]
    exact (ArchiveExtractting.readMTime_frame _ _).2.2.2 h
  · intro h
    exact (ArchiveExtractting.readSize_frame _ _).2.2.2 h

/-- C5 (counterexample): with every property reported as not present, the
relative path `GetStream` leaves in the item metadata is `[Content]`, not the
empty path. -/
theorem ArchiveExtractting_GetStream_absent_path_not_empty :
    notPresent (nothingPresent 0 .kpidPath) ∧
    (ArchiveExtractting.GetStream
        (ArchiveExtractting.new "/out".toList true ⟨0, 0⟩ ⟨0, 0⟩ ⟨0, 0⟩) 0 kExtract
        nothingPresent true 0).self.file_.filename = "[Content]".toList ∧
    (ArchiveExtractting.GetStream
        (ArchiveExtractting.new "/out".toList true ⟨0, 0⟩ ⟨0, 0⟩ ⟨0, 0⟩) 0 kExtract
        nothingPresent true 0).self.file_.filename ≠ [] := by
  refine ⟨⟨by decide, by decide⟩, by decide, by decide⟩

/-- C5 (amended): in extract mode, for every state of the callback, every item
and each of the five properties: when the reader reports the property as not
present, `GetStream` leaves the default in the item metadata, namely the
relative path `[Content]` (provided the is-directory property is not answered
with a boolean), zero attributes, not-a-directory, zero timestamp and zero
size. -/
theorem ArchiveExtractting_GetStream_defaults (self : ArchiveExtractting) (index : Nat)
    (archive_ : PropertySource) (opened : Bool) (lastError : Nat) :
    (notPresent (archive_ index .kpidPath) → ¬ answersBool (archive_ index .kpidIsDir) →
      (self.GetStream index kExtract archive_ opened lastError).self.file_.filename
        = "[Content]".toList) ∧
    (notPresent (archive_ index .kpidAttrib) →
      (self.GetStream index kExtract archive_ opened lastError).self.file_.attributes = 0) ∧
    (notPresent (archive_ index .kpidIsDir) →
      (self.GetStream index kExtract archive_ opened lastError).self.file_.directory = false) ∧
    (notPresent (archive_ index .kpidMTime) →
      (self.GetStream index kExtract archive_ opened lastError).self.file_.last_modified
        = { dwLowDateTime := 0, dwHighDateTime := 0 }) ∧
    (notPresent (archive_ index .kpidSize) →
      (self.GetStream index kExtract archive_ opened lastError).self.file_.size = 0) := by
  have hd := ArchiveExtractting.readItem_defaults self index archive_
  rcases ArchiveExtractting.GetStream_file self index archive_ opened lastError with h | h <;>
    rw [h] <;> exact hd

theorem ArchiveExtractting_GetStream_defaults_witness :
    (ArchiveExtractting.GetStream
        (ArchiveExtractting.new "/out".toList true ⟨1, 2⟩ ⟨3, 4⟩ ⟨5, 6⟩) 0 kExtract
        nothingPresent true 0).self.file_
      = { size := 0, attributes := 0, directory := false, creation_time := ⟨1, 2⟩,
          last_modified := ⟨0, 0⟩, last_accessed := ⟨5, 6⟩, filename := "[Content]".toList,
          path := "/out\\[Content]".toList } ∧
    (ArchiveExtractting.GetStream
        (ArchiveExtractting.new "/out".toList true ⟨1, 2⟩ ⟨3, 4⟩ ⟨5, 6⟩) 0 kExtract
        nothingPresent true 0).self.file_.filename = "[Content]".toList :=
  ⟨by decide,
   (ArchiveExtractting_GetStream_defaults
      (ArchiveExtractting.new "/out".toList true ⟨1, 2⟩ ⟨3, 4⟩ ⟨5, 6⟩) 0 nothingPresent true 0).1
      ⟨by decide, by decide⟩ (fun h => absurd h.2 (by decide))⟩

theorem ArchiveExtractting.readItem_path (self : ArchiveExtractting) (index : Nat)
    (archive_ : PropertySource) (rel : WString)
    (hpath : answersString (archive_ index .kpidPath) rel)
    (hdir : ¬ answersBool (archive_ index .kpidIsDir)) :
    (self.readItem index archive_).path = Append self.root_ rel := by
  simp only [ArchiveExtractting.readItem]
  rw [(ArchiveExtractting.readSize_frame _ _).1, (ArchiveExtractting.readMTime_frame _ _).1,
    (ArchiveExtractting.readIsDir_frame _ _).2.2.2.1 hdir,
    (ArchiveExtractting.readAttrib_frame _ _).1,
    (ArchiveExtractting.readPath_frame _ _).2.2.2.2 rel hpath]

/-- C6 (counterexample): with root `/out` and the file item `a/b.txt`, the
directory `GetStream` ensures and the file it opens are not `/out/a` and
`/out/a/b.txt`: the join puts a backslash after the root. -/
theorem ArchiveExtractting_GetStream_join_uses_backslash :
    (ArchiveExtractting.GetStream
        (ArchiveExtractting.new "/out".toList true ⟨0, 0⟩ ⟨0, 0⟩ ⟨0, 0⟩) 0 kExtract oneFile
        true 0).events
      ≠ [.CreatePathTree "/out/a".toList, .OpenFile "/out/a/b.txt".toList false] := by
  decide

/-- C6 (amended): for every destination root, every callback object made by
the constructor and driven through any sequence of earlier `GetStream` calls,
and every item whose path property is answered with the string `rel` and whose
is-directory property is not answered with a boolean, `GetStream` in extract
mode makes exactly two host calls, in this order: it ensures the directory tree
of `GetParent(Append(root, rel))`, then opens `Append(root, rel)` for writing.
With root `/out` and `rel = a/b.txt` the join is `/out\a/b.txt` and its
parent is `/out\a`. -/
theorem ArchiveExtractting_GetStream_parent_then_open (root : WString) (callback : Bool)
    (t1 t2 t3 : FILETIME) (archive_ : PropertySource)
    (calls : List ArchiveExtractting.GetStreamCall) (index : Nat) (opened : Bool)
    (lastError : Nat) (rel : WString)
    (hpath : answersString (archive_ index .kpidPath) rel)
    (hdir : ¬ answersBool (archive_ index .kpidIsDir)) :
    (ArchiveExtractting.GetStream
        (ArchiveExtractting.afterCalls archive_
          (ArchiveExtractting.new root callback t1 t2 t3) calls)
        index kExtract archive_ opened lastError).events
      = [.CreatePathTree (GetParent (Append root rel)), .OpenFile (Append root rel) false] ∧
    Append "/out".toList "a/b.txt".toList = "/out\\a/b.txt".toList ∧
    GetParent "/out\\a/b.txt".toList = "/out\\a".toList := by
  refine ⟨?_, by decide, by decide⟩
  have h0 : (ArchiveExtractting.afterCalls archive_
      (ArchiveExtractting.new root callback t1 t2 t3) calls).file_.directory = false :=
    ArchiveExtractting.afterCalls_directory archive_ _ calls rfl
  have hr : (ArchiveExtractting.afterCalls archive_
      (ArchiveExtractting.new root callback t1 t2 t3) calls).root_ = root :=
    ArchiveExtractting.afterCalls_root archive_ _ calls
  have h1 := (ArchiveExtractting.GetStream_file_branch _ index archive_ opened lastError h0).1
  rw [h1, ArchiveExtractting.readItem_path _ index archive_ rel hpath hdir, hr]

theorem ArchiveExtractting_GetStream_parent_then_open_witness :
    (ArchiveExtractting.GetStream
        (ArchiveExtractting.new "/out".toList true ⟨0, 0⟩ ⟨0, 0⟩ ⟨0, 0⟩) 0 kExtract oneFile
        true 0).events
      = [.CreatePathTree "/out\\a".toList, .OpenFile "/out\\a/b.txt".toList false] :=
  (ArchiveExtractting_GetStream_parent_then_open "/out".toList true ⟨0, 0⟩ ⟨0, 0⟩ ⟨0, 0⟩
      oneFile [] 0 true 0 "a/b.txt".toList ⟨by decide, by decide, by decide⟩
      (fun h => absurd h.2 (by decide))).1.trans (by decide)

/-! ### `ArchiveCompressing` -/

theorem ArchiveCompressing.vectorAt_length (l : List PlatformFileInfo) :
    ArchiveCompressing.vectorAt l l.length = .error .out_of_range := by
  simp [ArchiveCompressing.vectorAt]

/-- C7: on the code, the guard is `index > file_list_.size()`, so the index
equal to the length of the file list passes it and `file_list_.at(index)`
throws `std::out_of_range`: for every file list, `GetProperty` for the path,
is-directory and size properties and `GetStream` raise at that index instead of
returning `E_INVALIDARG`. -/
theorem ArchiveCompressing_index_equal_to_length_throws (self : ArchiveCompressing)
    (host : PropertyHost) (value : PROPVARIANT) (log : ReleaseLog) (opened : Bool)
    (lastError : Nat) :
    self.GetProperty host self.file_list_.length .kpidPath value log = .error .out_of_range ∧
    self.GetProperty host self.file_list_.length .kpidIsDir value log = .error .out_of_range ∧
    self.GetProperty host self.file_list_.length .kpidSize value log = .error .out_of_range ∧
    self.GetStream self.file_list_.length opened lastError = .error .out_of_range := by
  refine ⟨?_, ?_, ?_, ?_⟩ <;>
    simp [ArchiveCompressing.GetProperty, ArchiveCompressing.GetStream, ArchiveCompressing.vectorAt_length, bind,
      Except.bind]

theorem ArchiveCompressing.index_beyond_length (self : ArchiveCompressing)
    (host : PropertyHost) (index : Nat) (propID : PROPID) (value : PROPVARIANT) (log : ReleaseLog)
    (opened : Bool) (lastError : Nat) (h : self.file_list_.length < index)
    (hp : propID ≠ .kpidIsAnti) :
    (∃ log', self.GetProperty host index propID value log
      = .ok { hr := E_INVALIDARG, value := value, log := log' }) ∧
    self.GetStream index opened lastError
      = .ok { hr := E_INVALIDARG, inStream := none, events := [] } := by
  refine ⟨⟨(ScopedVariant.destroy host.clearHr (ScopedVariant.new host.garbage) log).2, ?_⟩, ?_⟩
  · simp only [ArchiveCompressing.GetProperty, if_neg hp, gt_iff_lt, if_pos h]
    rfl
  · simp only [ArchiveCompressing.GetStream, gt_iff_lt, if_pos h]
    rfl

/-! ### Format registry -/

/-- C8: on the code, the index is `min(formats, 11)`, the size of the table and
not its last index, so every selector beyond the terminal sentinel (ordinal 11
and above) makes `FormatGUID` and `FormatExtension` read the element after the
last one of their 11-entry tables; the sentinel itself (ordinal 10) is the
last selector that is read inside the tables. -/
theorem FormatGUID_beyond_sentinel_reads_past_table (format : Format)
    (h1 : 11 ≤ format) (h2 : format < 2 ^ 64) :
    FormatGUID format = .error .out_of_bounds_read ∧
    FormatExtension format = .error .out_of_bounds_read ∧
    FormatGUID Format.LAST = .ok (some .CLSID_CFormat7z) ∧
    FormatExtension Format.LAST = .ok ".zip".toList := by
  have he : enumerate_cast format = format := Nat.mod_eq_of_lt h2
  have hg : min format guid.length = 11 := Nat.min_eq_right h1
  have hx : min format extension.length = 11 := Nat.min_eq_right h1
  refine ⟨?_, ?_, by decide, by decide⟩
  · simp only [FormatGUID, he, hg]
    rfl
  · simp only [FormatExtension, he, hx]
    rfl

theorem FormatGUID_beyond_sentinel_reads_past_table_witness :
    FormatGUID 11 = .error .out_of_bounds_read ∧
    FormatExtension 11 = .error .out_of_bounds_read ∧
    FormatGUID Format.LAST = .ok (some .CLSID_CFormat7z) ∧
    FormatExtension Format.LAST = .ok ".zip".toList :=
  FormatGUID_beyond_sentinel_reads_past_table 11 (by decide) (by decide)

/-- C9: for every supported format selector (ordinals 0 to 9) `FormatGUID`
returns a non-null class identity, which is the one `LoadReader` and
`LoadEditor` hand to the engine's factory for the reader and for the writer,
and `FormatExtension` returns a non-empty string that starts with the
extension separator `.`. -/
theorem FormatRegistry_supported_selectors (format : Format) (h : format ≤ 9) :
    (∃ clsid, FormatGUID format = .ok (some clsid) ∧
      (∀ host, Archive.LoadReader host format
        = .ok (host.createReader clsid, [.CreateObject clsid .IID_IInArchive])) ∧
      (∀ host, Archive.LoadEditor host format
        = .ok (host.createWriter clsid, [.CreateObject clsid .IID_IOutArchive]))) ∧
    (∃ rest, FormatExtension format = .ok (kExtensionSeparator ++ rest)) ∧
    FormatExtension format ≠ .ok [] := by
  interval_cases format <;>
    exact ⟨⟨_, rfl, fun _ => rfl, fun _ => rfl⟩, ⟨_, rfl⟩, by decide⟩

theorem FormatRegistry_supported_selectors_witness :
    FormatGUID Format.BZIP2 = .ok (some .CLSID_CFormatBZip2) ∧
    (∃ rest, FormatExtension Format.BZIP2 = .ok (kExtensionSeparator ++ rest)) ∧
    FormatExtension Format.BZIP2 = .ok ".bz".toList :=
  ⟨by decide, (FormatRegistry_supported_selectors Format.BZIP2 (by decide)).2.1, by decide⟩

/-! ### `Reset` -/

theorem hostOwnsPayload_empty : hostOwnsPayload VT_EMPTY = false := by decide

theorem releasePayload_empty (v : VARIANT) (log : ReleaseLog) (h : v.vt = VT_EMPTY) :
    releasePayload v log = log := by
  simp [releasePayload, h, hostOwnsPayload_empty]

theorem VariantClear_empty (hr : Int) (log : ReleaseLog) :
    (VariantClear hr VARIANT.empty log).2 = log := by
  unfold VariantClear
  split_ifs
  · rfl
  · exact releasePayload_empty VARIANT.empty log rfl

/-- C11: calling `Reset()` twice in a row equals calling it once, for
`ScopedVariant` and for `ScopedPropVariant`, whatever results the host's clear
calls have.  For `ScopedVariant` the first call leaves the variant empty and,
when the host's clear succeeds, releases the payload of an owning tag exactly
once (and nothing for another tag); the second call leaves state and release
log as they are.  For `ScopedPropVariant` a call with a succeeding clear always
returns; a first call that returned left the variant empty, with an owning
payload released exactly once, and a second call returns with the same state
and the same release log. -/
theorem Reset_twice_is_Reset_once (v : VARIANT) (log : ReleaseLog) (hr1 hr2 : Int) :
    (ScopedVariant.Reset hr1 ScopedVariant.kEmptyVariant v log).1 = VARIANT.empty ∧
    ScopedVariant.Reset hr2 ScopedVariant.kEmptyVariant
        (ScopedVariant.Reset hr1 ScopedVariant.kEmptyVariant v log).1
        (ScopedVariant.Reset hr1 ScopedVariant.kEmptyVariant v log).2
      = ScopedVariant.Reset hr1 ScopedVariant.kEmptyVariant v log ∧
    (FAILED hr1 = false →
      (ScopedVariant.Reset hr1 ScopedVariant.kEmptyVariant v log).2
        = if hostOwnsPayload v.vt then log ++ [v.pointer] else log) ∧
    (ScopedPropVariant.Reset S_OK v log).isSome = true ∧
    (∀ r, ScopedPropVariant.Reset hr1 v log = some r →
      r.1.vt = VT_EMPTY ∧
      r.2 = (if hostOwnsPayload v.vt then log ++ [v.pointer] else log) ∧
      ScopedPropVariant.Reset hr2 r.1 r.2 = some r) := by
  refine ⟨rfl, ?_, ?_, ?_, ?_⟩
  · simp only [ScopedVariant.Reset, ScopedVariant.kEmptyVariant]
    rw [VariantClear_empty]
  · intro h
    simp [ScopedVariant.Reset, VariantClear, h, releasePayload]
  · simp [ScopedPropVariant.Reset]
    split_ifs <;> rfl
  · intro r hr
    unfold ScopedPropVariant.Reset at hr
    split_ifs at hr with h1 h2
    · have hf : FAILED hr1 = false := by rw [h2]; decide
      simp only [Option.some.injEq] at hr
      subst hr
      simp only [PropVariantClear, hf, Bool.false_eq_true, if_false, releasePayload]
      refine ⟨rfl, ?_⟩
      simp [ScopedPropVariant.Reset, VARIANT.empty]
    · simp only [ne_eq, not_not] at h1
      simp only [Option.some.injEq] at hr
      subst hr
      refine ⟨h1, ?_, ?_⟩
      · simp [h1, hostOwnsPayload_empty]
      · simp [ScopedPropVariant.Reset, h1]

/-! ### Capability queries -/

theorem RefCounted.AddRef_state (o : RefCounted) :
    o.AddRef.1 = { ref_count_ := wrapInt32 (o.ref_count_ + 1), deleted := o.deleted } := by
  simp [RefCounted.AddRef, InterlockedExchangeAdd, kExChangedStep, show wrapInt32 1 = 1 by decide]

/-- C12: for each of the five capability objects and every interface identity,
`QueryInterface` returns `S_OK`, stores the object into `*obj` and has made one
`AddRef` call if the identity is in the declared set of the class (read
adapter: IUnknown, sequential-in, seekable-in, get-size; write adapter:
IUnknown, sequential-out, seekable-out; open callback: IUnknown, open
callback, password; extraction callback: IUnknown, extract callback, password;
compression callback: IUnknown, update callback, password-2, progress info);
for every other identity it returns `E_NOINTERFACE`, stores nothing and leaves
the reference count as it was.  The one `AddRef` adds exactly one to the
counter (as a 32-bit number) and destroys nothing. -/
theorem QueryInterface_declared_set (this : Nat) (self : RefCounted) (iid : IID) :
    ReadFileStreamming.QueryInterface this self iid
      = (if iid ∈ ReadFileStreamming.declared then
          { hr := S_OK, obj := some this, self := self.AddRef.1 }
         else { hr := E_NOINTERFACE, obj := none, self := self }) ∧
    WriteFileStreamming.QueryInterface this self iid
      = (if iid ∈ WriteFileStreamming.declared then
          { hr := S_OK, obj := some this, self := self.AddRef.1 }
         else { hr := E_NOINTERFACE, obj := none, self := self }) ∧
    ArchiveOpenning.QueryInterface this self iid
      = (if iid ∈ ArchiveOpenning.declared then
          { hr := S_OK, obj := some this, self := self.AddRef.1 }
         else { hr := E_NOINTERFACE, obj := none, self := self }) ∧
    ArchiveExtractting.QueryInterface this self iid
      = (if iid ∈ ArchiveExtractting.declared then
          { hr := S_OK, obj := some this, self := self.AddRef.1 }
         else { hr := E_NOINTERFACE, obj := none, self := self }) ∧
    ArchiveCompressing.QueryInterface this self iid
      = (if iid ∈ ArchiveCompressing.declared then
          { hr := S_OK, obj := some this, self := self.AddRef.1 }
         else { hr := E_NOINTERFACE, obj := none, self := self }) ∧
    self.AddRef.1 = { ref_count_ := wrapInt32 (self.ref_count_ + 1), deleted := self.deleted } ∧
    (-2147483648 ≤ self.ref_count_ → self.ref_count_ + 1 < 2147483648 →
      self.AddRef.1.ref_count_ = self.ref_count_ + 1) ∧
    SUCCEEDED S_OK = true ∧ FAILED E_NOINTERFACE = true := by
  refine ⟨?_, ?_, ?_, ?_, ?_, RefCounted.AddRef_state self, ?_, by decide, by decide⟩
  · cases iid <;>
      simp [ReadFileStreamming.QueryInterface, Query, ReadFileStreamming.declared]
  · cases iid <;>
      simp [WriteFileStreamming.QueryInterface, Query, WriteFileStreamming.declared]
  · cases iid <;>
      simp [ArchiveOpenning.QueryInterface, Query, ArchiveOpenning.declared]
  · cases iid <;>
      simp [ArchiveExtractting.QueryInterface, Query, ArchiveExtractting.declared]
  · cases iid <;>
      simp [ArchiveCompressing.QueryInterface, Query, ArchiveCompressing.declared]
  · intro h1 h2
    rw [RefCounted.AddRef_state]
    exact wrapInt32_id _ (by omega) h2

/-! ### Stream adapters -/

theorem normalised_result (hostResult : Int) :
    ((if SUCCEEDED hostResult then S_OK else hostResult) = S_OK ↔ SUCCEEDED hostResult = true) ∧
    (SUCCEEDED hostResult = false →
      (if SUCCEEDED hostResult then S_OK else hostResult) = hostResult) := by
  unfold SUCCEEDED S_OK
  constructor
  · split_ifs with h
    · simp [h]
    · simp only [decide_eq_true_eq] at h ⊢
      constructor
      · intro h0; omega
      · intro h0; exact absurd h0 h
  · intro h
    simp [h]

/-- C13: for every call of the read adapter's `Read` and of the write adapter's
`Write` with a non-null `processedSize`, the count stored there is exactly the
count the host stream stored for that call (0 if it stored none), whether the
transfer was complete or not, and the adapter returns `S_OK` iff the host call
succeeded, every success code being turned into `S_OK`, and otherwise returns
the host's failure code unchanged.  With a null `processedSize` nothing is
stored. -/
theorem StreamAdapter_reports_host_count (hostResult : Int) (hostCount : Option Nat) :
    (ReadFileStreamming.Read hostResult hostCount true).processedSize
      = some ((hostCount.getD 0) % 2 ^ 32) ∧
    (WriteFileStreamming.Write hostResult hostCount true).processedSize
      = some ((hostCount.getD 0) % 2 ^ 32) ∧
    (ReadFileStreamming.Read hostResult hostCount false).processedSize = none ∧
    (WriteFileStreamming.Write hostResult hostCount false).processedSize = none ∧
    (∀ p, ((ReadFileStreamming.Read hostResult hostCount p).hr = S_OK
        ↔ SUCCEEDED hostResult = true) ∧
      ((WriteFileStreamming.Write hostResult hostCount p).hr = S_OK
        ↔ SUCCEEDED hostResult = true) ∧
      (SUCCEEDED hostResult = false →
        (ReadFileStreamming.Read hostResult hostCount p).hr = hostResult ∧
        (WriteFileStreamming.Write hostResult hostCount p).hr = hostResult)) ∧
    (∀ n, n < 2 ^ 32 →
      (ReadFileStreamming.Read hostResult (some n) true).processedSize = some n ∧
      (WriteFileStreamming.Write hostResult (some n) true).processedSize = some n) := by
  have hn := normalised_result hostResult
  refine ⟨?_, ?_, rfl, rfl, ?_, ?_⟩
  · cases hostCount <;> rfl
  · cases hostCount <;> rfl
  · intro p
    exact ⟨hn.1, hn.1, fun h => ⟨hn.2 h, hn.2 h⟩⟩
  · intro n h
    have h' : n < 4294967296 := by norm_num at h; exact h
    simp [ReadFileStreamming.Read, WriteFileStreamming.Write, Nat.mod_eq_of_lt h']

theorem StreamAdapter_reports_host_count_witness :
    ReadFileStreamming.Read 1 (some 5) true = { hr := S_OK, processedSize := some 5 } ∧
    (WriteFileStreamming.Write (-2147024891) (some 3) true).processedSize = some 3 ∧
    (WriteFileStreamming.Write (-2147024891) (some 3) true).hr = -2147024891 :=
  ⟨by decide,
   ((StreamAdapter_reports_host_count (-2147024891) (some 3)).2.2.2.2.2 3 (by decide)).2,
   ((StreamAdapter_reports_host_count (-2147024891) (some 3)).2.2.2.2.1 true).2.2
     (by decide) |>.2⟩

/-! ### `Archive::Open`, result and reader lifetime -/

theorem Archive.LoadReader_of_guid (host : Host) (format : Format) (clsid : CLSID)
    (hg : FormatGUID format = .ok (some clsid)) :
    Archive.LoadReader host format
      = .ok (host.createReader clsid, [.CreateObject clsid .IID_IInArchive]) := by
  simp [Archive.LoadReader, hg, bind, Except.bind, pure, Except.pure]

theorem Archive.Open_of_guid (host : Host) (path : WString) (format : Format) (clsid : CLSID)
    (callback : OpenCallback) (hg : FormatGUID format = .ok (some clsid)) :
    Archive.Open host path format callback
      = if path.isEmpty then { returned := .ok false, events := [] }
        else if !host.openFile path true then
          { returned := .ok false, events := [.OpenFile path true] }
        else match host.createReader clsid with
          | none =>
            { returned := .ok false,
              events := [.OpenFile path true, .CreateObject clsid .IID_IInArchive] }
          | some archive =>
            if FAILED archive.openResult then
              { returned := .ok false,
                events := [.OpenFile path true, .CreateObject clsid .IID_IInArchive,
                  .ReaderOpen] }
            else if !(Archive.openArchivePath archive.archivePath callback).1 then
              { returned := .error .callback_exception,
                events := [.OpenFile path true, .CreateObject clsid .IID_IInArchive,
                    .ReaderOpen]
                  ++ (Archive.openArchivePath archive.archivePath callback).2 }
            else if !(Archive.openItems archive.getProperty callback
                (archive.numItems % 2 ^ 32)).1 then
              { returned := .error .callback_exception,
                events := [.OpenFile path true, .CreateObject clsid .IID_IInArchive,
                    .ReaderOpen]
                  ++ (Archive.openArchivePath archive.archivePath callback).2
                  ++ (Archive.openItems archive.getProperty callback
                      (archive.numItems % 2 ^ 32)).2 }
            else
              { returned := .ok true,
                events := [.OpenFile path true, .CreateObject clsid .IID_IInArchive,
                    .ReaderOpen]
                  ++ (Archive.openArchivePath archive.archivePath callback).2
                  ++ (Archive.openItems archive.getProperty callback
                      (archive.numItems % 2 ^ 32)).2
                  ++ [.ReaderClose] } := by
  unfold Archive.Open
  rw [Archive.LoadReader_of_guid host format clsid hg]
  by_cases h1 : path.isEmpty = true
  · simp [h1]
  · by_cases h2 : host.openFile path true = true
    · simp only [h1, h2]
      cases hc : host.createReader clsid with
      | none => simp
      | some archive =>
        by_cases h3 : FAILED archive.openResult = true
        · simp [h3]
        · simp [h3]
    · simp [h1, h2]

theorem FormatGUID_enumerators (format : Format) (hf : format ≤ 10) :
    ∃ clsid, FormatGUID format = .ok (some clsid) := by
  interval_cases format <;> exact ⟨_, rfl⟩

theorem Archive.openArchivePath_returning (archivePath : PROPVARIANT) (callback : OpenCallback)
    (h : ∀ p b, callback p b = true) :
    (Archive.openArchivePath archivePath callback).1 = true := by
  unfold Archive.openArchivePath
  split_ifs
  · exact h _ _
  · rfl

theorem Archive.openItems_returning (getProperty : PropertySource) (callback : OpenCallback)
    (h : ∀ p b, callback p b = true) (n : Nat) :
    (Archive.openItems getProperty callback n).1 = true := by
  induction n with
  | zero => rfl
  | succ k ih =>
    simp only [Archive.openItems, ih, Bool.not_true, Bool.false_eq_true, if_false,
      Archive.openItem]
    split_ifs
    · exact h _ _
    · rfl

theorem Archive.openArchivePath_threw (archivePath : PROPVARIANT) (callback : OpenCallback)
    (h : (Archive.openArchivePath archivePath callback).1 = false) :
    ∃ p b, callback p b = false := by
  unfold Archive.openArchivePath at h
  split_ifs at h
  exact ⟨_, _, h⟩

theorem Archive.openItems_threw (getProperty : PropertySource) (callback : OpenCallback)
    (n : Nat) (h : (Archive.openItems getProperty callback n).1 = false) :
    ∃ p b, callback p b = false := by
  by_contra hno
  have hall : ∀ p b, callback p b = true := by
    intro p b
    by_contra hpb
    exact hno ⟨p, b, by simpa using hpb⟩
  rw [Archive.openItems_returning getProperty callback hall n] at h
  cases h

theorem Archive.openArchivePath_only_callbacks (archivePath : PROPVARIANT)
    (callback : OpenCallback) :
    ∀ e ∈ (Archive.openArchivePath archivePath callback).2, ∃ p b, e = Event.Callback p b := by
  intro e he
  unfold Archive.openArchivePath at he
  split_ifs at he
  · simp only [List.mem_singleton] at he
    exact ⟨_, _, he⟩
  · simp at he

theorem Archive.openItems_only_callbacks (getProperty : PropertySource)
    (callback : OpenCallback) (n : Nat) :
    ∀ e ∈ (Archive.openItems getProperty callback n).2, ∃ p b, e = Event.Callback p b := by
  induction n with
  | zero => intro e he; simp [Archive.openItems] at he
  | succ k ih =>
    intro e he
    simp only [Archive.openItems] at he
    split_ifs at he
    · exact ih e he
    · simp only [List.mem_append] at he
      rcases he with he | he
      · exact ih e he
      · simp only [Archive.openItem] at he
        split_ifs at he
        · simp only [List.mem_singleton] at he
          exact ⟨_, _, he⟩
        · simp at he

/-- C15: on the code, the reader's `Close` is the last statement but one of
`Archive::Open` and nothing guards it: on every execution in which the
reader's open call succeeded, a call of the metadata callback that throws
leaves `Open` by the exception and the reader's `Close` is never called.  With
the archive-level path answered as a string and a callback whose first call
throws (an empty `std::function`), the calls made are the open of the path, the
factory call, the reader's open and that one callback.  When every call of the
callback returns, `Open` returns true and `Close` is called exactly once, as
the last call of all, after the reader's open and every metadata callback. -/
theorem Archive_Open_throwing_callback_skips_Close (host : Host) (path : WString)
    (format : Format) (clsid : CLSID) (archive : Reader) (callback : OpenCallback)
    (hp : path ≠ []) (ho : host.openFile path true = true)
    (hg : FormatGUID format = .ok (some clsid))
    (hc : host.createReader clsid = some archive)
    (hs : FAILED archive.openResult = false) :
    Event.ReaderOpen ∈ (Archive.Open host path format callback).events ∧
    ((Archive.Open host path format callback).returned = .ok true ∨
      (Archive.Open host path format callback).returned = .error .callback_exception) ∧
    ((Archive.Open host path format callback).returned = .error .callback_exception →
      Event.ReaderClose ∉ (Archive.Open host path format callback).events ∧
      ∃ p b, callback p b = false) ∧
    (archive.archivePath.vt = VT_BSTR →
      callback (c_str archive.archivePath.bstrVal) (lowBits 64 (-1)) = false →
      Archive.Open host path format callback
        = { returned := .error .callback_exception,
            events := [.OpenFile path true, .CreateObject clsid .IID_IInArchive, .ReaderOpen,
              .Callback (c_str archive.archivePath.bstrVal) (lowBits 64 (-1))] }) ∧
    ((Archive.Open host path format callback).returned = .ok true →
      ∃ pre, (Archive.Open host path format callback).events = pre ++ [.ReaderClose] ∧
        Event.ReaderOpen ∈ pre ∧ Event.ReaderClose ∉ pre ∧
        (pre ++ [Event.ReaderClose]).count .ReaderClose = 1 ∧
        (∀ p b, Event.Callback p b ∈ pre ++ [Event.ReaderClose] → Event.Callback p b ∈ pre)) ∧
    ((∀ p b, callback p b = true) →
      (Archive.Open host path format callback).returned = .ok true) := by
  have h1' : path.isEmpty = false := by
    cases path with
    | nil => exact absurd rfl hp
    | cons a l => rfl
  have hfirst := Archive.openArchivePath_only_callbacks archive.archivePath callback
  have hitems := Archive.openItems_only_callbacks archive.getProperty callback
    (archive.numItems % 2 ^ 32)
  have hA1 := Archive.openArchivePath_returning archive.archivePath callback
  have hA2 := Archive.openArchivePath_threw archive.archivePath callback
  have hA3 : archive.archivePath.vt = VT_BSTR →
      callback (c_str archive.archivePath.bstrVal) (lowBits 64 (-1)) = false →
      Archive.openArchivePath archive.archivePath callback
        = (false, [.Callback (c_str archive.archivePath.bstrVal) (lowBits 64 (-1))]) := by
    intro hv hthrow
    simp [Archive.openArchivePath, hv, hthrow]
  have hI1 := fun hall => Archive.openItems_returning archive.getProperty callback hall
    (archive.numItems % 2 ^ 32)
  have hI2 := Archive.openItems_threw archive.getProperty callback (archive.numItems % 2 ^ 32)
  have hopen := Archive.Open_of_guid host path format clsid callback hg
  simp only [h1', ho, hc, hs, Bool.false_eq_true, if_false, Bool.not_true] at hopen
  generalize Archive.openArchivePath archive.archivePath callback = first
    at hfirst hA1 hA2 hA3 hopen
  generalize Archive.openItems archive.getProperty callback (archive.numItems % 2 ^ 32) = items
    at hitems hI1 hI2 hopen
  obtain ⟨a, ae⟩ := first
  obtain ⟨i, ie⟩ := items
  have hnot1 : Event.ReaderClose ∉
      [Event.OpenFile path true, .CreateObject clsid .IID_IInArchive, .ReaderOpen] ++ ae := by
    intro hmem
    simp only [List.mem_append] at hmem
    rcases hmem with hmem | hmem
    · simp at hmem
    · obtain ⟨p, b, hpb⟩ := hfirst _ hmem
      cases hpb
  have hnot : Event.ReaderClose ∉
      [Event.OpenFile path true, .CreateObject clsid .IID_IInArchive, .ReaderOpen] ++ ae
        ++ ie := by
    intro hmem
    rw [List.mem_append] at hmem
    rcases hmem with hmem | hmem
    · exact hnot1 hmem
    · obtain ⟨p, b, hpb⟩ := hitems _ hmem
      cases hpb
  cases a
  · have hres : Archive.Open host path format callback
        = { returned := .error .callback_exception,
            events := [Event.OpenFile path true, .CreateObject clsid .IID_IInArchive,
              .ReaderOpen] ++ ae } := by
      rw [hopen]; rfl
    rw [hres]
    refine ⟨by simp, Or.inr rfl, fun _ => ⟨hnot1, hA2 rfl⟩, ?_, fun h => by simp at h,
      fun hall => absurd (hA1 hall) (by simp)⟩
    intro hv hthrow
    have h := hA3 hv hthrow
    simp only [Prod.mk.injEq, true_and] at h
    rw [h]
    rfl
  · cases i
    · have hres : Archive.Open host path format callback
          = { returned := .error .callback_exception,
              events := [Event.OpenFile path true, .CreateObject clsid .IID_IInArchive,
                .ReaderOpen] ++ ae ++ ie } := by
        rw [hopen]; rfl
      rw [hres]
      refine ⟨by simp, Or.inr rfl, fun _ => ⟨hnot, hI2 rfl⟩, ?_, fun h => by simp at h,
        fun hall => absurd (hI1 hall) (by simp)⟩
      intro hv hthrow
      have h := hA3 hv hthrow
      simp at h
    · have hres : Archive.Open host path format callback
          = { returned := .ok true,
              events := [Event.OpenFile path true, .CreateObject clsid .IID_IInArchive,
                .ReaderOpen] ++ ae ++ ie ++ [.ReaderClose] } := by
        rw [hopen]; rfl
      rw [hres]
      refine ⟨by simp, Or.inl rfl, fun h => by simp at h, ?_, fun _ => ?_, fun _ => rfl⟩
      · intro hv hthrow
        have h := hA3 hv hthrow
        simp at h
      · refine ⟨_, rfl, by simp, hnot, ?_, ?_⟩
        · rw [List.count_append, List.count_eq_zero_of_not_mem hnot]
          simp
        · intro p b hmem
          simp only [List.mem_append, List.mem_singleton] at hmem
          rcases hmem with hmem | hmem
          · simpa using hmem
          · cases hmem

/-- C15 (witness): the archive `a.7z` opened with an empty callback: the
first call of the callback throws and `Close` is not among the calls made. -/
theorem Archive_Open_throwing_callback_skips_Close_witness :
    Archive.Open threeFilesHost "a.7z".toList Format.SEVENZ OpenCallback.empty
      = { returned := .error .callback_exception,
          events := [.OpenFile "a.7z".toList true,
            .CreateObject .CLSID_CFormat7z .IID_IInArchive, .ReaderOpen,
            .Callback "a.7z".toList (2 ^ 64 - 1)] } ∧
    Event.ReaderOpen ∈
      (Archive.Open threeFilesHost "a.7z".toList Format.SEVENZ OpenCallback.empty).events ∧
    Event.ReaderClose ∉
      (Archive.Open threeFilesHost "a.7z".toList Format.SEVENZ OpenCallback.empty).events :=
  ⟨by decide,
   (Archive_Open_throwing_callback_skips_Close threeFilesHost "a.7z".toList Format.SEVENZ
      .CLSID_CFormat7z threeFilesReader OpenCallback.empty (by decide) rfl (by decide) rfl
      (by decide)).1,
   ((Archive_Open_throwing_callback_skips_Close threeFilesHost "a.7z".toList Format.SEVENZ
      .CLSID_CFormat7z threeFilesReader OpenCallback.empty (by decide) rfl (by decide) rfl
      (by decide)).2.2.1 (by decide)).1⟩

/-! ### `Archive::Extract` -/

/-- C16: for every archive path for which the host cannot open a read
resource (the path is empty, or the host does not open it), `Archive::Extract`
returns false; the only call it has made is the attempt to open the path (none
at all for the empty path): the engine's factory was not called, no extraction
callback object was constructed, and neither `StartProgress` nor `Progressed`
was invoked on the progress sink. -/
theorem Archive_Extract_unopenable_path (host : Host) (path : WString) (format : Format)
    (root : WString) (callback : Bool) (t1 t2 t3 : FILETIME)
    (h : path = [] ∨ host.openFile path true = false) :
    Archive.Extract host path format root callback t1 t2 t3
      = { returned := .ok false,
          events := if path = [] then [] else [.OpenFile path true],
          extractting := none } ∧
    (∀ e ∈ (Archive.Extract host path format root callback t1 t2 t3).events,
      e = Event.OpenFile path true) ∧
    (∀ p b clsid iid,
      Event.StartProgress p b ∉ (Archive.Extract host path format root callback t1 t2 t3).events ∧
      Event.Progressed p b ∉ (Archive.Extract host path format root callback t1 t2 t3).events ∧
      Event.CreateObject clsid iid ∉
        (Archive.Extract host path format root callback t1 t2 t3).events) := by
  have hres : Archive.Extract host path format root callback t1 t2 t3
      = { returned := .ok false,
          events := if path = [] then [] else [.OpenFile path true],
          extractting := none } := by
    unfold Archive.Extract
    by_cases h1 : path = []
    · subst h1
      rfl
    · have h1' : path.isEmpty = false := by
        cases path with
        | nil => exact absurd rfl h1
        | cons a l => rfl
      have h2 : host.openFile path true = false := by
        rcases h with h | h
        · exact absurd h h1
        · exact h
      simp [h1', h2, h1]
  have hall : ∀ e ∈ (Archive.Extract host path format root callback t1 t2 t3).events,
      e = Event.OpenFile path true := by
    rw [hres]
    intro e he
    simp only at he
    split_ifs at he
    · simp at he
    · simpa using he
  refine ⟨hres, hall, ?_⟩
  intro p b clsid iid
  refine ⟨fun hm => ?_, fun hm => ?_, fun hm => ?_⟩ <;>
    · have := hall _ hm
      cases this

theorem Archive_Extract_unopenable_path_witness :
    Archive.Extract closedHost "missing.7z".toList Format.SEVENZ "/out".toList true
        ⟨0, 0⟩ ⟨0, 0⟩ ⟨0, 0⟩
      = { returned := .ok false, events := [.OpenFile "missing.7z".toList true],
          extractting := none } :=
  (Archive_Extract_unopenable_path closedHost "missing.7z".toList Format.SEVENZ "/out".toList
    true ⟨0, 0⟩ ⟨0, 0⟩ ⟨0, 0⟩ (Or.inr rfl)).1.trans (by decide)

/-! ### `ArchiveExtractting::SetOperationResult` -/

/-- C17: for every state of the extraction callback with a progress sink
supplied, `SetOperationResult` returns `S_OK` and invokes `Progressed` exactly
once and nothing else: with the destination root and 0 when the destination
path of the current item is empty, and otherwise with the item's destination
path and the item's size.  The path is empty after a `GetStream` whose open of
the output failed, so that the call reports the root and 0 then. -/
theorem ArchiveExtractting_SetOperationResult_progressed (self : ArchiveExtractting)
    (result : Int) (hc : self.callback_ = true) :
    self.SetOperationResult result
      = .ok (S_OK,
          [if self.file_.path = [] then Event.Progressed self.root_ 0
           else Event.Progressed self.file_.path self.file_.size]) ∧
    (self.file_.directory = false → ∀ index archive_ lastError,
      (self.GetStream index kExtract archive_ false lastError).self.file_.path = [] ∧
      (self.GetStream index kExtract archive_ false lastError).self.SetOperationResult result
        = .ok (S_OK, [Event.Progressed self.root_ 0])) := by
  constructor
  · unfold ArchiveExtractting.SetOperationResult
    cases hpath : self.file_.path with
    | nil => simp [hc]
    | cons a l => simp [hc]
  · intro hd index archive_ lastError
    have hdir := ArchiveExtractting.readItem_directory self index archive_ hd
    have hst : (self.GetStream index kExtract archive_ false lastError).self
        = { self with file_ := { self.readItem index archive_ with path := [] } } := by
      simp [ArchiveExtractting.GetStream, hdir]
    rw [hst]
    exact ⟨rfl, by simp [ArchiveExtractting.SetOperationResult, hc]⟩

theorem ArchiveExtractting_SetOperationResult_progressed_witness :
    (ArchiveExtractting.GetStream
        (ArchiveExtractting.new "/out".toList true ⟨0, 0⟩ ⟨0, 0⟩ ⟨0, 0⟩) 0 kExtract threeFiles
        true 0).self.SetOperationResult 0
      = .ok (S_OK, [Event.Progressed "/out\\f0".toList 10]) ∧
    (ArchiveExtractting.GetStream
        (ArchiveExtractting.new "/out".toList true ⟨0, 0⟩ ⟨0, 0⟩ ⟨0, 0⟩) 0 kExtract threeFiles
        false 5).self.SetOperationResult 0
      = .ok (S_OK, [Event.Progressed "/out".toList 0]) :=
  ⟨((ArchiveExtractting_SetOperationResult_progressed
      (ArchiveExtractting.GetStream
        (ArchiveExtractting.new "/out".toList true ⟨0, 0⟩ ⟨0, 0⟩ ⟨0, 0⟩) 0 kExtract threeFiles
        true 0).self 0 (by decide)).1).trans (by decide),
   by decide⟩

/-! ### Password requests -/

/-- C18: no callback object of the core supplies a password.  The open
callback's and the extraction callback's `CryptoGetTextPassword` return
`E_ABORT`, a failure, and store no password, in every state of the object and
without any call on the host; the compression callback's
`CryptoGetTextPassword2` stores 0 into the password-is-defined flag, stores an
empty string as the password and returns `S_OK`. -/
theorem Callbacks_never_supply_password :
    ArchiveOpenning.CryptoGetTextPassword = (E_ABORT, none) ∧
    ArchiveExtractting.CryptoGetTextPassword = (E_ABORT, none) ∧
    FAILED E_ABORT = true ∧
    (∀ (self : ArchiveExtractting) (archive_ : PropertySource),
      self.handle archive_ .CryptoGetTextPassword
        = .ok { self := self, hr := E_ABORT, events := [] }) ∧
    (∀ allocated : Nat,
      ArchiveCompressing.CryptoGetTextPassword2 allocated
        = { hr := S_OK, passwordIsDefined := 0, password := allocated, passwordText := [] }) ∧
    (∀ (self : ArchiveCompressing) (allocated : Nat),
      self.handle (.CryptoGetTextPassword2 allocated) = .ok (S_OK, [])) := by
  refine ⟨rfl, rfl, by decide, fun _ _ => rfl, fun _ => rfl, fun _ _ => rfl⟩

/-! ### `Archive::Compress` -/

theorem Archive.LoadEditor_events (host : Host) (format : Format)
    (loaded : Option Writer × List Event) (h : Archive.LoadEditor host format = .ok loaded) :
    (loaded.1 = none ∧ loaded.2 = [] ∧ FormatGUID format = .ok none) ∨
    ∃ clsid, FormatGUID format = .ok (some clsid) ∧ loaded.1 = host.createWriter clsid ∧
      loaded.2 = [.CreateObject clsid .IID_IOutArchive] := by
  unfold Archive.LoadEditor at h
  cases hg : FormatGUID format with
  | error e => simp [hg, bind, Except.bind] at h
  | ok p =>
    cases p with
    | none =>
      simp only [hg, bind, Except.bind, pure, Except.pure, Except.ok.injEq] at h
      subst h
      exact Or.inl ⟨rfl, rfl, rfl⟩
    | some clsid =>
      simp only [hg, bind, Except.bind, pure, Except.pure, Except.ok.injEq] at h
      subst h
      exact Or.inr ⟨clsid, rfl, rfl, rfl⟩

/-- C19: `Archive::Compress` with an empty file list (or an empty path)
returns false without any call on its collaborators: the destination is not
opened, the engine's factory is not called and no compression callback is
constructed.  In every execution in which the destination is opened for
writing, the path and the file list are not empty, the engine has created the
writer for the format, and the factory call and the open of the destination are
the first two calls made, in this order. -/
theorem Archive_Compress_opens_destination_last (host : Host) (path : WString)
    (format : Format) (file_list : List PlatformFileInfo) (callback : Bool) :
    Archive.Compress host path format [] callback
      = { returned := .ok false, events := [], compressing := none } ∧
    Archive.Compress host [] format file_list callback
      = { returned := .ok false, events := [], compressing := none } ∧
    (Event.OpenFile path false ∈ (Archive.Compress host path format file_list callback).events →
      path ≠ [] ∧ file_list ≠ [] ∧
      ∃ clsid writer rest, FormatGUID format = .ok (some clsid) ∧
        host.createWriter clsid = some writer ∧
        (Archive.Compress host path format file_list callback).events
          = [.CreateObject clsid .IID_IOutArchive, .OpenFile path false] ++ rest) := by
  refine ⟨?_, ?_, ?_⟩
  · simp [Archive.Compress]
  · simp [Archive.Compress]
  · intro hmem
    unfold Archive.Compress at hmem ⊢
    by_cases h0 : (path.isEmpty || file_list.isEmpty) = true
    · simp [h0] at hmem
    · simp only [h0, Bool.false_eq_true, if_false] at hmem ⊢
      have hp : path ≠ [] := by
        rintro rfl
        simp at h0
      have hl : file_list ≠ [] := by
        rintro rfl
        simp at h0
      refine ⟨hp, hl, ?_⟩
      cases hload : Archive.LoadEditor host format with
      | error e => simp [hload] at hmem
      | ok loaded =>
        simp only [hload] at hmem ⊢
        rcases Archive.LoadEditor_events host format loaded hload with ⟨h1, h2, _⟩ | ⟨clsid, hg, h1, h2⟩
        · simp [h1, h2] at hmem
        · cases hw : host.createWriter clsid with
          | none =>
            rw [hw] at h1
            simp [h1, h2] at hmem
          | some writer =>
            rw [hw] at h1
            refine ⟨clsid, writer, ?_, hg, hw, ?_⟩
            · exact if host.openFile path false then
                  [Event.WriterUpdateItems (file_list.length % 2 ^ 32)] ++
                    (ArchiveCompressing.runCalls
                      { file_list_ := file_list, path_ := path, callback_ := callback }
                      writer.updateCalls).2
                else []
            · simp only [h1, h2]
              cases ho : host.openFile path false
              · simp
              · cases hrun : (ArchiveCompressing.runCalls
                    { file_list_ := file_list, path_ := path, callback_ := callback }
                    writer.updateCalls).1 with
                | error e => simp [hrun]
                | ok u =>
                  by_cases hf : FAILED writer.updateResult = true
                  · simp [hrun, hf]
                  · simp [hrun, hf]

theorem Archive_Compress_opens_destination_last_witness :
    Archive.Compress threeFilesHost "a.7z".toList Format.SEVENZ [] true
      = { returned := .ok false, events := [], compressing := none } ∧
    (Archive.Compress closedHost "a.7z".toList Format.SEVENZ [fileEntry ['x'] 3] true).events
      = [.CreateObject .CLSID_CFormat7z .IID_IOutArchive, .OpenFile "a.7z".toList false] ∧
    ("a.7z".toList ≠ [] ∧ [fileEntry ['x'] 3] ≠ [] ∧
      ∃ clsid writer rest, FormatGUID Format.SEVENZ = .ok (some clsid) ∧
        closedHost.createWriter clsid = some writer ∧
        (Archive.Compress closedHost "a.7z".toList Format.SEVENZ [fileEntry ['x'] 3] true).events
          = [.CreateObject clsid .IID_IOutArchive, .OpenFile "a.7z".toList false] ++ rest) :=
  ⟨(Archive_Compress_opens_destination_last threeFilesHost "a.7z".toList Format.SEVENZ [] true).1,
   by decide,
   (Archive_Compress_opens_destination_last closedHost "a.7z".toList Format.SEVENZ
     [fileEntry ['x'] 3] true).2.2 (by decide)⟩

/-! ### `ArchiveCompressing::GetUpdateItemInfo` and the is-anti property -/

theorem ScopedVariant.new_not_leakable (garbage : VARIANT) :
    IsLeakableVarType (ScopedVariant.new garbage).vt = false := by
  simp only [ScopedVariant.new]
  decide

/-- C20: for every item index and every file list, the compression callback's
`GetUpdateItemInfo` returns `S_OK` and stores new-data = 1, new-properties = 1
and prior archive index = `0xFFFFFFFF` through each pointer that is not null
(and nothing through a null one); `GetProperty` for the is-anti property
returns `S_OK` and leaves the boolean false in `*value`, whatever the index and
the file list are, when the variant handed in holds nothing to release (or the
host's clear of it succeeds). -/
theorem ArchiveCompressing_new_item_info (self : ArchiveCompressing) (index : Nat) :
    (∀ a b c : Bool,
      self.GetUpdateItemInfo index a b c
        = { hr := S_OK,
            newData := if a then some 1 else none,
            newProperties := if b then some 1 else none,
            indexInArchive := if c then some 4294967295 else none }) ∧
    self.GetUpdateItemInfo index true true true
      = { hr := S_OK, newData := some 1, newProperties := some 1,
          indexInArchive := some 0xFFFFFFFF } ∧
    (∀ (host : PropertyHost) (value : PROPVARIANT) (log : ReleaseLog),
      IsLeakableVarType value.vt = false ∨ FAILED host.propClearHr = false →
      ∃ r, self.GetProperty host index .kpidIsAnti value log = .ok r ∧ r.hr = S_OK ∧
        r.value.vt = VT_BOOL ∧ r.value.boolVal = VARIANT_FALSE) := by
  refine ⟨fun _ _ _ => rfl, rfl, ?_⟩
  intro host value log h
  have hnl := ScopedVariant.new_not_leakable host.garbage
  have hset : ArchiveCompressing.setVar (.bool false) (ScopedVariant.new host.garbage)
      = .ok { ScopedVariant.new host.garbage with
          vt := VT_BOOL,
          bits := setLow 16 (ScopedVariant.new host.garbage).bits (lowBits 16 VARIANT_FALSE) } := by
    simp [ArchiveCompressing.setVar, ScopedVariant.Set, hnl]
  refine ⟨ArchiveCompressing.releaseAndReturn host
      { ScopedVariant.new host.garbage with
        vt := VT_BOOL,
        bits := setLow 16 (ScopedVariant.new host.garbage).bits (lowBits 16 VARIANT_FALSE) }
      value log, ?_, rfl, ?_, ?_⟩
  · simp only [ArchiveCompressing.GetProperty, if_true, hset, bind, Except.bind, pure,
      Except.pure]
  · simp only [ArchiveCompressing.releaseAndReturn, ScopedVariant.ReleaseInto,
      ScopedVariant.memcpy]
    rcases h with h | h
    · simp [h]
    · split_ifs <;> simp_all
  · simp only [ArchiveCompressing.releaseAndReturn, ScopedVariant.ReleaseInto,
      ScopedVariant.memcpy]
    have hb : ∀ bits : Nat, toSigned 16 (setLow 16 bits (lowBits 16 VARIANT_FALSE))
        = VARIANT_FALSE := by
      intro bits
      simp only [toSigned, setLow, lowBits, VARIANT_FALSE]
      norm_num
    rcases h with h | h
    · simp [h, VARIANT.boolVal, hb]
    · split_ifs <;> simp_all [VARIANT.boolVal]

theorem ArchiveCompressing_new_item_info_witness :
    ∃ r, ArchiveCompressing.GetProperty
        { file_list_ := [], path_ := "a.7z".toList, callback_ := false } plainPropertyHost 7
        .kpidIsAnti VARIANT.empty [] = .ok r ∧ r.hr = S_OK ∧
      r.value.vt = VT_BOOL ∧ r.value.boolVal = VARIANT_FALSE :=
  (ArchiveCompressing_new_item_info
    { file_list_ := [], path_ := "a.7z".toList, callback_ := false } 7).2.2
    plainPropertyHost VARIANT.empty [] (Or.inl (by decide))

/-! ### The extraction callback without a progress sink -/

/-- C26: on the code, the first statement of `SetOperationResult`,
`if (!callback_) S_OK;`, returns nothing, so that for an extraction callback
with a null progress sink the method goes on to call `Progressed` through the
null pointer, in every item state; `SetTotal` does test the pointer and returns
`S_OK` without a call.  An extraction in which the engine reports the result
of one item therefore ends in the fault instead of returning. -/
theorem ArchiveExtractting_SetOperationResult_null_sink :
    (∀ (self : ArchiveExtractting) (result : Int), self.callback_ = false →
      self.SetOperationResult result = .error .null_dereference) ∧
    (∀ (self : ArchiveExtractting) (size : Nat), self.callback_ = false →
      self.SetTotal size = (S_OK, [])) ∧
    (ArchiveExtractting.new "/out".toList false ⟨0, 0⟩ ⟨0, 0⟩ ⟨0, 0⟩).SetOperationResult 0
      = .error .null_dereference ∧
    (ArchiveExtractting.runCalls threeFiles
        (ArchiveExtractting.new "/out".toList false ⟨0, 0⟩ ⟨0, 0⟩ ⟨0, 0⟩)
        [.SetTotal 1034, .GetStream ⟨0, kExtract, true, 0⟩, .PrepareOperation kExtract,
         .SetOperationResult 0]).1
      = .error .null_dereference := by
  refine ⟨?_, ?_, by decide, by decide⟩
  · intro self result h
    unfold ArchiveExtractting.SetOperationResult
    split_ifs <;> first | rfl | simp_all
  · intro self size h
    simp [ArchiveExtractting.SetTotal, h]

/-! ### The two registry tables -/

/-- C27: on the code, the last entries of the two tables belong to different
formats: for the sentinel selector `LAST` `FormatGUID` returns the class
identity of 7z and `FormatExtension` returns `.zip`.  The selectors `SEVENZ`
and `LAST` have the same class identity and different extensions; among the
supported selectors (ordinals 0 to 9) equal class identities do imply equal
extensions. -/
theorem FormatRegistry_sentinel_entries_disagree :
    FormatGUID Format.LAST = .ok (some .CLSID_CFormat7z) ∧
    FormatExtension Format.LAST = .ok ".zip".toList ∧
    FormatGUID Format.SEVENZ = FormatGUID Format.LAST ∧
    FormatExtension Format.SEVENZ = .ok ".7z".toList ∧
    FormatExtension Format.SEVENZ ≠ FormatExtension Format.LAST ∧
    FormatGUID Format.ZIP = .ok (some .CLSID_CFormatZip) ∧
    FormatExtension Format.ZIP = FormatExtension Format.LAST ∧
    (∀ a b : Format, a ≤ 9 → b ≤ 9 → FormatGUID a = FormatGUID b →
      FormatExtension a = FormatExtension b) := by
  refine ⟨by decide, by decide, by decide, by decide, by decide, by decide, by decide, ?_⟩
  intro a b ha hb
  interval_cases a <;> interval_cases b <;> decide

/-! ### `Archive::Extract`, reader lifetime -/

theorem ArchiveExtractting.handle_no_reader_event (self : ArchiveExtractting)
    (archive_ : PropertySource) (c : ExtractCall) (r : ArchiveExtractting.CallResult)
    (h : self.handle archive_ c = .ok r) :
    Event.ReaderClose ∉ r.events := by
  cases c with
  | SetTotal size =>
    simp only [ArchiveExtractting.handle, Except.ok.injEq] at h
    subst h
    simp only [ArchiveExtractting.SetTotal]
    split_ifs <;> simp
  | SetCompleted =>
    simp only [ArchiveExtractting.handle, Except.ok.injEq] at h
    subst h
    simp
  | GetStream call =>
    simp only [ArchiveExtractting.handle, Except.ok.injEq] at h
    subst h
    simp only [ArchiveExtractting.GetStream]
    split_ifs <;> simp
  | PrepareOperation mode =>
    simp only [ArchiveExtractting.handle, Except.ok.injEq] at h
    subst h
    simp
  | SetOperationResult res =>
    simp only [ArchiveExtractting.handle] at h
    cases hs : self.SetOperationResult res with
    | error e => simp [hs] at h
    | ok v =>
      simp only [hs, Except.ok.injEq] at h
      subst h
      unfold ArchiveExtractting.SetOperationResult at hs
      split_ifs at hs <;> simp only [Except.ok.injEq, reduceCtorEq] at hs <;> subst hs <;> simp
  | CryptoGetTextPassword =>
    simp only [ArchiveExtractting.handle, Except.ok.injEq] at h
    subst h
    simp

theorem ArchiveExtractting.runCalls_no_reader_event (archive_ : PropertySource)
    (self : ArchiveExtractting) (calls : List ExtractCall) :
    Event.ReaderClose ∉ (ArchiveExtractting.runCalls archive_ self calls).2 := by
  induction calls generalizing self with
  | nil => simp [ArchiveExtractting.runCalls]
  | cons c cs ih =>
    simp only [ArchiveExtractting.runCalls]
    cases hh : self.handle archive_ c with
    | error e => simp
    | ok r =>
      simp only [List.mem_append, not_or]
      exact ⟨ArchiveExtractting.handle_no_reader_event self archive_ c r hh, ih r.self⟩

/-- C28: on the code, `Archive::Extract` returns false right after a failed
engine extract call, before the line that closes the reader: on every
execution in which the reader's open call succeeded and the engine's extract
call then fails, `Extract` returns false (or ends in a fault of a callback) and
the reader's `Close` is never called.  When the extract call succeeds and no
callback faults, `Close` is called exactly once, as the last call. -/
theorem Archive_Extract_failed_extract_skips_Close (host : Host) (path : WString)
    (format : Format) (root : WString) (callback : Bool) (t1 t2 t3 : FILETIME)
    (clsid : CLSID) (archive : Reader)
    (hp : path ≠ []) (ho : host.openFile path true = true)
    (hg : FormatGUID format = .ok (some clsid))
    (hc : host.createReader clsid = some archive)
    (hs : FAILED archive.openResult = false) :
    Event.ReaderOpen ∈ (Archive.Extract host path format root callback t1 t2 t3).events ∧
    (FAILED archive.extractResult = true →
      Event.ReaderClose ∉ (Archive.Extract host path format root callback t1 t2 t3).events ∧
      (Archive.Extract host path format root callback t1 t2 t3).returned ≠ .ok true) ∧
    (FAILED archive.extractResult = false →
      (Archive.Extract host path format root callback t1 t2 t3).returned = .ok true →
      ∃ pre, (Archive.Extract host path format root callback t1 t2 t3).events
          = pre ++ [.ReaderClose] ∧ Event.ReaderClose ∉ pre) := by
  have h1' : path.isEmpty = false := by
    cases path with
    | nil => exact absurd rfl hp
    | cons a l => rfl
  have hrun := ArchiveExtractting.runCalls_no_reader_event archive.getProperty
    (ArchiveExtractting.new root callback t1 t2 t3) archive.extractCalls
  have hpre : Event.ReaderClose ∉
      [Event.OpenFile path true, .CreateObject clsid .IID_IInArchive, .ReaderOpen,
        .ReaderExtract] ++
      (ArchiveExtractting.runCalls archive.getProperty
        (ArchiveExtractting.new root callback t1 t2 t3) archive.extractCalls).2 := by
    simp only [List.mem_append, not_or]
    exact ⟨by simp, hrun⟩
  unfold Archive.Extract
  simp only [h1', ho, Archive.LoadReader_of_guid host format clsid hg, hc, hs,
    Bool.false_eq_true, if_false, Bool.not_true, List.cons_append, List.nil_append,
    List.singleton_append]
  cases hr : (ArchiveExtractting.runCalls archive.getProperty
      (ArchiveExtractting.new root callback t1 t2 t3) archive.extractCalls).1 with
  | error e =>
    refine ⟨by simp, fun _ => ⟨?_, by simp⟩, fun _ h => by simp at h⟩
    simpa using hpre
  | ok final =>
    by_cases hf : FAILED archive.extractResult = true
    · simp only [hf, if_true]
      refine ⟨by simp, fun _ => ⟨?_, by simp⟩, fun h => by simp at h⟩
      simpa using hpre
    · have hf' : FAILED archive.extractResult = false := by simpa using hf
      simp only [hf', Bool.false_eq_true, if_false]
      refine ⟨by simp, fun h => by simp at h, fun _ _ =>
        ⟨[Event.OpenFile path true, .CreateObject clsid .IID_IInArchive, .ReaderOpen,
            .ReaderExtract] ++
          (ArchiveExtractting.runCalls archive.getProperty
            (ArchiveExtractting.new root callback t1 t2 t3) archive.extractCalls).2,
          by simp, hpre⟩⟩

theorem Archive_Extract_failed_extract_skips_Close_witness :
    Archive.Extract failingExtractHost "a.7z".toList Format.SEVENZ "/out".toList true
        ⟨0, 0⟩ ⟨0, 0⟩ ⟨0, 0⟩
      = { returned := .ok false,
          events := [.OpenFile "a.7z".toList true, .CreateObject .CLSID_CFormat7z .IID_IInArchive,
            .ReaderOpen, .ReaderExtract],
          extractting := some (ArchiveExtractting.new "/out".toList true ⟨0, 0⟩ ⟨0, 0⟩ ⟨0, 0⟩) } ∧
    Event.ReaderClose ∉
      (Archive.Extract failingExtractHost "a.7z".toList Format.SEVENZ "/out".toList true
        ⟨0, 0⟩ ⟨0, 0⟩ ⟨0, 0⟩).events :=
  ⟨by decide,
   ((Archive_Extract_failed_extract_skips_Close failingExtractHost "a.7z".toList Format.SEVENZ
      "/out".toList true ⟨0, 0⟩ ⟨0, 0⟩ ⟨0, 0⟩ .CLSID_CFormat7z
      { threeFilesReader with extractResult := E_FAIL }
      (by decide) rfl (by decide) rfl (by decide)).2.1 (by decide)).1⟩

/-! ### `HRESULT_FROM_WIN32` and the failed opens of `GetStream` -/

theorem HRESULT_FROM_WIN32_failed_iff (x : Nat) :
    FAILED (HRESULT_FROM_WIN32 x) = true ↔ x % 2 ^ 32 ≠ 0 := by
  have hx : x % 2 ^ 32 < 4294967296 := by
    have := Nat.mod_lt x (show 0 < 2 ^ 32 by norm_num)
    norm_num at this ⊢
    exact this
  unfold HRESULT_FROM_WIN32 FAILED
  have hyi : (x : Int) % 2 ^ 32 = ((x % 2 ^ 32 : Nat) : Int) := by push_cast; rfl
  rw [hyi]
  generalize x % 2 ^ 32 = y at hx ⊢
  have hlow : (y &&& 0x0000FFFF) < 2 ^ 32 := Nat.and_lt_two_pow _ (by norm_num)
  have hlt : ((y &&& 0x0000FFFF) ||| (7 <<< 16) ||| 0x80000000) < 2 ^ 32 :=
    Nat.or_lt_two_pow (Nat.or_lt_two_pow hlow (by decide)) (by decide)
  have hge : ((y &&& 0x0000FFFF) ||| (7 <<< 16) ||| 0x80000000) ≥ 2 ^ 31 := by
    apply Nat.testBit_implies_ge
    rw [Nat.testBit_or]
    have : Nat.testBit 0x80000000 31 = true := by decide
    rw [this, Bool.or_true]
  generalize ((y &&& 0x0000FFFF) ||| (7 <<< 16) ||| 0x80000000) = z at hlt hge ⊢
  norm_num at hlt hge
  simp only [decide_eq_true_eq]
  unfold wrapInt32
  split_ifs with h <;> omega

/-- C22: on the code, a failed open makes `GetStream` return
`HRESULT_FROM_WIN32(::GetLastError())`, which is a failure exactly when the
last-error code of the host is not 0: with the last-error code 0
(`ERROR_SUCCESS`) both the extraction callback and the compression callback
return `S_OK`, a success code, although no resource was opened.  No stream is
handed to the engine in any case. -/
theorem GetStream_failed_open_result :
    (∀ x : Nat, FAILED (HRESULT_FROM_WIN32 x) = true ↔ x % 2 ^ 32 ≠ 0) ∧
    HRESULT_FROM_WIN32 0 = S_OK ∧ SUCCEEDED (HRESULT_FROM_WIN32 0) = true ∧
    (∀ (self : ArchiveExtractting) (index : Nat) (archive_ : PropertySource) (lastError : Nat),
      self.file_.directory = false →
      (self.GetStream index kExtract archive_ false lastError).hr = HRESULT_FROM_WIN32 lastError ∧
      (self.GetStream index kExtract archive_ false lastError).outStream = none) ∧
    (∀ (self : ArchiveCompressing) (index : Nat) (info : PlatformFileInfo) (lastError : Nat),
      self.file_list_[index]? = some info → info.directory = false →
      self.GetStream index false lastError
        = .ok { hr := HRESULT_FROM_WIN32 lastError, inStream := none,
                events := [.OpenFile info.path true] }) ∧
    ((ArchiveExtractting.new "/out".toList true ⟨0, 0⟩ ⟨0, 0⟩ ⟨0, 0⟩).GetStream 0 kExtract
        oneFile false 0).hr = S_OK ∧
    ArchiveCompressing.GetStream
        { file_list_ := [fileEntry "x.txt".toList 3], path_ := "a.7z".toList, callback_ := true }
        0 false 0
      = .ok { hr := S_OK, inStream := none, events := [.OpenFile "x.txt".toList true] } := by
  refine ⟨HRESULT_FROM_WIN32_failed_iff, by decide, by decide, ?_, ?_, by decide, by decide⟩
  · intro self index archive_ lastError hd
    have hdir := ArchiveExtractting.readItem_directory self index archive_ hd
    simp [ArchiveExtractting.GetStream, hdir]
  · intro self index info lastError hi hd
    have hlt : index < self.file_list_.length := by
      rcases Nat.lt_or_ge index self.file_list_.length with h | h
      · exact h
      · rw [List.getElem?_eq_none h] at hi
        cases hi
    have hng : ¬ index > self.file_list_.length := by omega
    simp [ArchiveCompressing.GetStream, hng, ArchiveCompressing.vectorAt, hi, hd, bind,
      Except.bind, pure, Except.pure]

/-! ### `ArchiveCompressing::GetProperty` inside the list -/

theorem setLow64_pointer (bits x : Nat) :
    setLow 64 bits x % 18446744073709551616 = x % 18446744073709551616 := by
  simp only [setLow]
  norm_num
  omega

theorem ArchiveCompressing.releaseAndReturn_plain (host : PropertyHost) (var : VARIANT)
    (value : PROPVARIANT) (log : ReleaseLog)
    (hv : IsLeakableVarType value.vt = false) (hc : FAILED host.clearHr = false) :
    ArchiveCompressing.releaseAndReturn host var value log
      = { hr := S_OK, value := var,
          log := if hostOwnsPayload var.vt then log ++ [var.pointer] else log } := by
  simp [ArchiveCompressing.releaseAndReturn, ScopedVariant.ReleaseInto, hv, ScopedVariant.memcpy,
    ScopedVariant.destroy, VariantClear, hc, releasePayload]

/-- C21: on the code, for every file list, every index inside it and a
`*value` that holds nothing to release, `GetProperty` returns `S_OK` and
stores: for the is-directory property a boolean equal to the entry's
directory flag, for the size property an unsigned 64-bit number equal to the
entry's size, and for every identity other than path, is-directory, size and
is-anti it returns `E_INVALIDARG` and leaves `*value` unchanged.  For the path
property it stores a string variant that points to the text of the entry's
path, but the string has been released when the call returns: the local
`var` still owns it after `var.Release(value)`, and the destructor of `var`
frees it, so the pointer in `*value` is among the released payloads. -/
theorem ArchiveCompressing_GetProperty_path_released (self : ArchiveCompressing)
    (host : PropertyHost) (index : Nat) (info : PlatformFileInfo) (value : PROPVARIANT)
    (log : ReleaseLog)
    (hi : self.file_list_[index]? = some info)
    (hv : IsLeakableVarType value.vt = false) (hc : FAILED host.clearHr = false) :
    (∃ r, self.GetProperty host index .kpidPath value log = .ok r ∧ r.hr = S_OK ∧
      r.value.vt = VT_BSTR ∧ r.value.bstrVal = c_str info.path ∧
      r.value.pointer = host.allocated % 2 ^ 64 ∧
      r.log = log ++ [r.value.pointer] ∧ r.value.pointer ∈ r.log) ∧
    (∃ r, self.GetProperty host index .kpidIsDir value log = .ok r ∧ r.hr = S_OK ∧
      r.value.vt = VT_BOOL ∧
      r.value.boolVal = (if info.directory then VARIANT_TRUE else VARIANT_FALSE) ∧
      r.log = log) ∧
    (∃ r, self.GetProperty host index .kpidSize value log = .ok r ∧ r.hr = S_OK ∧
      r.value.vt = VT_UI8 ∧ r.value.uhVal = info.size % 2 ^ 64 ∧ r.log = log) ∧
    (∀ propID, propID ≠ .kpidPath → propID ≠ .kpidIsDir → propID ≠ .kpidSize →
      propID ≠ .kpidIsAnti →
      self.GetProperty host index propID value log
        = .ok { hr := E_INVALIDARG, value := value, log := log }) := by
  have hlt : index < self.file_list_.length := by
    rcases Nat.lt_or_ge index self.file_list_.length with h | h
    · exact h
    · rw [List.getElem?_eq_none h] at hi
      cases hi
  have hng : ¬ index > self.file_list_.length := by omega
  have hat : ArchiveCompressing.vectorAt self.file_list_ index = .ok info := by
    simp [ArchiveCompressing.vectorAt, hi]
  have hnl := ScopedVariant.new_not_leakable host.garbage
  have hpath : self.GetProperty host index .kpidPath value log
      = .ok (ArchiveCompressing.releaseAndReturn host
          { ScopedVariant.new host.garbage with
            vt := VT_BSTR,
            bits := setLow 64 (ScopedVariant.new host.garbage).bits host.allocated,
            str := c_str info.path } value log) := by
    simp only [ArchiveCompressing.GetProperty, reduceCtorEq, if_false, hng, hat, bind,
      Except.bind, ArchiveCompressing.setVar, ScopedVariant.Set, hnl, Bool.false_eq_true,
      pure, Except.pure]
  have hdir : self.GetProperty host index .kpidIsDir value log
      = .ok (ArchiveCompressing.releaseAndReturn host
          { ScopedVariant.new host.garbage with
            vt := VT_BOOL,
            bits := setLow 16 (ScopedVariant.new host.garbage).bits
              (lowBits 16 (if info.directory then VARIANT_TRUE else VARIANT_FALSE)) }
          value log) := by
    simp only [ArchiveCompressing.GetProperty, reduceCtorEq, if_false, hng, hat, bind,
      Except.bind, ArchiveCompressing.setVar, ScopedVariant.Set, hnl, Bool.false_eq_true,
      pure, Except.pure]
  have hsize : self.GetProperty host index .kpidSize value log
      = .ok (ArchiveCompressing.releaseAndReturn host
          { ScopedVariant.new host.garbage with
            vt := VT_UI8,
            bits := setLow 64 (ScopedVariant.new host.garbage).bits info.size }
          value log) := by
    simp only [ArchiveCompressing.GetProperty, reduceCtorEq, if_false, hng, hat, bind,
      Except.bind, ArchiveCompressing.setVar, ScopedVariant.Set, hnl, Bool.false_eq_true,
      pure, Except.pure]
  rw [ArchiveCompressing.releaseAndReturn_plain host _ value log hv hc] at hpath hdir hsize
  refine ⟨⟨_, hpath, ?_⟩, ⟨_, hdir, ?_⟩, ⟨_, hsize, ?_⟩, ?_⟩
  · have hp := fun bits : Nat => setLow64_pointer bits host.allocated
    have ho : hostOwnsPayload VT_BSTR = true := by decide
    simp [VARIANT.bstrVal, VARIANT.pointer, hp, ho]
  · have ho : hostOwnsPayload VT_BOOL = false := by decide
    have hb : ∀ (bits : Nat) (b : Bool),
        toSigned 16 (setLow 16 bits (lowBits 16 (if b then VARIANT_TRUE else VARIANT_FALSE)))
          = (if b then VARIANT_TRUE else VARIANT_FALSE) := by
      intro bits b
      cases b <;> simp only [toSigned, setLow, lowBits, VARIANT_TRUE, VARIANT_FALSE] <;>
        norm_num <;> omega
    simp [VARIANT.boolVal, ho, hb]
  · have ho : hostOwnsPayload VT_UI8 = false := by decide
    have hp := fun bits : Nat => setLow64_pointer bits info.size
    simp [VARIANT.uhVal, ho, hp]
  · intro propID h1 h2 h3 h4
    have hd : (ScopedVariant.destroy host.clearHr (ScopedVariant.new host.garbage) log).2
        = log := by
      simp [ScopedVariant.destroy, VariantClear, hc, releasePayload, ScopedVariant.new,
        hostOwnsPayload_empty]
    cases propID <;>
      simp_all [ArchiveCompressing.GetProperty, bind, Except.bind, pure, Except.pure]

theorem ArchiveCompressing_GetProperty_path_released_witness :
    ArchiveCompressing.GetProperty
        { file_list_ := [fileEntry "x.txt".toList 3], path_ := "a.7z".toList, callback_ := true }
        plainPropertyHost 0 .kpidPath VARIANT.empty []
      = .ok { hr := S_OK, value := bstrVariant 4096 "x.txt".toList, log := [4096] } ∧
    ∃ r, ArchiveCompressing.GetProperty
        { file_list_ := [fileEntry "x.txt".toList 3], path_ := "a.7z".toList, callback_ := true }
        plainPropertyHost 0 .kpidPath VARIANT.empty [] = .ok r ∧ r.hr = S_OK ∧
      r.value.vt = VT_BSTR ∧ r.value.bstrVal = c_str (fileEntry "x.txt".toList 3).path ∧
      r.value.pointer = plainPropertyHost.allocated % 2 ^ 64 ∧
      r.log = [] ++ [r.value.pointer] ∧ r.value.pointer ∈ r.log :=
  ⟨by decide,
   (ArchiveCompressing_GetProperty_path_released
      { file_list_ := [fileEntry "x.txt".toList 3], path_ := "a.7z".toList, callback_ := true }
      plainPropertyHost 0 (fileEntry "x.txt".toList 3) VARIANT.empty [] rfl (by decide)
      (by decide)).1⟩

/-! ### What `GetStream` carries over from the previous item -/

theorem ArchiveExtractting.readItem_determined (s1 s2 : ArchiveExtractting) (index : Nat)
    (a1 a2 : PropertySource) (hsame : ∀ propID, a1 index propID = a2 index propID)
    (hroot : s1.root_ = s2.root_) (hd : s1.file_.directory = s2.file_.directory)
    (hw : answersEveryField a1 index) :
    (s1.readItem index a1).filename = (s2.readItem index a2).filename ∧
    (s1.readItem index a1).attributes = (s2.readItem index a2).attributes ∧
    (s1.readItem index a1).directory = (s2.readItem index a2).directory ∧
    (s1.readItem index a1).last_modified = (s2.readItem index a2).last_modified ∧
    (s1.readItem index a1).size = (s2.readItem index a2).size ∧
    (s1.readItem index a1).path = (s2.readItem index a2).path := by
  obtain ⟨⟨hp1, hp2⟩, ⟨ha1, ha2⟩, _, ⟨hm1, hm2⟩, hs1⟩ := hw
  have hname : (s1.readItem index a1).filename = (s2.readItem index a2).filename := by
    simp only [ArchiveExtractting.readItem, ← hsame, (ArchiveExtractting.readSize_frame _ _).1,
      (ArchiveExtractting.readMTime_frame _ _).1]
    simp only [ArchiveExtractting.readIsDir]
    have hq : (ArchiveExtractting.readAttrib (ArchiveExtractting.readPath s1.file_
          (a1 index .kpidPath)) (a1 index .kpidAttrib)).filename
        = (ArchiveExtractting.readAttrib (ArchiveExtractting.readPath s2.file_
          (a1 index .kpidPath)) (a1 index .kpidAttrib)).filename := by
      rw [(ArchiveExtractting.readAttrib_frame _ _).1, (ArchiveExtractting.readAttrib_frame _ _).1]
      simp only [ArchiveExtractting.readPath, hp1, if_true]
      rcases hp2 with h | h
      · simp [h]
      · have hne : ¬ (VT_BSTR = VT_EMPTY) := by decide
        simp [h, hne]
    split_ifs <;> first | rfl | exact hq
  refine ⟨hname, ?_, ?_, ?_, ?_, ?_⟩
  · simp only [ArchiveExtractting.readItem, ← hsame, (ArchiveExtractting.readSize_frame _ _).2.1,
      (ArchiveExtractting.readMTime_frame _ _).2.1, (ArchiveExtractting.readIsDir_frame _ _).1]
    simp only [ArchiveExtractting.readAttrib, ha1, if_true]
    rcases ha2 with h | h
    · simp [h]
    · have hne : ¬ (VT_UI4 = VT_EMPTY) := by decide
      simp [h, hne]
  · simp only [ArchiveExtractting.readItem, ← hsame, ArchiveExtractting.readSize_directory,
      ArchiveExtractting.readMTime_directory]
    have hq : (ArchiveExtractting.readAttrib (ArchiveExtractting.readPath s1.file_
          (a1 index .kpidPath)) (a1 index .kpidAttrib)).directory
        = (ArchiveExtractting.readAttrib (ArchiveExtractting.readPath s2.file_
          (a1 index .kpidPath)) (a1 index .kpidAttrib)).directory := by
      rw [ArchiveExtractting.readAttrib_directory, ArchiveExtractting.readAttrib_directory,
        ArchiveExtractting.readPath_directory, ArchiveExtractting.readPath_directory]
      exact hd
    simp only [ArchiveExtractting.readIsDir]
    split_ifs <;> first | rfl | exact hq
  · simp only [ArchiveExtractting.readItem, ← hsame, (ArchiveExtractting.readSize_frame _ _).2.2.1]
    simp only [ArchiveExtractting.readMTime, hm1, if_true]
    rcases hm2 with h | h
    · simp [h]
    · have hne : ¬ (VT_FILETIME = VT_EMPTY) := by decide
      simp [h, hne]
  · simp only [ArchiveExtractting.readItem, ← hsame]
    simp only [ArchiveExtractting.readSize, hs1, if_true]
    split_ifs <;> rfl
  · have hpath : ∀ (s : ArchiveExtractting) (a : PropertySource),
        (s.readItem index a).path = Append s.root_ (s.readItem index a).filename := by
      intro s a
      simp only [ArchiveExtractting.readItem, (ArchiveExtractting.readSize_frame _ _).1,
        (ArchiveExtractting.readMTime_frame _ _).1]
    rw [hpath, hpath, hname, hroot]

theorem resize_of_le (s : WString) (n : Nat) (h : n ≤ s.length) : resize s n = s.take n := by
  simp [resize, Nat.sub_eq_zero_of_le h]

theorem FindDriveLetter_cases (path : WString) :
    (FindDriveLetter path = 1 ∧ 2 ≤ path.length) ∨ FindDriveLetter path = npos := by
  unfold FindDriveLetter
  split_ifs with h
  · exact Or.inl ⟨rfl, h.1⟩
  · exact Or.inr rfl

theorem sizeAdd_drive_start (path : WString) :
    1 ≤ sizeAdd (FindDriveLetter path) 2 := by
  rcases FindDriveLetter_cases path with ⟨h, _⟩ | h <;> rw [h] <;> decide

theorem stripLoop_take (start : Nat) : ∀ (pos : Nat) (path : WString) (last_stripped : Nat),
    pos ≤ path.length →
    ∃ k, stripLoop start pos path last_stripped = path.take k ∧ k ≤ path.length ∧
      min start path.length ≤ k := by
  intro pos
  induction pos with
  | zero =>
    intro path ls _
    exact ⟨path.length, by simp [stripLoop], le_refl _, Nat.min_le_right _ _⟩
  | succ pos ih =>
    intro path ls hpos
    simp only [stripLoop]
    split_ifs with h1 h2
    · have hr : resize path pos = path.take pos := resize_of_le _ _ (by omega)
      have hlen : (resize path pos).length = pos := by
        rw [hr, List.length_take]; omega
      obtain ⟨k, hk, hk1, hk2⟩ := ih (resize path pos) (pos + 1) (by omega)
      rw [hlen] at hk1 hk2
      have hs : start ≤ pos := by have := h1.1; omega
      refine ⟨k, ?_, by omega, ?_⟩
      · rw [hk, hr, List.take_take, Nat.min_eq_left hk1]
      · rw [Nat.min_eq_left hs] at hk2
        exact le_trans (Nat.min_le_left _ _) hk2
    · exact ih path ls (by omega)
    · exact ⟨path.length, by simp, le_refl _, Nat.min_le_right _ _⟩

theorem StripTrailingSeparators_take (path : WString) :
    ∃ k, StripTrailingSeparators path = path.take k ∧ k ≤ path.length ∧
      (path ≠ [] → 0 < k) := by
  obtain ⟨k, hk, hk1, hk2⟩ := stripLoop_take (sizeAdd (FindDriveLetter path) 2) path.length path
    npos (le_refl _)
  refine ⟨k, hk, hk1, fun hne => ?_⟩
  have h1 := sizeAdd_drive_start path
  have h2 : 0 < path.length := List.length_pos.mpr hne
  have h3 : 1 ≤ min (sizeAdd (FindDriveLetter path) 2) path.length := le_min h1 h2
  omega

theorem StripTrailingSeparators_ne_nil (path : WString) (h : path ≠ []) :
    StripTrailingSeparators path ≠ [] := by
  obtain ⟨k, hk, hk1, hk2⟩ := StripTrailingSeparators_take path
  have hlen : (StripTrailingSeparators path).length = k := by
    rw [hk, List.length_take]; omega
  intro h0
  rw [h0] at hlen
  have := hk2 h
  simp at hlen
  omega

theorem StripTrailingSeparators_length_le (path : WString) :
    (StripTrailingSeparators path).length ≤ path.length := by
  obtain ⟨k, hk, hk1, _⟩ := StripTrailingSeparators_take path
  rw [hk, List.length_take]; omega

theorem findLastIdx_lt (p : Char → Bool) : ∀ (s : WString) (i : Nat),
    findLastIdx p s = some i → i < s.length := by
  intro s
  induction s with
  | nil => intro i h; simp [findLastIdx] at h
  | cons c cs ih =>
    intro i h
    simp only [findLastIdx] at h
    cases hr : findLastIdx p cs with
    | some j =>
      rw [hr] at h
      simp only [Option.some.injEq] at h
      have := ih j hr
      simp only [List.length_cons]
      omega
    | none =>
      rw [hr] at h
      split_ifs at h
      simp only [Option.some.injEq] at h
      simp only [List.length_cons]
      omega

theorem find_last_of_lt (path : WString) (chars : List Char)
    (h : find_last_of path chars ≠ npos) : find_last_of path chars < path.length := by
  unfold find_last_of at h ⊢
  cases hr : findLastIdx (fun c => chars.contains c) path with
  | some i => exact findLastIdx_lt _ _ _ hr
  | none => rw [hr] at h; exact absurd rfl h

/-! ### `GetParent`: its result and its iteration -/

theorem GetParent_cases (p : WString) :
    GetParent p ≠ [] ∧
    (GetParent p = kCurrentDirectory ∨ ∃ k, k ≤ p.length ∧ GetParent p = p.take k) := by
  obtain ⟨k1, hk1, hk1le, _⟩ := StripTrailingSeparators_take p
  have hlen1 : (StripTrailingSeparators p).length = k1 := by
    rw [hk1, List.length_take]; omega
  have hmid : ∃ k2, k2 ≤ p.length ∧
      (if find_last_of (StripTrailingSeparators p) (kSeparators.take (kSeparatorsLength - 1))
            = npos then
          resize (StripTrailingSeparators p)
            (sizeAdd (FindDriveLetter (StripTrailingSeparators p)) 1)
        else if find_last_of (StripTrailingSeparators p)
            (kSeparators.take (kSeparatorsLength - 1))
            = sizeAdd (FindDriveLetter (StripTrailingSeparators p)) 1 then
          resize (StripTrailingSeparators p)
            (sizeAdd (FindDriveLetter (StripTrailingSeparators p)) 2)
        else if find_last_of (StripTrailingSeparators p)
            (kSeparators.take (kSeparatorsLength - 1))
            = sizeAdd (FindDriveLetter (StripTrailingSeparators p)) 2 ∧
            IsSeparator (charAt (StripTrailingSeparators p)
              (sizeAdd (FindDriveLetter (StripTrailingSeparators p)) 1)) = true then
          resize (StripTrailingSeparators p)
            (sizeAdd (FindDriveLetter (StripTrailingSeparators p)) 3)
        else if find_last_of (StripTrailingSeparators p)
            (kSeparators.take (kSeparatorsLength - 1)) ≠ 0 then
          resize (StripTrailingSeparators p)
            (find_last_of (StripTrailingSeparators p) (kSeparators.take (kSeparatorsLength - 1)))
        else StripTrailingSeparators p) = p.take k2 := by
    have key : ∀ n, n ≤ (StripTrailingSeparators p).length →
        ∃ k2, k2 ≤ p.length ∧ resize (StripTrailingSeparators p) n = p.take k2 := by
      intro n hn
      refine ⟨n, by omega, ?_⟩
      rw [resize_of_le _ _ hn, hk1, List.take_take, Nat.min_eq_left (by omega)]
    generalize hsep : find_last_of (StripTrailingSeparators p)
      (kSeparators.take (kSeparatorsLength - 1)) = last_separator
    have hlt : last_separator ≠ npos → last_separator < (StripTrailingSeparators p).length := by
      intro hne
      rw [← hsep] at hne ⊢
      exact find_last_of_lt _ _ hne
    have hletter := FindDriveLetter_cases (StripTrailingSeparators p)
    split_ifs with h1 h2 h3 h4
    · apply key
      rcases hletter with ⟨h, h'⟩ | h <;> rw [h]
      · exact h'
      · exact Nat.zero_le _
    · apply key
      have := hlt h1
      rcases hletter with ⟨h, h'⟩ | h <;> rw [h] at h2 ⊢
      · have e : sizeAdd 1 1 = 2 := by decide
        have e' : sizeAdd 1 2 = 3 := by decide
        rw [e] at h2; rw [e']; omega
      · have e : sizeAdd npos 1 = 0 := by decide
        have e' : sizeAdd npos 2 = 1 := by decide
        rw [e] at h2; rw [e']; omega
    · apply key
      have := hlt h1
      obtain ⟨h3, _⟩ := h3
      rcases hletter with ⟨h, h'⟩ | h <;> rw [h] at h3 ⊢
      · have e : sizeAdd 1 2 = 3 := by decide
        have e' : sizeAdd 1 3 = 4 := by decide
        rw [e] at h3; rw [e']; omega
      · have e : sizeAdd npos 2 = 1 := by decide
        have e' : sizeAdd npos 3 = 2 := by decide
        rw [e] at h3; rw [e']; omega
    · apply key
      exact Nat.le_of_lt (hlt h1)
    · exact ⟨k1, hk1le, hk1⟩
  obtain ⟨k2, hk2le, hk2⟩ := hmid
  obtain ⟨k3, hk3, hk3le, _⟩ := StripTrailingSeparators_take (p.take k2)
  have hlen2 : (p.take k2).length = k2 := by rw [List.length_take]; omega
  simp only [GetParent]
  rw [hk2]
  split_ifs with h0
  · exact ⟨by decide, Or.inl rfl⟩
  · refine ⟨fun h => h0 (by rw [h]; rfl), Or.inr ⟨k3, by omega, ?_⟩⟩
    rw [hk3, List.take_take, Nat.min_eq_left (by omega)]

/-- Each step of `GetParent` yields its argument, `.`, or a strictly shorter
string. -/
theorem GetParent_step (p : WString) :
    GetParent p = p ∨ GetParent p = kCurrentDirectory ∨ (GetParent p).length < p.length := by
  obtain ⟨_, h | ⟨k, hk, h⟩⟩ := GetParent_cases p
  · exact Or.inr (Or.inl h)
  · by_cases hlt : k < p.length
    · right; right
      rw [h, List.length_take]; omega
    · left
      rw [h]
      exact List.take_of_length_le (by omega)

theorem GetParent_current : GetParent kCurrentDirectory = kCurrentDirectory := by decide

theorem GetParent_iterate_fixed : ∀ (n : Nat) (p : WString),
    (if p = kCurrentDirectory then 0 else p.length + 1) ≤ n →
    ∃ k, k ≤ n ∧ GetParent (GetParent^[k] p) = GetParent^[k] p := by
  intro n
  induction n with
  | zero =>
    intro p h
    split_ifs at h with hp
    · exact ⟨0, le_refl _, by rw [Function.iterate_zero, id, hp]; exact GetParent_current⟩
    · omega
  | succ n ih =>
    intro p h
    by_cases hfix : GetParent p = p
    · exact ⟨0, Nat.zero_le _, by rw [Function.iterate_zero, id]; exact hfix⟩
    · have hp : p ≠ kCurrentDirectory := fun hp => hfix (by rw [hp]; exact GetParent_current)
      rw [if_neg hp] at h
      have hdec : (if GetParent p = kCurrentDirectory then 0 else (GetParent p).length + 1) ≤ n := by
        rcases GetParent_step p with h1 | h1 | h1
        · exact absurd h1 hfix
        · rw [if_pos h1]; exact Nat.zero_le _
        · split_ifs <;> omega
      obtain ⟨k, hk, hk'⟩ := ih (GetParent p) hdec
      exact ⟨k + 1, by omega, by rw [Function.iterate_succ_apply]; exact hk'⟩

/-! ### `CreatePathTree` returns -/

theorem CreatePathTree_returns {σ : Type} (fs : FileSystem σ) : ∀ (depth : Nat) (s : σ)
    (path : WString), (if path = kCurrentDirectory then 0 else path.length + 1) < depth →
    ∃ r, CreatePathTree fs depth s path = some r := by
  intro depth
  induction depth with
  | zero => intro s path h; omega
  | succ depth ih =>
    intro s path h
    simp only [CreatePathTree]
    split_ifs with h1 h2 h3 h4
    · exact ⟨_, rfl⟩
    · exact ⟨_, rfl⟩
    · exact ⟨_, rfl⟩
    · exact ⟨_, rfl⟩
    · have hfix : GetParent path ≠ path := fun e => h4 e.symm
      have hp : path ≠ kCurrentDirectory := fun hp => hfix (by rw [hp]; exact GetParent_current)
      rw [if_neg hp] at h
      have hdec : (if GetParent path = kCurrentDirectory then 0
          else (GetParent path).length + 1) < depth := by
        rcases GetParent_step path with h5 | h5 | h5
        · exact absurd h5 hfix
        · rw [if_pos h5]; omega
        · split_ifs <;> omega
      obtain ⟨r, hr⟩ := ih
        (fs.GetFileAttributes (fs.CreateDirectoryEx s (c_str path)).2 (c_str path)).2
        (GetParent path) hdec
      rw [hr]
      obtain ⟨b, s1⟩ := r
      cases b
      · exact ⟨_, rfl⟩
      · simp only
        split_ifs <;> exact ⟨_, rfl⟩

/-- C29: for every path string `p`, `GetParent p` is not empty; each step of
`GetParent` yields its argument, a strictly shorter string, or `.`; iterating
`GetParent` from `p` reaches a string that `GetParent` maps to itself after at
most `length p + 1` steps; and `CreatePathTree` returns for every host file
system, host state and path once its recursion may go `length p + 2` deep. -/
theorem GetParent_reaches_fixed_point_CreatePathTree_returns :
    (∀ p : WString, GetParent p ≠ []) ∧
    (∀ p : WString, GetParent p = p ∨ (GetParent p).length < p.length ∨
      GetParent p = kCurrentDirectory) ∧
    (∀ p : WString, ∃ k, k ≤ p.length + 1 ∧ GetParent (GetParent^[k] p) = GetParent^[k] p) ∧
    (∀ (σ : Type) (fs : FileSystem σ) (s : σ) (p : WString),
      ∃ r, CreatePathTree fs (p.length + 2) s p = some r) := by
  refine ⟨fun p => (GetParent_cases p).1, fun p => ?_, fun p => ?_, fun σ fs s p => ?_⟩
  · rcases GetParent_step p with h | h | h
    · exact Or.inl h
    · exact Or.inr (Or.inr h)
    · exact Or.inr (Or.inl h)
  · apply GetParent_iterate_fixed
    split_ifs <;> omega
  · apply CreatePathTree_returns
    split_ifs <;> omega

/-! ### `Append`: the component after the cut at the first terminator -/

theorem charAt_take (s : WString) (i j : Nat) (h : j < i) :
    charAt (s.take i) j = charAt s j := by
  simp [charAt, List.getD_eq_getElem?_getD, List.getElem?_take, h]

theorem IsSeparator_ne_terminator (c : Char) (h : IsSeparator c = true) :
    c ≠ kStringTerminator := by
  rintro rfl
  exact absurd h (by decide)

theorem FindDriveLetter_eq_one (s : WString) (h : FindDriveLetter s = 1) :
    2 ≤ s.length ∧ charAt s 1 = ':' ∧
      (('A' ≤ charAt s 0 ∧ charAt s 0 ≤ 'Z') ∨ ('a' ≤ charAt s 0 ∧ charAt s 0 ≤ 'z')) := by
  unfold FindDriveLetter at h
  split_ifs at h with hc
  · exact hc
  · exact absurd h (by decide)

theorem letter_ne_terminator (c : Char)
    (h : ('A' ≤ c ∧ c ≤ 'Z') ∨ ('a' ≤ c ∧ c ≤ 'z')) : c ≠ kStringTerminator := by
  rintro rfl
  revert h
  decide

theorem FindDriveLetter_take (s : WString) (i : Nat) (h2 : 2 ≤ i) (hi : i ≤ s.length) :
    FindDriveLetter (s.take i) = FindDriveLetter s := by
  have hlen : (s.take i).length = i := by rw [List.length_take]; omega
  unfold FindDriveLetter
  rw [hlen, charAt_take s i 1 (by omega), charAt_take s i 0 (by omega)]
  have e2 : s.length ≥ 2 := by omega
  simp only [h2, e2, ge_iff_le, true_and]

theorem IsPathAbsolute_take (s : WString) (i : Nat) (hi : i < s.length)
    (hnul : charAt s i = kStringTerminator) (habs : IsPathAbsolute s = true) :
    IsPathAbsolute (s.take i) = true ∧ s.take i ≠ [] := by
  have hlen : (s.take i).length = i := by rw [List.length_take]; omega
  simp only [IsPathAbsolute] at habs
  have hne : ∀ j, charAt s j ≠ kStringTerminator → i ≠ j := by
    rintro j hj rfl
    exact hj hnul
  split_ifs at habs with hl
  · have h1 : FindDriveLetter s = 1 := by
      rcases FindDriveLetter_cases s with ⟨h, _⟩ | h
      · exact h
      · exact absurd h hl
    obtain ⟨hlen2, hcolon, hletter⟩ := FindDriveLetter_eq_one s h1
    rw [h1] at habs
    have e : sizeAdd 1 1 = 2 := by decide
    rw [e] at habs
    simp only [Bool.and_eq_true, decide_eq_true_eq] at habs
    have n0 := hne 0 (letter_ne_terminator _ hletter)
    have n1 := hne 1 (by rw [hcolon]; decide)
    have n2 := hne 2 (IsSeparator_ne_terminator _ habs.2)
    have h3 : 3 ≤ i := by omega
    refine ⟨?_, fun h0 => ?_⟩
    · simp only [IsPathAbsolute]
      rw [FindDriveLetter_take s i (by omega) (by omega), h1, if_pos (by decide), e, hlen,
        charAt_take s i 2 (by omega)]
      simp only [Bool.and_eq_true, decide_eq_true_eq]
      exact ⟨by omega, habs.2⟩
    · rw [h0] at hlen
      simp at hlen
      omega
  · simp only [Bool.and_eq_true, decide_eq_true_eq] at habs
    have hl' : FindDriveLetter s = npos := not_not.mp hl
    have n0 := hne 0 (IsSeparator_ne_terminator _ habs.1.2)
    have n1 := hne 1 (IsSeparator_ne_terminator _ habs.2)
    have h2 : 2 ≤ i := by omega
    refine ⟨?_, fun h0 => ?_⟩
    · simp only [IsPathAbsolute]
      rw [FindDriveLetter_take s i h2 (by omega), hl', if_neg (by decide), hlen,
        charAt_take s i 0 (by omega), charAt_take s i 1 (by omega)]
      simp only [Bool.and_eq_true, decide_eq_true_eq]
      exact ⟨⟨by omega, habs.1.2⟩, habs.2⟩
    · rw [h0] at hlen
      simp at hlen
      omega

theorem IsPathAbsolute_ne_nil (s : WString) (h : IsPathAbsolute s = true) : s ≠ [] := by
  rintro rfl
  exact absurd h (by decide)

theorem find_cases (s : WString) (c : Char) :
    (find s c = npos ∧ (c ∉ s ∨ npos < s.length)) ∨ (find s c < s.length ∧ charAt s (find s c) = c) := by
  unfold find
  cases hr : s.findIdx? (fun x => x == c) with
  | none =>
    left
    refine ⟨rfl, Or.inl ?_⟩
    rw [List.findIdx?_eq_none_iff] at hr
    intro hmem
    have := hr c hmem
    simp at this
  | some i =>
    right
    rw [List.findIdx?_eq_some_iff_getElem] at hr
    obtain ⟨hlt, hp, _⟩ := hr
    refine ⟨hlt, ?_⟩
    simp only [beq_iff_eq] at hp
    simp [charAt, List.getD_eq_getElem?_getD, List.getElem?_eq_getElem hlt, hp]

/-- The value of the local `appended` of `Append`: the component cut at its
first terminator. -/
theorem appended_absolute (component : WString) (h : IsPathAbsolute component = true) :
    IsPathAbsolute (if find component kStringTerminator ≠ npos then
        component.take (find component kStringTerminator) else component) = true ∧
    (if find component kStringTerminator ≠ npos then
        component.take (find component kStringTerminator) else component) ≠ [] := by
  split_ifs with hn
  · rcases find_cases component kStringTerminator with ⟨h1, _⟩ | ⟨h1, h2⟩
    · exact absurd h1 hn
    · exact IsPathAbsolute_take component _ h1 h2 h
  · exact ⟨h, IsPathAbsolute_ne_nil _ h⟩

theorem appended_nul_free (component : WString) (h : kStringTerminator ∉ component) :
    (if find component kStringTerminator ≠ npos then
        component.take (find component kStringTerminator) else component) = component := by
  split_ifs with hn
  · rcases find_cases component kStringTerminator with ⟨h1, _⟩ | ⟨h1, h2⟩
    · exact absurd h1 hn
    · exfalso
      apply h
      rw [← h2]
      simp only [charAt, List.getD_eq_getElem?_getD, List.getElem?_eq_getElem h1,
        Option.getD_some]
      exact List.getElem_mem _
  · rfl

/-! ### `Append` -/

/-- C24 (counterexample): the component `C:\a` is absolute, and joined to the
empty base or to the base `.` it is returned as it is, not rejected. -/
theorem Append_empty_base_returns_absolute_component :
    IsPathAbsolute ['C', ':', '\\', 'a'] = true ∧
    Append [] ['C', ':', '\\', 'a'] = ['C', ':', '\\', 'a'] ∧
    Append [] ['C', ':', '\\', 'a'] ≠ [] ∧
    Append kCurrentDirectory ['C', ':', '\\', 'a'] = ['C', ':', '\\', 'a'] := by
  refine ⟨by decide, by decide, by decide, by decide⟩

/-- C24 (amended): for every base path that is neither empty nor `.` and every
absolute component, `Append` returns the empty string. -/
theorem Append_absolute_component_rejected (base component : WString)
    (hbase : base ≠ []) (hdot : base ≠ kCurrentDirectory)
    (habs : IsPathAbsolute component = true) :
    Append base component = [] := by
  obtain ⟨h1, h2⟩ := appended_absolute component habs
  have hb : ¬ base.length ≤ 0 := by
    have := List.length_pos.mpr hbase
    omega
  have ha : ¬ (if find component kStringTerminator ≠ npos then
      component.take (find component kStringTerminator) else component).length ≤ 0 := by
    have := List.length_pos.mpr h2
    omega
  simp only [Append]
  rw [if_neg hb, if_neg ha, if_neg hdot, if_pos h1]

/-- C24 (witness): the absolute component `C:\a` joined to the base `out`. -/
theorem Append_absolute_component_rejected_witness :
    ['o', 'u', 't'] ≠ [] ∧ ['o', 'u', 't'] ≠ kCurrentDirectory ∧
    IsPathAbsolute ['C', ':', '\\', 'a'] = true ∧
    Append ['o', 'u', 't'] ['C', ':', '\\', 'a'] = [] :=
  ⟨by decide, by decide, by decide,
   Append_absolute_component_rejected ['o', 'u', 't'] ['C', ':', '\\', 'a']
     (by decide) (by decide) (by decide)⟩

theorem sizeSub_one (n : Nat) (h0 : 0 < n) (h : n < 2 ^ 64) : sizeSub n 1 = n - 1 := by
  unfold sizeSub
  omega

theorem endsInSeparator_eq (s : WString) (h : s ≠ []) :
    endsInSeparator s = IsSeparator (charAt s (s.length - 1)) := by
  have hlt : s.length - 1 < s.length := by
    have := List.length_pos.mpr h
    omega
  simp only [endsInSeparator, List.getLast?_eq_getElem?, charAt, List.getD_eq_getElem?_getD,
    List.getElem?_eq_getElem hlt, Option.getD_some]

theorem isBareDrive_iff (s : WString) (h : s ≠ []) :
    isBareDrive s = true ↔ sizeAdd (FindDriveLetter s) 1 = s.length := by
  constructor
  · intro hb
    match s, hb with
    | [d, c], hb =>
      simp only [isBareDrive, decide_eq_true_eq] at hb
      have : FindDriveLetter [d, c] = 1 := by
        unfold FindDriveLetter
        rw [if_pos]
        exact ⟨by simp, hb.1, hb.2⟩
      rw [this]
      rfl
  · intro he
    rcases FindDriveLetter_cases s with ⟨h1, _⟩ | h1
    · obtain ⟨_, hcolon, hletter⟩ := FindDriveLetter_eq_one s h1
      rw [h1] at he
      have e : sizeAdd 1 1 = 2 := by decide
      rw [e] at he
      match s, he, hcolon, hletter with
      | [d, c], _, hcolon, hletter =>
        simp only [isBareDrive, decide_eq_true_eq]
        exact ⟨hcolon, hletter⟩
    · rw [h1] at he
      have e : sizeAdd npos 1 = 0 := by decide
      rw [e] at he
      exact absurd (List.length_eq_zero.mp he.symm) h

/-- C30: for every non-empty base other than `.` (of a length a `size_t`
holds) and every non-empty component that holds no terminator and is not
absolute: the stripped base is not empty and the index of the last-character
access is inside it; `Append` returns the stripped base, then one backslash
exactly when the stripped base neither ends in a separator nor is a bare
drive specification, then the component unchanged; the result has the
stripped base as a prefix and the component as a suffix. -/
theorem Append_relative_component (base component : WString)
    (hbase : base ≠ []) (hdot : base ≠ kCurrentDirectory) (hsize : base.length < 2 ^ 64)
    (hcomp : component ≠ []) (hnul : kStringTerminator ∉ component)
    (hrel : IsPathAbsolute component = false) :
    StripTrailingSeparators base ≠ [] ∧
    sizeSub (StripTrailingSeparators base).length 1 < (StripTrailingSeparators base).length ∧
    Append base component =
      StripTrailingSeparators base ++
        (if endsInSeparator (StripTrailingSeparators base) = false ∧
            isBareDrive (StripTrailingSeparators base) = false then ['\\'] else []) ++
        component ∧
    StripTrailingSeparators base <+: Append base component ∧
    component <:+ Append base component := by
  have hsb := StripTrailingSeparators_ne_nil base hbase
  have hpos := List.length_pos.mpr hsb
  have hle := StripTrailingSeparators_length_le base
  have hsub := sizeSub_one (StripTrailingSeparators base).length hpos (by omega)
  have hb : ¬ base.length ≤ 0 := by
    have := List.length_pos.mpr hbase
    omega
  have hc : ¬ component.length ≤ 0 := by
    have := List.length_pos.mpr hcomp
    omega
  have hrel' : ¬ IsPathAbsolute component = true := by rw [hrel]; decide
  have hsep : charAt kSeparators 0 = '\\' := by decide
  have heq : Append base component =
      StripTrailingSeparators base ++
        (if endsInSeparator (StripTrailingSeparators base) = false ∧
            isBareDrive (StripTrailingSeparators base) = false then ['\\'] else []) ++
        component := by
    simp only [Append]
    rw [appended_nul_free component hnul, if_neg hb, if_neg hc, if_neg hdot, if_neg hrel',
      hsub, ← endsInSeparator_eq _ hsb, hsep]
    by_cases he : endsInSeparator (StripTrailingSeparators base) = false
    · by_cases hd : isBareDrive (StripTrailingSeparators base) = true
      · have hd' := (isBareDrive_iff _ hsb).mp hd
        simp [he, hd, hd']
      · have hd' : sizeAdd (FindDriveLetter (StripTrailingSeparators base)) 1 ≠
            (StripTrailingSeparators base).length :=
          fun h => hd ((isBareDrive_iff _ hsb).mpr h)
        simp [he, hd, hd']
    · simp [he]
  refine ⟨hsb, by omega, heq, ?_, ?_⟩
  · rw [heq, List.append_assoc]
    exact List.prefix_append _ _
  · rw [heq]
    exact List.suffix_append _ _

/-- C30 (witness): the component `b.txt` joined to the base `C:\a\`, whose
stripped form `C:\a` takes one backslash. -/
theorem Append_relative_component_witness :
    (['C', ':', '\\', 'a', '\\'] ≠ [] ∧ ['C', ':', '\\', 'a', '\\'] ≠ kCurrentDirectory ∧
      ['b', '.', 't', 'x', 't'] ≠ [] ∧ kStringTerminator ∉ ['b', '.', 't', 'x', 't'] ∧
      IsPathAbsolute ['b', '.', 't', 'x', 't'] = false) ∧
    StripTrailingSeparators ['C', ':', '\\', 'a', '\\'] = ['C', ':', '\\', 'a'] ∧
    Append ['C', ':', '\\', 'a', '\\'] ['b', '.', 't', 'x', 't'] =
      ['C', ':', '\\', 'a', '\\', 'b', '.', 't', 'x', 't'] :=
  ⟨⟨by decide, by decide, by decide, by decide, by decide⟩, by decide,
   (Append_relative_component ['C', ':', '\\', 'a', '\\'] ['b', '.', 't', 'x', 't']
      (by decide) (by decide) (by decide) (by decide) (by decide) (by decide)).2.2.1.trans
      (by decide)⟩

/-- The recursion of `CreatePathTree` on a host where nothing exists and
nothing can be created: for `a\b` it descends to `a` and to `.`, where the
guard `path == parent_path` ends it. -/
theorem CreatePathTree_refusing_example :
    CreatePathTree refusingFileSystem 5 0 ['a', '\\', 'b'] = some (false, 6) ∧
    CreatePathTree refusingFileSystem 2 0 ['a', '\\', 'b'] = none := by
  refine ⟨by decide, by decide⟩
end Juice
